import Mathlib

/-!
# Display-filter functions (`epan/dfilter/dfunctions.c`)

A shallow embedding of the built-in display-filter evaluators
(`lower`, `upper`, `count`, `string`, `max`, `min`, `abs`), of the parameter classifier and the
built-in semantic checks, and of the function registry, and theorems about them.

Conventions of the embedding:

* a `GPtrArray *` of field values is a `List fvalue_t`; a parameter slot of the stack may hold
  the null pointer, so the stack is a `List (Option GPtrArray)`;
* the output cell is a list of `fvalue_t *`; an entry may be the null pointer, hence
  `List (Option fvalue_t)`;
* an evaluator returns `Option (Bool × df_cell_t)`: `none` stands for an aborted run
  (failed `ws_assert`, null pointer dereference), `some (b, cell)` for a return of `b` with the
  cell left as `cell`;
* the operations of the field-type library that the evaluators call through function pointers
  or that live outside this file (`FT_IS_STRING`, `fvalue_gt`, `fvalue_is_negative`, ...) are
  arguments of the embedded evaluators; models of them follow the evaluators;
* a semantic check returns `Option (Except df_error_t ftenum × dfwork_t)`: the diagnostic thrown
  by `dfunc_fail` or the result kind, and the compilation state left behind; the checkers of
  sub-expressions and the predicates on kinds that live outside this file are the members of a
  `semcheck_env`, and so is the build option that compiles the assertions of the checkers in
  or out;
* to state what a call of an evaluator leaves unchanged, the evaluators are embedded a second
  time on a store of field values, where an `fvalue_t *` is an address (suffix `_mem`);
* the global `registered_functions` is passed explicitly as an `Option GHashTable`, a definition
  object is a pointer `df_func_ptr`, and the records of extensions are read through a
  `plugin_memory`.
-/

namespace Dfunctions

/-! ## Data model -/

/-- Modelled from the spec: the `ftenum` enumeration of field kinds. Its declaration
(`ftypes/ftypes.h`) is not part of the sources; the constructors are the kinds that
`dfunctions.c` and the data model of the specification name. -/
inductive ftenum
  | FT_NONE | FT_PROTOCOL | FT_BOOLEAN | FT_CHAR
  | FT_UINT8 | FT_UINT16 | FT_UINT24 | FT_UINT32
  | FT_UINT40 | FT_UINT48 | FT_UINT56 | FT_UINT64
  | FT_INT8 | FT_INT16 | FT_INT24 | FT_INT32
  | FT_INT40 | FT_INT48 | FT_INT56 | FT_INT64
  | FT_IEEE_11073_SFLOAT | FT_IEEE_11073_FLOAT
  | FT_FLOAT | FT_DOUBLE
  | FT_ABSOLUTE_TIME | FT_RELATIVE_TIME
  | FT_STRING | FT_STRINGZ | FT_UINT_STRING
  | FT_ETHER | FT_BYTES | FT_UINT_BYTES | FT_TVBUFF
  | FT_IPv4 | FT_IPv6 | FT_IPXNET | FT_FRAMENUM
  | FT_GUID | FT_OID | FT_EUI64 | FT_AX25 | FT_VINES
  | FT_REL_OID | FT_SYSTEM_ID | FT_STRINGZPAD | FT_FCWWN | FT_STRINGZTRUNC
  deriving DecidableEq, Repr

/-- A C `char`, as the value of its byte (0..255). -/
abbrev gchar := Nat

/-- The content of a `wmem_strbuf_t`: `len` bytes, embedded NUL bytes included. -/
abbrev wmem_strbuf_t := List gchar

/-- The payload union of an `fvalue_t`. Only the members the evaluators read or write are
interpreted; every other payload (addresses, floating point, ...) is kept as raw bytes. -/
inductive fvalue_value
  | unset
  | strbuf (s : wmem_strbuf_t)
  | uinteger (n : Nat)
  | sinteger (i : Int)
  | raw (bytes : List Nat)
  deriving DecidableEq, Repr

/-- A field value: its kind and its payload. -/
structure fvalue_t where
  ftype : ftenum
  value : fvalue_value
  deriving DecidableEq, Repr

/-- A `GPtrArray` of field values (the occurrences of one parameter in a packet). Its `len`
field is a 32-bit `guint`. -/
abbrev GPtrArray := List fvalue_t

/-- The output cell: the appended `fvalue_t *` in append order. -/
abbrev df_cell_t := List (Option fvalue_t)

/-- Embedding of `fvalue_type_ftenum`: the kind of a value. -/
def fvalue_type_ftenum (fv : fvalue_t) : ftenum := fv.ftype

/-- Embedding of `fvalue_new`: a fresh value of the given kind, payload not yet set. -/
def fvalue_new (ft : ftenum) : fvalue_t := ⟨ft, .unset⟩

/-- Embedding of `fvalue_get_strbuf`: the string buffer of a string value. Reading the member
of a value whose payload is not a string buffer is undefined in C; the model yields the empty
buffer. -/
def fvalue_get_strbuf (fv : fvalue_t) : wmem_strbuf_t :=
  match fv.value with
  | .strbuf s => s
  | _ => []

/-- Embedding of `fvalue_set_strbuf`: store a string buffer. -/
def fvalue_set_strbuf (fv : fvalue_t) (s : wmem_strbuf_t) : fvalue_t := ⟨fv.ftype, .strbuf s⟩

/-- Embedding of `fvalue_set_string`: store a copy of a C string. -/
def fvalue_set_string (fv : fvalue_t) (s : List gchar) : fvalue_t := ⟨fv.ftype, .strbuf s⟩

/-- Embedding of `fvalue_set_uinteger`: store a `uint32_t`. -/
def fvalue_set_uinteger (fv : fvalue_t) (n : Nat) : fvalue_t :=
  ⟨fv.ftype, .uinteger (n % 2 ^ 32)⟩

/-- Modelled from the spec: `dup` of the field-type library (`fvalue_dup`, not part of the
sources): a new value equal to its argument. Ownership is not modelled. -/
def fvalue_dup (fv : fvalue_t) : fvalue_t := fv

/-- Embedding of `df_cell_append`: add one pointer at the end of the cell. -/
def df_cell_append (rp : df_cell_t) (fv : Option fvalue_t) : df_cell_t := rp ++ [fv]

/-- Embedding of `df_cell_is_empty`: no pointer was appended. -/
def df_cell_is_empty (rp : df_cell_t) : Bool := rp.isEmpty

/-- Embedding of `wmem_strbuf_append_c`: add one byte at the end of a string buffer. -/
def wmem_strbuf_append_c (dst : wmem_strbuf_t) (c : gchar) : wmem_strbuf_t := dst ++ [c]

/-- Modelled from the spec: `g_ascii_tolower` (GLib, not part of the sources), the ASCII-only
lower-case mapping: the bytes `'A'..'Z'` go to `'a'..'z'`, every other byte is unchanged. -/
def g_ascii_tolower (c : gchar) : gchar := if 65 ≤ c ∧ c ≤ 90 then c - 65 + 97 else c

/-- Modelled from the spec: `g_ascii_toupper` (GLib, not part of the sources), the ASCII-only
upper-case mapping: the bytes `'a'..'z'` go to `'A'..'Z'`, every other byte is unchanged. -/
def g_ascii_toupper (c : gchar) : gchar := if 97 ≤ c ∧ c ≤ 122 then c - 97 + 65 else c

/-! ## `lower` and `upper` -/

/-- The inner loop of `string_walk`: `conv_func` of each byte of `src`, appended to `dst`. -/
def string_walk_conv (conv_func : gchar → gchar) : List gchar → wmem_strbuf_t → wmem_strbuf_t
  | [], dst => dst
  | c :: rest, dst => string_walk_conv conv_func rest (wmem_strbuf_append_c dst (conv_func c))

/-- The outer loop of `string_walk` over the values of `arg1`. -/
def string_walk_loop (ft_is_string : ftenum → Bool) (conv_func : gchar → gchar) :
    List fvalue_t → df_cell_t → df_cell_t
  | [], retval => retval
  | arg_fvalue :: rest, retval =>
    if ft_is_string (fvalue_type_ftenum arg_fvalue) then
      let src := fvalue_get_strbuf arg_fvalue
      let dst := string_walk_conv conv_func src []
      let new_ft_string := fvalue_set_strbuf (fvalue_new .FT_STRING) dst
      string_walk_loop ft_is_string conv_func rest (df_cell_append retval (some new_ft_string))
    else
      string_walk_loop ft_is_string conv_func rest retval

/-- Embedding of `string_walk`: convert each string value of the first parameter with
`conv_func`. The argument `ft_is_string` is the macro `FT_IS_STRING` of `ftypes.h`, which tells
the string kinds and whose definition is not part of the sources. -/
def string_walk (ft_is_string : ftenum → Bool) (stack : List (Option GPtrArray)) (arg_count : Nat)
    (retval : df_cell_t) (conv_func : gchar → gchar) : Option (Bool × df_cell_t) :=
  if arg_count ≠ 1 then none
  else
    match stack with
    | [] => none
    | none :: _ => some (false, retval)
    | some arg1 :: _ => some (true, string_walk_loop ft_is_string conv_func arg1 retval)

/-- The evaluator of `lower()`. -/
def df_func_lower (ft_is_string : ftenum → Bool) (stack : List (Option GPtrArray)) (arg_count : Nat)
    (retval : df_cell_t) : Option (Bool × df_cell_t) :=
  string_walk ft_is_string stack arg_count retval g_ascii_tolower

/-- The evaluator of `upper()`. -/
def df_func_upper (ft_is_string : ftenum → Bool) (stack : List (Option GPtrArray)) (arg_count : Nat)
    (retval : df_cell_t) : Option (Bool × df_cell_t) :=
  string_walk ft_is_string stack arg_count retval g_ascii_toupper

/-! ## `count` -/

/-- The evaluator of `count()`: one `FT_UINT32` holding the length of the first parameter. -/
def df_func_count (stack : List (Option GPtrArray)) (arg_count : Nat) (retval : df_cell_t) :
    Option (Bool × df_cell_t) :=
  if arg_count ≠ 1 then none
  else
    match stack with
    | [] => none
    | none :: _ => some (false, retval)
    | some arg1 :: _ =>
      let num_items := arg1.length % 2 ^ 32
      let ft_ret := fvalue_set_uinteger (fvalue_new .FT_UINT32) num_items
      some (true, df_cell_append retval (some ft_ret))

/-! ## `string` -/

/-- The kinds listed by the `switch` of `df_func_string`. -/
def df_func_string_case (ft : ftenum) : Bool :=
  match ft with
  | .FT_UINT8 | .FT_UINT16 | .FT_UINT24 | .FT_UINT32
  | .FT_UINT40 | .FT_UINT48 | .FT_UINT56 | .FT_UINT64
  | .FT_INT8 | .FT_INT16 | .FT_INT32
  | .FT_INT40 | .FT_INT48 | .FT_INT56 | .FT_INT64
  | .FT_IPv4 | .FT_IPv6 | .FT_FLOAT | .FT_DOUBLE
  | .FT_ETHER | .FT_FRAMENUM | .FT_AX25 | .FT_IPXNET
  | .FT_GUID | .FT_OID | .FT_EUI64 | .FT_VINES
  | .FT_REL_OID | .FT_SYSTEM_ID | .FT_FCWWN
  | .FT_IEEE_11073_SFLOAT | .FT_IEEE_11073_FLOAT => true
  | _ => false

/-- The loop of `df_func_string`. `fvalue_to_string_repr fv` is the display-filter
representation of `fv` with base `BASE_NONE`, `none` when the library returns `NULL`. The
`default:` branch of the `switch` leaves the loop (and the function) at once. -/
def df_func_string_loop (fvalue_to_string_repr : fvalue_t → Option (List gchar)) :
    List fvalue_t → df_cell_t → df_cell_t
  | [], retval => retval
  | arg_fvalue :: rest, retval =>
    if df_func_string_case (fvalue_type_ftenum arg_fvalue) then
      let s := match fvalue_to_string_repr arg_fvalue with
        | some s => s
        | none => []
      let new_ft_string := fvalue_set_string (fvalue_new .FT_STRING) s
      df_func_string_loop fvalue_to_string_repr rest (df_cell_append retval (some new_ft_string))
    else
      retval

/-- The evaluator of `string()`. -/
def df_func_string (fvalue_to_string_repr : fvalue_t → Option (List gchar))
    (stack : List (Option GPtrArray)) (arg_count : Nat) (retval : df_cell_t) :
    Option (Bool × df_cell_t) :=
  if arg_count ≠ 1 then none
  else
    match stack with
    | [] => none
    | none :: _ => some (false, retval)
    | some arg1 :: _ => some (true, df_func_string_loop fvalue_to_string_repr arg1 retval)

/-! ## `max` and `min` -/

/-- The inner loop of `df_func_compare` over the values of one parameter: `fv_ret` becomes the
value at hand when it is still null or when `fv_cmp arg_fvalue fv_ret` holds. -/
def df_func_compare_inner (fv_cmp : fvalue_t → fvalue_t → Bool) :
    List fvalue_t → Option fvalue_t → Option fvalue_t
  | [], fv_ret => fv_ret
  | arg_fvalue :: rest, none => df_func_compare_inner fv_cmp rest (some arg_fvalue)
  | arg_fvalue :: rest, some best =>
    if fv_cmp arg_fvalue best then df_func_compare_inner fv_cmp rest (some arg_fvalue)
    else df_func_compare_inner fv_cmp rest (some best)

/-- The outer loop of `df_func_compare` over the first `arg_count` nodes of the stack. The
outer `none` is the dereference of a missing node or of a null parameter list. -/
def df_func_compare_outer (fv_cmp : fvalue_t → fvalue_t → Bool) :
    Nat → List (Option GPtrArray) → Option fvalue_t → Option (Option fvalue_t)
  | 0, _, fv_ret => some fv_ret
  | _ + 1, [], _ => none
  | _ + 1, none :: _, _ => none
  | n + 1, some arg1 :: args, fv_ret =>
    df_func_compare_outer fv_cmp n args (df_func_compare_inner fv_cmp arg1 fv_ret)

/-- Embedding of `df_func_compare`: the value selected by `fv_cmp` among all values of all
parameters. -/
def df_func_compare (stack : List (Option GPtrArray)) (arg_count : Nat) (retval : df_cell_t)
    (fv_cmp : fvalue_t → fvalue_t → Bool) : Option (Bool × df_cell_t) :=
  match df_func_compare_outer fv_cmp arg_count stack none with
  | none => none
  | some none => some (false, retval)
  | some (some fv_ret) => some (true, df_cell_append retval (some (fvalue_dup fv_ret)))

/-- The evaluator of `max()`; `fvalue_gt` is the "greater than" test of the field-type
library. -/
def df_func_max (fvalue_gt : fvalue_t → fvalue_t → Bool) (stack : List (Option GPtrArray))
    (arg_count : Nat) (retval : df_cell_t) : Option (Bool × df_cell_t) :=
  df_func_compare stack arg_count retval fvalue_gt

/-- The evaluator of `min()`; `fvalue_lt` is the "less than" test of the field-type library. -/
def df_func_min (fvalue_lt : fvalue_t → fvalue_t → Bool) (stack : List (Option GPtrArray))
    (arg_count : Nat) (retval : df_cell_t) : Option (Bool × df_cell_t) :=
  df_func_compare stack arg_count retval fvalue_lt

/-! ## `abs` -/

/-- The loop of `df_func_abs`. `fvalue_unary_minus fv` is `none` when the library returns
`NULL` (the failure is logged); `new_fv` is appended in either case. -/
def df_func_abs_loop (fvalue_is_negative : fvalue_t → Bool)
    (fvalue_unary_minus : fvalue_t → Option fvalue_t) : List fvalue_t → df_cell_t → df_cell_t
  | [], retval => retval
  | fv_arg :: rest, retval =>
    let new_fv :=
      if fvalue_is_negative fv_arg then fvalue_unary_minus fv_arg
      else some (fvalue_dup fv_arg)
    df_func_abs_loop fvalue_is_negative fvalue_unary_minus rest (df_cell_append retval new_fv)

/-- The evaluator of `abs()`. -/
def df_func_abs (fvalue_is_negative : fvalue_t → Bool)
    (fvalue_unary_minus : fvalue_t → Option fvalue_t) (stack : List (Option GPtrArray))
    (arg_count : Nat) (retval : df_cell_t) : Option (Bool × df_cell_t) :=
  if arg_count ≠ 1 then none
  else
    match stack with
    | [] => none
    | none :: _ => some (false, retval)
    | some arg1 :: _ =>
      let retval := df_func_abs_loop fvalue_is_negative fvalue_unary_minus arg1 retval
      some (!df_cell_is_empty retval, retval)

/-! ## Models of the field-type library

The evaluators above take the operations of the field-type library as arguments. The
definitions below model these operations on string and integer values. -/

/-- Modelled from the spec: the macro `FT_IS_STRING` of `ftypes.h` (not part of the sources).
The specification speaks of a value "whose kind is STRING". -/
def FT_IS_STRING (ft : ftenum) : Bool := ft = .FT_STRING

/-- Modelled from the spec: the comparator `>` of the field-type library (`fvalue_gt`, not
part of the sources) on integer values: the payloads are compared as numbers. Values that are
not both unsigned or both signed integers are not ordered by the model. -/
def fvalue_gt (a b : fvalue_t) : Bool :=
  match a.value, b.value with
  | .uinteger x, .uinteger y => decide (y < x)
  | .sinteger x, .sinteger y => decide (y < x)
  | _, _ => false

/-- Modelled from the spec: the comparator `<` of the field-type library (`fvalue_lt`, not
part of the sources) on integer values: the payloads are compared as numbers. Values that are
not both unsigned or both signed integers are not ordered by the model. -/
def fvalue_lt (a b : fvalue_t) : Bool :=
  match a.value, b.value with
  | .uinteger x, .uinteger y => decide (x < y)
  | .sinteger x, .sinteger y => decide (x < y)
  | _, _ => false

/-- The width in bits of a signed integer kind. -/
def sint_width : ftenum → Option Nat
  | .FT_INT8 => some 8
  | .FT_INT16 => some 16
  | .FT_INT24 => some 24
  | .FT_INT32 => some 32
  | .FT_INT40 => some 40
  | .FT_INT48 => some 48
  | .FT_INT56 => some 56
  | .FT_INT64 => some 64
  | _ => none

/-- The number `x` lies in the range of a signed integer of width `w`, from `-2^(w-1)` to
`2^(w-1) - 1`. -/
def sint_fits (w : Nat) (x : Int) : Bool :=
  decide (-(2 : Int) ^ (w - 1) ≤ x ∧ x < (2 : Int) ^ (w - 1))

/-- Modelled from the spec: the predicate `is_negative` of the field-type library
(`fvalue_is_negative`, not part of the sources): a signed integer payload below zero. Unsigned
integers and strings are never negative; floating point payloads are not interpreted. -/
def fvalue_is_negative (fv : fvalue_t) : Bool :=
  match fv.value with
  | .sinteger i => decide (i < 0)
  | _ => false

/-- Modelled from the spec: the conversion `unary_minus` of the field-type library
(`fvalue_unary_minus`, not part of the sources) on the signed integer kinds: a value of the
same kind holding the negated payload. The specification lets the conversion fail ("attempt
`unary_minus`", "arithmetic failures degrade to skipped elements"): the model fails (`none`,
the library returns `NULL`) when the negated payload does not lie in the range of the kind, and
for every value that is not a signed integer. -/
def fvalue_unary_minus (fv : fvalue_t) : Option fvalue_t :=
  match sint_width fv.ftype, fv.value with
  | some w, .sinteger i =>
    if sint_fits w (-i) then some ⟨fv.ftype, .sinteger (-i)⟩ else none
  | _, _ => none

/-! ## Vocabulary of the statements -/

/-- The comparator `cmp` is a strict weak order on the values of `l`: irreflexive, transitive,
and with a transitive incomparability relation. -/
@[reducible] def StrictWeakOrderOn (cmp : fvalue_t → fvalue_t → Bool) (l : List fvalue_t) : Prop :=
  (∀ a ∈ l, cmp a a = false) ∧
  (∀ a ∈ l, ∀ b ∈ l, ∀ c ∈ l, cmp a b = true → cmp b c = true → cmp a c = true) ∧
  (∀ a ∈ l, ∀ b ∈ l, ∀ c ∈ l, (cmp a b = false ∧ cmp b a = false) →
    (cmp b c = false ∧ cmp c b = false) → (cmp a c = false ∧ cmp c a = false))

/-- Modelled from the spec: a stringifiable kind, the kind set of the `string` row of the
table of built-in checkers: "any integer width, floats, IPv4/IPv6, Ethernet, FRAMENUM, AX25,
IPXNET, GUID, OID, REL-OID, EUI64, VINES, SYSTEM-ID, FCWWN, 11073 floats". The integer widths
are the eight unsigned and the eight signed integer kinds. -/
def stringifiable_kind (ft : ftenum) : Bool :=
  match ft with
  | .FT_UINT8 | .FT_UINT16 | .FT_UINT24 | .FT_UINT32
  | .FT_UINT40 | .FT_UINT48 | .FT_UINT56 | .FT_UINT64
  | .FT_INT8 | .FT_INT16 | .FT_INT24 | .FT_INT32
  | .FT_INT40 | .FT_INT48 | .FT_INT56 | .FT_INT64
  | .FT_FLOAT | .FT_DOUBLE
  | .FT_IPv4 | .FT_IPv6 | .FT_ETHER | .FT_FRAMENUM | .FT_AX25 | .FT_IPXNET
  | .FT_GUID | .FT_OID | .FT_REL_OID | .FT_EUI64 | .FT_VINES | .FT_SYSTEM_ID | .FT_FCWWN
  | .FT_IEEE_11073_SFLOAT | .FT_IEEE_11073_FLOAT => true
  | _ => false

/-- The bytes of an ASCII text. -/
def ascii (s : String) : wmem_strbuf_t := s.toList.map Char.toNat

/-- A string value of kind `FT_STRING`. -/
def fv_string (s : wmem_strbuf_t) : fvalue_t := ⟨.FT_STRING, .strbuf s⟩

/-- An unsigned integer value of the given kind. -/
def fv_uint (ft : ftenum) (n : Nat) : fvalue_t := ⟨ft, .uinteger n⟩

/-- A signed integer value of the given kind. -/
def fv_sint (ft : ftenum) (i : Int) : fvalue_t := ⟨ft, .sinteger i⟩

/-- The byte `c` is an ASCII letter, `'A'..'Z'` or `'a'..'z'`. -/
@[reducible] def is_ascii_letter (c : gchar) : Prop := (65 ≤ c ∧ c ≤ 90) ∨ (97 ≤ c ∧ c ≤ 122)

/-! ## Semantic check of `string` -/

/-- Modelled from the spec: the enumeration `sttype_id_t` of the variants of a syntax node
(`syntax-tree.h` is not part of the sources); the constructors are the variants that
`df_semcheck_param` names. -/
inductive sttype_id_t
  | STTYPE_UNINITIALIZED | STTYPE_TEST | STTYPE_LITERAL | STTYPE_REFERENCE
  | STTYPE_STRING | STTYPE_CHARCONST | STTYPE_NUMBER | STTYPE_FIELD
  | STTYPE_FVALUE | STTYPE_SLICE | STTYPE_FUNCTION | STTYPE_SET
  | STTYPE_PCRE | STTYPE_ARITHMETIC | STTYPE_NUM_TYPES
  deriving DecidableEq, Repr

/-- The members of a `header_field_info` that the checkers read: the abbreviation of the field
(`abbrev` in C) and its declared kind (`type` in C). -/
structure header_field_info where
  hf_abbrev : String
  hf_type : ftenum
  deriving DecidableEq, Repr

/-- A syntax node: its variant and, for a `FIELD` or `REFERENCE` node, the field it names.
The data of the other variants is not read by the code embedded here. -/
structure stnode_t where
  type_id : sttype_id_t
  hfinfo : header_field_info
  deriving DecidableEq, Repr

/-- A source location (`df_loc_t`). -/
structure df_loc_t where
  col_start : Nat
  col_len : Nat
  deriving DecidableEq, Repr

/-- The compilation state `dfwork_t`: the counter of field references, a 32-bit `unsigned`,
and the rest of the state, which the code embedded here does not touch. -/
structure dfwork_t where
  field_count : Nat
  other : List Nat
  deriving DecidableEq, Repr

/-- The diagnostic raised by `dfunc_fail`: the offending node and the formatted message. -/
structure df_error_t where
  node : stnode_t
  msg : String
  deriving DecidableEq, Repr

/-- Embedding of `stnode_type_id`: the variant of a node. -/
def stnode_type_id (node : stnode_t) : sttype_id_t := node.type_id

/-- Embedding of `sttype_field_hfinfo`: the field that a `FIELD` node names. -/
def sttype_field_hfinfo (node : stnode_t) : header_field_info := node.hfinfo

/-- The functions of the semantic checker and of the field-type library that
`df_semcheck_param` and the built-in checks call and that are not part of the sources. A
checker of a sub-expression returns the kind it resolved and the node as it left it, or the
diagnostic it threw, together with the compilation state it left behind; a coercion of a
constant returns the node with the value attached. The member `ws_assert_active` tells
whether the build has its assertions compiled in (see `ws_assert`). -/
structure semcheck_env where
  check_arithmetic : dfwork_t → stnode_t → ftenum →
    Except df_error_t (ftenum × stnode_t) × dfwork_t
  check_function : dfwork_t → stnode_t → ftenum →
    Except df_error_t (ftenum × stnode_t) × dfwork_t
  check_slice : dfwork_t → stnode_t → ftenum →
    Except df_error_t (ftenum × stnode_t) × dfwork_t
  dfilter_fvalue_from_literal : dfwork_t → ftenum → stnode_t →
    Except df_error_t stnode_t × dfwork_t
  dfilter_fvalue_from_string : dfwork_t → ftenum → stnode_t →
    Except df_error_t stnode_t × dfwork_t
  dfilter_fvalue_from_charconst : dfwork_t → ftenum → stnode_t →
    Except df_error_t stnode_t × dfwork_t
  dfilter_fvalue_from_number : dfwork_t → ftenum → stnode_t →
    Except df_error_t stnode_t × dfwork_t
  sttype_pointer_ftenum : stnode_t → ftenum
  stnode_todisplay : stnode_t → String
  ftype_pretty_name : ftenum → String
  compatible_ftypes : ftenum → ftenum → Bool
  ftype_can_cmp : ftenum → Bool
  ftype_can_length : ftenum → Bool
  ftype_can_is_negative : ftenum → Bool
  ftype_can_unary_minus : ftenum → Bool
  ft_is_string : ftenum → Bool
  ws_assert_active : Bool

/-- The macro `ws_assert` of `wsutil/ws_assert.h`, which is not part of the sources, with the
build taken as a parameter: in a build with assertions (`active`) a condition that is false
aborts the run (`none`); in a build without assertions the condition is not evaluated and the
run goes on. -/
def ws_assert (active : Bool) (cond : Bool) : Option Unit :=
  if active && !cond then none else some ()

/-- The kinds listed by the `switch` of `ul_semcheck_string`. -/
def ul_semcheck_string_case (ft : ftenum) : Bool :=
  match ft with
  | .FT_UINT8 | .FT_UINT16 | .FT_UINT24 | .FT_UINT32
  | .FT_UINT40 | .FT_UINT48 | .FT_UINT56 | .FT_UINT64
  | .FT_INT8 | .FT_INT16 | .FT_INT32
  | .FT_INT40 | .FT_INT48 | .FT_INT56 | .FT_INT64
  | .FT_IPv4 | .FT_IPv6 | .FT_FLOAT | .FT_DOUBLE
  | .FT_ETHER | .FT_FRAMENUM | .FT_AX25 | .FT_IPXNET
  | .FT_GUID | .FT_OID | .FT_EUI64 | .FT_VINES
  | .FT_REL_OID | .FT_SYSTEM_ID | .FT_FCWWN
  | .FT_IEEE_11073_SFLOAT | .FT_IEEE_11073_FLOAT => true
  | _ => false

/-- Embedding of `ul_semcheck_string`, the semantic check of `string()`. The outer `none` is
an aborted run: the failed `ws_assert` on the length of the parameter list, or the read of
`param_list->data` on the empty (null) list; `Except.error` is the diagnostic thrown by
`dfunc_fail`; the second component is the compilation state left behind. -/
def ul_semcheck_string (env : semcheck_env) (dfw : dfwork_t) (func_name : String)
    (_logical_ftype : ftenum) (param_list : List stnode_t) (_func_loc : df_loc_t) :
    Option (Except df_error_t ftenum × dfwork_t) :=
  match ws_assert env.ws_assert_active (decide (param_list.length = 1)) with
  | none => none
  | some _ =>
    match param_list with
    | [] => none
    | param :: _ =>
      if stnode_type_id param = .STTYPE_FIELD then
        let dfw1 : dfwork_t := ⟨(dfw.field_count + 1) % 2 ^ 32, dfw.other⟩
        let hfinfo := sttype_field_hfinfo param
        if ul_semcheck_string_case hfinfo.hf_type then
          some (.ok .FT_STRING, dfw1)
        else
          some (.error ⟨param,
            "String conversion for field \"" ++ hfinfo.hf_abbrev ++ "\" is not supported"⟩, dfw1)
      else
        some (.error ⟨param, "Only fields can be used as parameter for " ++ func_name ++ "()"⟩,
          dfw)

/-! ## The function registry -/

/-- The evaluator callbacks (`DFFuncType`): the static functions of `dfunctions.c` and the
functions of extensions, told apart by their address. -/
inductive DFFuncType
  | df_func_lower | df_func_upper | df_func_count | df_func_string
  | df_func_max | df_func_min | df_func_abs
  | plugin_function (addr : Nat)
  deriving DecidableEq, Repr

/-- The semantic-check callbacks (`DFSemCheckType`): the static functions of `dfunctions.c` and
the functions of extensions, told apart by their address. -/
inductive DFSemCheckType
  | ul_semcheck_is_field_string | ul_semcheck_is_field | ul_semcheck_can_length
  | ul_semcheck_string | ul_semcheck_compare | ul_semcheck_absolute_value
  | plugin_semcheck (addr : Nat)
  deriving DecidableEq, Repr

/-- A function definition record `df_func_def_t`. A null callback is `none`. -/
structure df_func_def_t where
  name : String
  function : Option DFFuncType
  min_args : Nat
  max_args : Nat
  return_ftype : ftenum
  semcheck : Option DFSemCheckType
  deriving DecidableEq, Repr

/-- The table `df_functions` of the built-in functions. The end of the list stands for the
terminating record whose name is `NULL`. -/
def df_functions : List df_func_def_t :=
  [ ⟨"lower", some .df_func_lower, 1, 1, .FT_STRING, some .ul_semcheck_is_field_string⟩,
    ⟨"upper", some .df_func_upper, 1, 1, .FT_STRING, some .ul_semcheck_is_field_string⟩,
    ⟨"len", none, 1, 1, .FT_UINT32, some .ul_semcheck_can_length⟩,
    ⟨"count", some .df_func_count, 1, 1, .FT_UINT32, some .ul_semcheck_is_field⟩,
    ⟨"string", some .df_func_string, 1, 1, .FT_STRING, some .ul_semcheck_string⟩,
    ⟨"max", some .df_func_max, 1, 0, .FT_NONE, some .ul_semcheck_compare⟩,
    ⟨"min", some .df_func_min, 1, 0, .FT_NONE, some .ul_semcheck_compare⟩,
    ⟨"abs", some .df_func_abs, 1, 1, .FT_NONE, some .ul_semcheck_absolute_value⟩ ]

/-- A pointer to a definition record (`df_func_def_t *`): either the address of the entry of
`df_functions` at an index, or the address of a record owned by an extension. Two pointers are
equal exactly when they point to the same record object. -/
inductive df_func_ptr
  | builtin (index : Nat)
  | plugin (addr : Nat)
  deriving DecidableEq, Repr

/-- The records owned by extensions, by address. They are not modified while registered. -/
abbrev plugin_memory := Nat → df_func_def_t

/-- The record a pointer points to. An index past the table reads the terminating record. -/
def df_func_deref (mem : plugin_memory) (func : df_func_ptr) : df_func_def_t :=
  match func with
  | .builtin index => df_functions.getD index ⟨"", none, 0, 0, .FT_NONE, none⟩
  | .plugin addr => mem addr

/-- The member `func->name`. -/
def df_func_name (mem : plugin_memory) (func : df_func_ptr) : String :=
  (df_func_deref mem func).name

/-- A GLib hash table created with `g_str_hash` and `g_str_equal`, as the finite map it
implements: keys are compared by their bytes, a key has at most one value. -/
abbrev GHashTable := String → Option df_func_ptr

/-- Embedding of `g_hash_table_new`: the empty table. -/
def g_hash_table_new : GHashTable := fun _ => none

/-- Embedding of `g_hash_table_contains`: the key has a value. -/
def g_hash_table_contains (table : GHashTable) (key : String) : Bool := (table key).isSome

/-- Embedding of `g_hash_table_lookup`: the value of the key, `none` for `NULL`. -/
def g_hash_table_lookup (table : GHashTable) (key : String) : Option df_func_ptr := table key

/-- Embedding of `g_hash_table_insert`: the key gets the value (replacing an older one); the
result is true when the key was not in the table. -/
def g_hash_table_insert (table : GHashTable) (key : String) (value : df_func_ptr) :
    Bool × GHashTable :=
  (!(table key).isSome, fun k => if k = key then some value else table k)

/-- Embedding of `g_hash_table_remove`: the key loses its value; the result is true when the
key was in the table. -/
def g_hash_table_remove (table : GHashTable) (key : String) : Bool × GHashTable :=
  ((table key).isSome, fun k => if k = key then none else table k)

/-- Embedding of `df_func_init`. The global `registered_functions` is passed explicitly:
`none` is the null pointer. -/
def df_func_init (_registered_functions : Option GHashTable) : Option GHashTable :=
  some g_hash_table_new

/-- Embedding of `df_func_register`. The outer `none` is the failed `ws_assert` on the global;
otherwise the result is the returned boolean and the new value of the global. -/
def df_func_register (mem : plugin_memory) (registered_functions : Option GHashTable)
    (func : df_func_ptr) : Option (Bool × Option GHashTable) :=
  match registered_functions with
  | none => none
  | some table =>
    if g_hash_table_contains table (df_func_name mem func) then
      some (false, some table)
    else
      let r := g_hash_table_insert table (df_func_name mem func) func
      some (r.1, some r.2)

/-- Embedding of `df_func_deregister`. The outer `none` is the failed `ws_assert` on the
global; `value != func` compares the two pointers. -/
def df_func_deregister (mem : plugin_memory) (registered_functions : Option GHashTable)
    (func : df_func_ptr) : Option (Bool × Option GHashTable) :=
  match registered_functions with
  | none => none
  | some table =>
    let value := g_hash_table_lookup table (df_func_name mem func)
    if value ≠ some func then
      some (false, some table)
    else
      let r := g_hash_table_remove table (df_func_name mem func)
      some (r.1, some r.2)

/-- The scan of `df_func_lookup` over the built-in table: the index of the first record whose
name has the bytes of `name` (`strcmp`), starting at index `i`. -/
def df_func_lookup_scan (name : String) : List df_func_def_t → Nat → Option Nat
  | [], _ => none
  | func_def :: rest, i =>
    if func_def.name = name then some i else df_func_lookup_scan name rest (i + 1)

/-- Embedding of `df_func_lookup`: the built-in table first, then the table of the extensions.
On a null table `g_hash_table_lookup` returns `NULL`. -/
def df_func_lookup (registered_functions : Option GHashTable) (name : String) :
    Option df_func_ptr :=
  match df_func_lookup_scan name df_functions 0 with
  | some i => some (.builtin i)
  | none =>
    match registered_functions with
    | none => none
    | some table => g_hash_table_lookup table name

/-- Embedding of `df_func_cleanup`: the table is destroyed and the global reset to `NULL`. -/
def df_func_cleanup (_registered_functions : Option GHashTable) : Option GHashTable := none

/-- A call of the registration interface. -/
inductive registry_call
  | register (func : df_func_ptr)
  | deregister (func : df_func_ptr)
  deriving DecidableEq, Repr

/-- One call of the registration interface on the global: the new value of the global, the
outer `none` being an aborted run. -/
def registry_step (mem : plugin_memory) (registered_functions : Option GHashTable)
    (call : registry_call) : Option (Option GHashTable) :=
  match call with
  | .register func => (df_func_register mem registered_functions func).map Prod.snd
  | .deregister func => (df_func_deregister mem registered_functions func).map Prod.snd

/-- A sequence of calls of the registration interface, in order. -/
def registry_run (mem : plugin_memory) :
    List registry_call → Option GHashTable → Option (Option GHashTable)
  | [], registered_functions => some registered_functions
  | call :: calls, registered_functions =>
    match registry_step mem registered_functions call with
    | none => none
    | some next => registry_run mem calls next

/-- The names of the built-in functions. -/
def builtin_names : List String :=
  ["lower", "upper", "len", "count", "string", "max", "min", "abs"]

/-- A syntax node of variant `FIELD` for the field `name` of kind `ft`. -/
def field_node (name : String) (ft : ftenum) : stnode_t := ⟨.STTYPE_FIELD, ⟨name, ft⟩⟩

/-- Sample records of extensions: the records at the addresses 0 and 1 have identical members
and the name of a built-in, the record at address 2 is named "lower" too but differs, every
other record is named "plugin_fn". -/
def sample_memory : plugin_memory := fun addr =>
  if addr = 0 ∨ addr = 1 then
    ⟨"lower", some (.plugin_function 100), 1, 1, .FT_STRING, some (.plugin_semcheck 200)⟩
  else if addr = 2 then
    ⟨"lower", some (.plugin_function 101), 1, 2, .FT_STRING, some (.plugin_semcheck 201)⟩
  else
    ⟨"plugin_fn", some (.plugin_function 102), 1, 1, .FT_UINT32, some (.plugin_semcheck 202)⟩

/-! ## The parameter classifier and the other semantic checks -/

/-- Embedding of `sttype_field_ftenum`: the declared kind of the field that a `FIELD` or
`REFERENCE` node names. -/
def sttype_field_ftenum (node : stnode_t) : ftenum := (sttype_field_hfinfo node).hf_type

/-- A coercion of a constant followed by `sttype_pointer_ftenum` of the node, as in the
`LITERAL`, `STRING`, `CHARCONST` and `NUMBER` cases of `df_semcheck_param`. -/
def df_semcheck_param_constant (env : semcheck_env)
    (coerced : Except df_error_t stnode_t × dfwork_t) :
    Except df_error_t (ftenum × stnode_t) × dfwork_t :=
  match coerced with
  | (.ok param1, dfw1) => (.ok (env.sttype_pointer_ftenum param1, param1), dfw1)
  | (.error e, dfw1) => (.error e, dfw1)

/-- Embedding of `df_semcheck_param`, the classifier of one parameter node. The result is the
kind of the parameter and the node as the classifier left it, or the diagnostic thrown by a
sub-checker, with the compilation state left behind; the outer `none` is the abort of
`ASSERT_STTYPE_NOT_REACHED`. -/
def df_semcheck_param (env : semcheck_env) (dfw : dfwork_t) (_func_name : String)
    (logical_ftype : ftenum) (param : stnode_t) (_func_loc : df_loc_t) :
    Option (Except df_error_t (ftenum × stnode_t) × dfwork_t) :=
  match stnode_type_id param with
  | .STTYPE_ARITHMETIC => some (env.check_arithmetic dfw param logical_ftype)
  | .STTYPE_LITERAL =>
    some (df_semcheck_param_constant env (env.dfilter_fvalue_from_literal dfw logical_ftype param))
  | .STTYPE_STRING =>
    some (df_semcheck_param_constant env (env.dfilter_fvalue_from_string dfw logical_ftype param))
  | .STTYPE_CHARCONST =>
    some (df_semcheck_param_constant env
      (env.dfilter_fvalue_from_charconst dfw logical_ftype param))
  | .STTYPE_NUMBER =>
    some (df_semcheck_param_constant env (env.dfilter_fvalue_from_number dfw logical_ftype param))
  | .STTYPE_FUNCTION => some (env.check_function dfw param logical_ftype)
  | .STTYPE_FIELD =>
    some (.ok (sttype_field_ftenum param, param), ⟨(dfw.field_count + 1) % 2 ^ 32, dfw.other⟩)
  | .STTYPE_REFERENCE => some (.ok (sttype_field_ftenum param, param), dfw)
  | .STTYPE_SLICE => some (env.check_slice dfw param logical_ftype)
  | .STTYPE_TEST => none
  | .STTYPE_FVALUE => none
  | .STTYPE_PCRE => none
  | .STTYPE_SET => none
  | .STTYPE_UNINITIALIZED => none
  | .STTYPE_NUM_TYPES => none

/-- Embedding of `ul_semcheck_is_field_string`, the semantic check of `lower()` and
`upper()`. The outer `none` is an aborted run (failed `ws_assert`, read of `param_list->data`
on the empty list, abort of the classifier). -/
def ul_semcheck_is_field_string (env : semcheck_env) (dfw : dfwork_t) (func_name : String)
    (logical_ftype : ftenum) (param_list : List stnode_t) (func_loc : df_loc_t) :
    Option (Except df_error_t ftenum × dfwork_t) :=
  match ws_assert env.ws_assert_active (decide (param_list.length = 1)) with
  | none => none
  | some _ =>
    match param_list with
    | [] => none
    | param :: _ =>
      if stnode_type_id param ≠ .STTYPE_FIELD then
        some (.error ⟨param, "Only fields can be used as parameter for " ++ func_name ++ "()"⟩,
          dfw)
      else
        match df_semcheck_param env dfw func_name logical_ftype param func_loc with
        | none => none
        | some (.error e, dfw1) => some (.error e, dfw1)
        | some (.ok (ftype, param1), dfw1) =>
          if !env.ft_is_string ftype then
            some (.error ⟨param1,
              "Only string type fields can be used as parameter for " ++ func_name ++ "()"⟩, dfw1)
          else
            some (.ok .FT_STRING, dfw1)

/-- Embedding of `ul_semcheck_is_field`, the semantic check of `count()`. -/
def ul_semcheck_is_field (env : semcheck_env) (dfw : dfwork_t) (func_name : String)
    (logical_ftype : ftenum) (param_list : List stnode_t) (func_loc : df_loc_t) :
    Option (Except df_error_t ftenum × dfwork_t) :=
  match ws_assert env.ws_assert_active (decide (param_list.length = 1)) with
  | none => none
  | some _ =>
    match param_list with
    | [] => none
    | param :: _ =>
      if stnode_type_id param ≠ .STTYPE_FIELD then
        some (.error ⟨param, "Only fields can be used as parameter for " ++ func_name ++ "()"⟩,
          dfw)
      else
        match df_semcheck_param env dfw func_name logical_ftype param func_loc with
        | none => none
        | some (.error e, dfw1) => some (.error e, dfw1)
        | some (.ok _, dfw1) => some (.ok .FT_UINT32, dfw1)

/-- Embedding of `ul_semcheck_can_length`, the semantic check of `len()`. -/
def ul_semcheck_can_length (env : semcheck_env) (dfw : dfwork_t) (func_name : String)
    (logical_ftype : ftenum) (param_list : List stnode_t) (func_loc : df_loc_t) :
    Option (Except df_error_t ftenum × dfwork_t) :=
  match ws_assert env.ws_assert_active (decide (param_list.length = 1)) with
  | none => none
  | some _ =>
    match param_list with
    | [] => none
    | param :: _ =>
      match df_semcheck_param env dfw func_name logical_ftype param func_loc with
      | none => none
      | some (.error e, dfw1) => some (.error e, dfw1)
      | some (.ok (ftype, param1), dfw1) =>
        if !env.ftype_can_length ftype then
          some (.error ⟨param1, "Argument does not support the " ++ func_name ++ "() function"⟩,
            dfw1)
        else
          some (.ok .FT_UINT32, dfw1)

/-- Embedding of `ul_semcheck_compare`, the semantic check of `max()` and `min()`: the loop
over the parameter list. There is no test of the length of the list. -/
def ul_semcheck_compare (env : semcheck_env) (dfw : dfwork_t) (func_name : String)
    (logical_ftype : ftenum) (param_list : List stnode_t) (func_loc : df_loc_t) :
    Option (Except df_error_t ftenum × dfwork_t) :=
  match param_list with
  | [] => some (.ok logical_ftype, dfw)
  | param :: l =>
    match df_semcheck_param env dfw func_name logical_ftype param func_loc with
    | none => none
    | some (.error e, dfw1) => some (.error e, dfw1)
    | some (.ok (ftype, param1), dfw1) =>
      if !env.compatible_ftypes ftype logical_ftype then
        some (.error ⟨param1,
          "Arguments to '" ++ func_name ++ "' must be of compatible type (expected " ++
            env.ftype_pretty_name logical_ftype ++ ", got " ++ env.ftype_pretty_name ftype ++
            ")"⟩, dfw1)
      else if !env.ftype_can_cmp ftype then
        some (.error ⟨param1,
          "Argument '" ++ env.stnode_todisplay param1 ++ "' to '" ++ func_name ++
            "' cannot be ordered"⟩, dfw1)
      else
        ul_semcheck_compare env dfw1 func_name logical_ftype l func_loc

/-- Embedding of `ul_semcheck_absolute_value`, the semantic check of `abs()`. -/
def ul_semcheck_absolute_value (env : semcheck_env) (dfw : dfwork_t) (func_name : String)
    (logical_ftype : ftenum) (param_list : List stnode_t) (func_loc : df_loc_t) :
    Option (Except df_error_t ftenum × dfwork_t) :=
  match ws_assert env.ws_assert_active (decide (param_list.length = 1)) with
  | none => none
  | some _ =>
    match param_list with
    | [] => none
    | param :: _ =>
      match df_semcheck_param env dfw func_name logical_ftype param func_loc with
      | none => none
      | some (.error e, dfw1) => some (.error e, dfw1)
      | some (.ok (ftype, param1), dfw1) =>
        if !env.ftype_can_is_negative ftype || !env.ftype_can_unary_minus ftype then
          some (.error ⟨param1, "Argument cannot be negated"⟩, dfw1)
        else
          some (.ok ftype, dfw1)

/-- The acceptance rule of `max` and `min` in the words of the specification: every parameter,
in list order, classifies to a kind that is compatible with `logical_ftype` and can be
ordered. The compilation state is handed from one classification to the next. -/
def compare_params_accepted (env : semcheck_env) (func_name : String) (logical_ftype : ftenum)
    (func_loc : df_loc_t) : dfwork_t → List stnode_t → Prop
  | _, [] => True
  | dfw, param :: l =>
    ∃ ftype param1 dfw1,
      df_semcheck_param env dfw func_name logical_ftype param func_loc
        = some (.ok (ftype, param1), dfw1) ∧
      env.compatible_ftypes ftype logical_ftype = true ∧
      env.ftype_can_cmp ftype = true ∧
      compare_params_accepted env func_name logical_ftype func_loc dfw1 l

/-- A syntax node of the variant `id` with the data `name` and `ft`. -/
def plain_node (id : sttype_id_t) (name : String) (ft : ftenum) : stnode_t := ⟨id, ⟨name, ft⟩⟩

/-- A sample of the external functions, to evaluate the checkers on concrete nodes: every
sub-checker accepts its node with the kind recorded in the node, a coercion turns the node
into an `FVALUE` node, kinds are compatible when equal, all kinds but `FT_NONE` and
`FT_PROTOCOL` can be ordered, strings, byte arrays and protocols have a length, and the signed
integers can be negated. -/
def sample_env : semcheck_env where
  check_arithmetic := fun dfw node _ => (.ok (node.hfinfo.hf_type, node), dfw)
  check_function := fun dfw node _ => (.ok (node.hfinfo.hf_type, node), dfw)
  check_slice := fun dfw node _ => (.ok (.FT_BYTES, node), dfw)
  dfilter_fvalue_from_literal := fun dfw _ node => (.ok ⟨.STTYPE_FVALUE, node.hfinfo⟩, dfw)
  dfilter_fvalue_from_string := fun dfw _ node => (.ok ⟨.STTYPE_FVALUE, node.hfinfo⟩, dfw)
  dfilter_fvalue_from_charconst := fun dfw _ node => (.ok ⟨.STTYPE_FVALUE, node.hfinfo⟩, dfw)
  dfilter_fvalue_from_number := fun dfw _ node => (.ok ⟨.STTYPE_FVALUE, node.hfinfo⟩, dfw)
  sttype_pointer_ftenum := fun node => node.hfinfo.hf_type
  stnode_todisplay := fun node => node.hfinfo.hf_abbrev
  ftype_pretty_name := fun ft =>
    if ft = .FT_UINT16 then "Unsigned integer (16 bits)"
    else if ft = .FT_STRING then "Character string"
    else "Other"
  compatible_ftypes := fun a b => a = b
  ftype_can_cmp := fun ft => ft ≠ .FT_NONE ∧ ft ≠ .FT_PROTOCOL
  ftype_can_length := fun ft => ft = .FT_STRING ∨ ft = .FT_BYTES ∨ ft = .FT_PROTOCOL
  ftype_can_is_negative := fun ft => (sint_width ft).isSome
  ftype_can_unary_minus := fun ft => (sint_width ft).isSome
  ft_is_string := FT_IS_STRING
  ws_assert_active := true

/-- The sample of the external functions in a build without assertions. -/
def sample_env_unasserted : semcheck_env :=
  ⟨sample_env.check_arithmetic, sample_env.check_function, sample_env.check_slice,
    sample_env.dfilter_fvalue_from_literal, sample_env.dfilter_fvalue_from_string,
    sample_env.dfilter_fvalue_from_charconst, sample_env.dfilter_fvalue_from_number,
    sample_env.sttype_pointer_ftenum, sample_env.stnode_todisplay, sample_env.ftype_pretty_name,
    sample_env.compatible_ftypes, sample_env.ftype_can_cmp, sample_env.ftype_can_length,
    sample_env.ftype_can_is_negative, sample_env.ftype_can_unary_minus, sample_env.ft_is_string,
    false⟩

/-! ## The I-TDM dissector (`epan/dissectors/packet-itdm.c`)

The dissector is embedded as far as its reads of the packet buffer go: the buffer is the list
of its captured bytes, every accessor and every tree item is a read of some bytes at an offset
that either lies inside the captured bytes or raises the out-of-bounds exception, and the reads
that were made are logged. The texts written to the columns and the items of the tree are not
modelled. -/

/-- The out-of-bounds exception of the buffer accessors: offset and length of the read that
does not lie inside the captured bytes. -/
structure bounds_error where
  offset : Nat
  length : Nat
  deriving DecidableEq, Repr

/-- A packet buffer `tvbuff_t`, as the list of its captured bytes. -/
abbrev tvbuff_t := List Nat

/-- The reads made so far: offset and length of each. -/
abbrev read_log := List (Nat × Nat)

/-- A computation of the dissector: it extends the log of reads and either returns a value or
raises the out-of-bounds exception. -/
abbrev dissect_m := StateT read_log (Except bounds_error)

/-- Embedding of `tvb_captured_length`: the number of captured bytes. -/
def tvb_captured_length (tvb : tvbuff_t) : Nat := tvb.length

/-- The big-endian number held by the `length` bytes at `offset`. -/
def tvb_ntoh (tvb : tvbuff_t) (offset length : Nat) : Nat :=
  ((tvb.drop offset).take length).foldl (fun acc b => acc * 256 + b) 0

/-- Modelled from the spec: a read of the buffer accessors of `tvbuff.c` (not part of the
sources): the big-endian value of `length` bytes at `offset` when the bytes lie inside the
captured bytes, the out-of-bounds exception otherwise. A read that succeeds is logged. -/
def tvb_read (tvb : tvbuff_t) (offset length : Nat) : dissect_m Nat := fun log =>
  if offset + length ≤ tvb.length then
    .ok (tvb_ntoh tvb offset length, log ++ [(offset, length)])
  else
    .error ⟨offset, length⟩

/-- Embedding of `tvb_get_uint8`: one byte. -/
def tvb_get_uint8 (tvb : tvbuff_t) (offset : Nat) : dissect_m Nat := tvb_read tvb offset 1

/-- Embedding of `tvb_get_ntohs`: two bytes, big-endian. -/
def tvb_get_ntohs (tvb : tvbuff_t) (offset : Nat) : dissect_m Nat := tvb_read tvb offset 2

/-- Embedding of `tvb_get_ntoh24`: three bytes, big-endian. -/
def tvb_get_ntoh24 (tvb : tvbuff_t) (offset : Nat) : dissect_m Nat := tvb_read tvb offset 3

/-- Embedding of `tvb_get_ntohl`: four bytes, big-endian. -/
def tvb_get_ntohl (tvb : tvbuff_t) (offset : Nat) : dissect_m Nat := tvb_read tvb offset 4

/-- Modelled from the spec: the call `proto_tree_add_item` of `proto.c` (not part of the
sources) on a non-null tree, as the read of the bytes of the item: `length` bytes at `offset`. -/
def proto_tree_add_item (tvb : tvbuff_t) (offset length : Nat) : dissect_m Unit := do
  let _ ← tvb_read tvb offset length

/-- Modelled from the spec: the call `proto_tree_add_item` with length `-1`, the item of the
protocol itself: it covers the captured bytes from `offset` to the end. -/
def proto_tree_add_item_to_end (tvb : tvbuff_t) (offset : Nat) : dissect_m Unit := do
  let _ ← tvb_read tvb offset (tvb.length - offset)

/-- Modelled from the spec: the call `proto_tree_add_checksum` of `proto.c` (not part of the
sources) for the 16-bit field `hf_itdm_chksum`: a read of two bytes at `offset`. -/
def proto_tree_add_checksum (tvb : tvbuff_t) (offset : Nat) : dissect_m Unit := do
  let _ ← tvb_read tvb offset 2

/-- Modelled from the spec: the call `tvb_new_subset_remaining` of `tvbuff.c` (not part of the
sources): the bytes from `offset` on; an offset past the captured bytes raises the
out-of-bounds exception. The call reads no byte and is not logged. -/
def tvb_new_subset_remaining (tvb : tvbuff_t) (offset : Nat) : dissect_m tvbuff_t := fun log =>
  if offset ≤ tvb.length then .ok (tvb.drop offset, log) else .error ⟨offset, 0⟩

/-- The constant `ITDM_CMD_NEW_CHAN`. -/
def ITDM_CMD_NEW_CHAN : Nat := 1
/-- The constant `ITDM_CMD_CLOSE_CHAN`. -/
def ITDM_CMD_CLOSE_CHAN : Nat := 2
/-- The constant `ITDM_CMD_RELOC_CHAN`. -/
def ITDM_CMD_RELOC_CHAN : Nat := 3
/-- The constant `ITDM_CMD_CYCLIC_REAF`. -/
def ITDM_CMD_CYCLIC_REAF : Nat := 4
/-- The constant `ITDM_CMD_PACKET_RATE`. -/
def ITDM_CMD_PACKET_RATE : Nat := 5
/-- The constant `ITDM_FLOWID_OFFSET`. -/
def ITDM_FLOWID_OFFSET : Nat := 7
/-- The constant `ITDM_CHCMD_OFFSET`. -/
def ITDM_CHCMD_OFFSET : Nat := 10
/-- The constant `ITDM_CHANID_OFFSET`. -/
def ITDM_CHANID_OFFSET : Nat := 11
/-- The constant `ITDM_CHLOC1_OFFSET`. -/
def ITDM_CHLOC1_OFFSET : Nat := 14
/-- The constant `ITDM_CHLOC2_OFFSET`. -/
def ITDM_CHLOC2_OFFSET : Nat := 16
/-- The constant `ITDM_CTL_TRANSID_OFFSET`. -/
def ITDM_CTL_TRANSID_OFFSET : Nat := 10
/-- The constant `ITDM_CTL_CMD_OFFSET`. -/
def ITDM_CTL_CMD_OFFSET : Nat := 14
/-- The constant `ITDM_CTL_FLOWID_OFFSET`. -/
def ITDM_CTL_FLOWID_OFFSET : Nat := 15
/-- The constant `ITDM_CTL_PAIRED_TRANSID_OFFSET`. -/
def ITDM_CTL_PAIRED_TRANSID_OFFSET : Nat := 26
/-- The constant `ITDM_CTL_CMD_AFI_REQ`. -/
def ITDM_CTL_CMD_AFI_REQ : Nat := 1

/-- The block of `dissect_itdm_125usec` that is run when the tree pointer is non-null: the
items of the tree, from offset 0 on. The result is the offset reached. -/
def dissect_itdm_125usec_tree (tvb : tvbuff_t) (chcmd : Nat) : dissect_m Nat := do
  let mut offset := 0
  proto_tree_add_item_to_end tvb 0
  proto_tree_add_item tvb offset 2
  offset := offset + 2
  proto_tree_add_item tvb offset 1
  offset := offset + 1
  proto_tree_add_item tvb offset 1
  proto_tree_add_item tvb offset 1
  proto_tree_add_item tvb offset 2
  offset := offset + 2
  proto_tree_add_checksum tvb offset
  offset := offset + 2
  proto_tree_add_item tvb offset 3
  offset := offset + 3
  proto_tree_add_item tvb offset 1
  proto_tree_add_item tvb offset 1
  proto_tree_add_item tvb offset 1
  offset := offset + 1
  proto_tree_add_item tvb offset 3
  offset := offset + 3
  if chcmd = ITDM_CMD_PACKET_RATE then
    proto_tree_add_item tvb offset 4
    offset := offset + 4
  else
    proto_tree_add_item tvb offset 2
    offset := offset + 2
    if chcmd = ITDM_CMD_CYCLIC_REAF ∨ chcmd = ITDM_CMD_NEW_CHAN ∨
        chcmd = ITDM_CMD_CLOSE_CHAN then
      proto_tree_add_item tvb offset 2
      offset := offset + 2
    else
      proto_tree_add_item tvb offset 2
      offset := offset + 2
  return offset

/-- The reads of `dissect_itdm_125usec` for the columns, before the tree is looked at. The
result is the channel command, `chcmd & 0x0f`. -/
def dissect_itdm_125usec_columns (tvb : tvbuff_t) : dissect_m Nat := do
  let _flowid ← tvb_get_ntoh24 tvb ITDM_FLOWID_OFFSET
  let _chanid ← tvb_get_ntoh24 tvb ITDM_CHANID_OFFSET
  let chcmd ← tvb_get_uint8 tvb ITDM_CHCMD_OFFSET
  let _chloc1 ← tvb_get_ntohs tvb ITDM_CHLOC1_OFFSET
  let chcmd := chcmd % 16
  if chcmd = ITDM_CMD_NEW_CHAN ∨ chcmd = ITDM_CMD_CLOSE_CHAN ∨ chcmd = ITDM_CMD_CYCLIC_REAF then
    return chcmd
  else if chcmd = ITDM_CMD_RELOC_CHAN then
    let _chloc2 ← tvb_get_ntohs tvb ITDM_CHLOC2_OFFSET
    return chcmd
  else
    return chcmd

/-- Embedding of `dissect_itdm_125usec`. The flag `tree` tells whether the tree pointer is
non-null. -/
def dissect_itdm_125usec (tvb : tvbuff_t) (tree : Bool) : dissect_m Unit := do
  let chcmd ← dissect_itdm_125usec_columns tvb
  let offset ← if tree then dissect_itdm_125usec_tree tvb chcmd else pure 0
  let _next_tvb ← tvb_new_subset_remaining tvb offset

/-- The block of `dissect_itdm_control` that is run when the tree pointer is non-null: the
items of the tree, from offset 0 on. The result is the offset reached. -/
def dissect_itdm_control_tree (tvb : tvbuff_t) (command : Nat) : dissect_m Nat := do
  let mut offset := 0
  proto_tree_add_item_to_end tvb 0
  proto_tree_add_item tvb offset 2
  offset := offset + 2
  proto_tree_add_item tvb offset 1
  offset := offset + 1
  proto_tree_add_item tvb offset 1
  proto_tree_add_item tvb offset 1
  proto_tree_add_item tvb offset 2
  offset := offset + 2
  proto_tree_add_checksum tvb offset
  offset := offset + 2
  proto_tree_add_item tvb offset 3
  offset := offset + 3
  proto_tree_add_item tvb offset 4
  offset := offset + 4
  proto_tree_add_item tvb offset 1
  offset := offset + 1
  if command ≠ ITDM_CTL_CMD_AFI_REQ then
    proto_tree_add_item tvb offset 3
  offset := offset + 3
  proto_tree_add_item tvb offset 1
  offset := offset + 1
  offset := offset + 1
  proto_tree_add_item tvb offset 2
  offset := offset + 2
  proto_tree_add_item tvb offset 4
  offset := offset + 4
  if command ≠ ITDM_CTL_CMD_AFI_REQ then
    proto_tree_add_item tvb offset 4
  offset := offset + 4
  offset := offset + 2
  proto_tree_add_item tvb offset 2
  offset := offset + 2
  return offset

/-- The reads of `dissect_itdm_control` for the columns, before the tree is looked at. The
result is the control command. -/
def dissect_itdm_control_columns (tvb : tvbuff_t) : dissect_m Nat := do
  let _flowid ← tvb_get_ntoh24 tvb ITDM_FLOWID_OFFSET
  let command ← tvb_get_uint8 tvb ITDM_CTL_CMD_OFFSET
  let _allocd_flowid ← tvb_get_ntoh24 tvb ITDM_CTL_FLOWID_OFFSET
  let _trans_id ← tvb_get_ntohl tvb ITDM_CTL_TRANSID_OFFSET
  let _paired_trans_id ← tvb_get_ntohl tvb ITDM_CTL_PAIRED_TRANSID_OFFSET
  return command

/-- Embedding of `dissect_itdm_control`. The flag `tree` tells whether the tree pointer is
non-null. -/
def dissect_itdm_control (tvb : tvbuff_t) (tree : Bool) : dissect_m Unit := do
  let command ← dissect_itdm_control_columns tvb
  let offset ← if tree then dissect_itdm_control_tree tvb command else pure 0
  let _next_tvb ← tvb_new_subset_remaining tvb offset

/-- Embedding of `dissect_itdm`; `gbl_ItdmCTLFlowNo` is the configured number of the control
flow. The result is the returned `int`. -/
def dissect_itdm (gbl_ItdmCTLFlowNo : Nat) (tvb : tvbuff_t) (tree : Bool) : dissect_m Nat := do
  if tvb_captured_length tvb < 18 then
    return 0
  let flowid ← tvb_get_ntoh24 tvb ITDM_FLOWID_OFFSET
  if flowid = gbl_ItdmCTLFlowNo then
    dissect_itdm_control tvb tree
  else
    dissect_itdm_125usec tvb tree
  return tvb_captured_length tvb

/-! ## The evaluators on a store of field values

The evaluators above take field values and return field values. To state what a call leaves
unchanged, the evaluators are embedded a second time with the field values held in a store:
an `fvalue_t *` is an address of the store, a parameter list is the array of the addresses of
its values, the cell is the list of the appended addresses, and an evaluator returns the store
as it leaves it. A read or a write through an address that holds no value aborts the run. The
arrays of addresses and the list of the parameter slots are only read by the source
(`arg1->len`, `arg1->pdata[i]`, `stack->data`, `args->next`). The assertion on `arg_count`
is embedded with the build option `ws_assert_active` as a parameter (see `ws_assert`). The
definitions carry the name of the source with the suffix `_mem`. -/

/-- The store of field values: the value at each address. The valid addresses are those below
the length of the store. -/
abbrev fvalue_store := List fvalue_t

/-- A pointer `fvalue_t *`: an address of the store. -/
abbrev fvalue_ptr := Nat

/-- A `GPtrArray` as the array of the addresses of its values. -/
abbrev GPtrArray_mem := List fvalue_ptr

/-- The output cell as the list of the appended pointers; `none` is the null pointer. -/
abbrev df_cell_mem := List (Option fvalue_ptr)

/-- Embedding of `fvalue_new` on the store: a fresh value of the given kind at a new address,
the first free one. -/
def fvalue_new_mem (ft : ftenum) (store : fvalue_store) : fvalue_ptr × fvalue_store :=
  (store.length, store ++ [fvalue_new ft])

/-- A write through a pointer: the value at the address becomes `f` of it. -/
def fvalue_write_mem (p : fvalue_ptr) (f : fvalue_t → fvalue_t) (store : fvalue_store) :
    Option fvalue_store :=
  match store[p]? with
  | none => none
  | some fv => some (store.set p (f fv))

/-- Embedding of `fvalue_set_strbuf` on the store. -/
def fvalue_set_strbuf_mem (p : fvalue_ptr) (s : wmem_strbuf_t) (store : fvalue_store) :
    Option fvalue_store :=
  fvalue_write_mem p (fun fv => fvalue_set_strbuf fv s) store

/-- Embedding of `fvalue_set_string` on the store. -/
def fvalue_set_string_mem (p : fvalue_ptr) (s : List gchar) (store : fvalue_store) :
    Option fvalue_store :=
  fvalue_write_mem p (fun fv => fvalue_set_string fv s) store

/-- Embedding of `fvalue_set_uinteger` on the store. -/
def fvalue_set_uinteger_mem (p : fvalue_ptr) (n : Nat) (store : fvalue_store) :
    Option fvalue_store :=
  fvalue_write_mem p (fun fv => fvalue_set_uinteger fv n) store

/-- Modelled from the spec: `dup` of the field-type library (`fvalue_dup`, not part of the
sources) on the store: a copy of the value at a new address; the value copied is only read. -/
def fvalue_dup_mem (p : fvalue_ptr) (store : fvalue_store) :
    Option (fvalue_ptr × fvalue_store) :=
  match store[p]? with
  | none => none
  | some fv => some (store.length, store ++ [fvalue_dup fv])

/-- Modelled from the spec: `unary_minus` of the field-type library (`fvalue_unary_minus`, not
part of the sources) on the store: the negated value at a new address, or the null pointer
when the conversion `um` fails; the value negated is only read. -/
def fvalue_unary_minus_mem (um : fvalue_t → Option fvalue_t) (p : fvalue_ptr)
    (store : fvalue_store) : Option (Option fvalue_ptr × fvalue_store) :=
  match store[p]? with
  | none => none
  | some fv =>
    match um fv with
    | none => some (none, store)
    | some r => some (some store.length, store ++ [r])

/-- Embedding of `df_cell_append` on pointers. -/
def df_cell_append_mem (rp : df_cell_mem) (fv : Option fvalue_ptr) : df_cell_mem := rp ++ [fv]

/-- Embedding of `df_cell_is_empty` on pointers. -/
def df_cell_is_empty_mem (rp : df_cell_mem) : Bool := rp.isEmpty

/-- The outer loop of `string_walk` on the store. -/
def string_walk_loop_mem (ft_is_string : ftenum → Bool) (conv_func : gchar → gchar) :
    List fvalue_ptr → df_cell_mem → fvalue_store → Option (df_cell_mem × fvalue_store)
  | [], retval, store => some (retval, store)
  | arg_fvalue :: rest, retval, store =>
    match store[arg_fvalue]? with
    | none => none
    | some fv =>
      if ft_is_string (fvalue_type_ftenum fv) then
        let src := fvalue_get_strbuf fv
        let dst := string_walk_conv conv_func src []
        let new_ft_string := fvalue_new_mem .FT_STRING store
        match fvalue_set_strbuf_mem new_ft_string.1 dst new_ft_string.2 with
        | none => none
        | some store2 =>
          string_walk_loop_mem ft_is_string conv_func rest
            (df_cell_append_mem retval (some new_ft_string.1)) store2
      else
        string_walk_loop_mem ft_is_string conv_func rest retval store

/-- Embedding of `string_walk` on the store. -/
def string_walk_mem (ws_assert_active : Bool) (ft_is_string : ftenum → Bool)
    (stack : List (Option GPtrArray_mem)) (arg_count : Nat) (retval : df_cell_mem)
    (conv_func : gchar → gchar) (store : fvalue_store) : Option (Bool × df_cell_mem × fvalue_store) :=
  match ws_assert ws_assert_active (decide (arg_count = 1)) with
  | none => none
  | some _ =>
    match stack with
    | [] => none
    | none :: _ => some (false, retval, store)
    | some arg1 :: _ =>
      match string_walk_loop_mem ft_is_string conv_func arg1 retval store with
      | none => none
      | some (cell, store1) => some (true, cell, store1)

/-- The evaluator of `lower()` on the store. -/
def df_func_lower_mem (ws_assert_active : Bool) (ft_is_string : ftenum → Bool)
    (stack : List (Option GPtrArray_mem)) (arg_count : Nat) (retval : df_cell_mem)
    (store : fvalue_store) :
    Option (Bool × df_cell_mem × fvalue_store) :=
  string_walk_mem ws_assert_active ft_is_string stack arg_count retval g_ascii_tolower store

/-- The evaluator of `upper()` on the store. -/
def df_func_upper_mem (ws_assert_active : Bool) (ft_is_string : ftenum → Bool)
    (stack : List (Option GPtrArray_mem)) (arg_count : Nat) (retval : df_cell_mem)
    (store : fvalue_store) :
    Option (Bool × df_cell_mem × fvalue_store) :=
  string_walk_mem ws_assert_active ft_is_string stack arg_count retval g_ascii_toupper store

/-- The evaluator of `count()` on the store. -/
def df_func_count_mem (ws_assert_active : Bool) (stack : List (Option GPtrArray_mem))
    (arg_count : Nat) (retval : df_cell_mem) (store : fvalue_store) :
    Option (Bool × df_cell_mem × fvalue_store) :=
  match ws_assert ws_assert_active (decide (arg_count = 1)) with
  | none => none
  | some _ =>
    match stack with
    | [] => none
    | none :: _ => some (false, retval, store)
    | some arg1 :: _ =>
      let num_items := arg1.length % 2 ^ 32
      let ft_ret := fvalue_new_mem .FT_UINT32 store
      match fvalue_set_uinteger_mem ft_ret.1 num_items ft_ret.2 with
      | none => none
      | some store2 => some (true, df_cell_append_mem retval (some ft_ret.1), store2)

/-- The loop of `df_func_string` on the store. -/
def df_func_string_loop_mem (fvalue_to_string_repr : fvalue_t → Option (List gchar)) :
    List fvalue_ptr → df_cell_mem → fvalue_store → Option (df_cell_mem × fvalue_store)
  | [], retval, store => some (retval, store)
  | arg_fvalue :: rest, retval, store =>
    match store[arg_fvalue]? with
    | none => none
    | some fv =>
      if df_func_string_case (fvalue_type_ftenum fv) then
        let s := match fvalue_to_string_repr fv with
          | some s => s
          | none => []
        let new_ft_string := fvalue_new_mem .FT_STRING store
        match fvalue_set_string_mem new_ft_string.1 s new_ft_string.2 with
        | none => none
        | some store2 =>
          df_func_string_loop_mem fvalue_to_string_repr rest
            (df_cell_append_mem retval (some new_ft_string.1)) store2
      else
        some (retval, store)

/-- The evaluator of `string()` on the store. -/
def df_func_string_mem (ws_assert_active : Bool)
    (fvalue_to_string_repr : fvalue_t → Option (List gchar))
    (stack : List (Option GPtrArray_mem)) (arg_count : Nat) (retval : df_cell_mem)
    (store : fvalue_store) : Option (Bool × df_cell_mem × fvalue_store) :=
  match ws_assert ws_assert_active (decide (arg_count = 1)) with
  | none => none
  | some _ =>
    match stack with
    | [] => none
    | none :: _ => some (false, retval, store)
    | some arg1 :: _ =>
      match df_func_string_loop_mem fvalue_to_string_repr arg1 retval store with
      | none => none
      | some (cell, store1) => some (true, cell, store1)

/-- The inner loop of `df_func_compare` on the store: it reads the values at hand and keeps a
pointer. -/
def df_func_compare_inner_mem (fv_cmp : fvalue_t → fvalue_t → Bool) (store : fvalue_store) :
    List fvalue_ptr → Option fvalue_ptr → Option (Option fvalue_ptr)
  | [], fv_ret => some fv_ret
  | arg_fvalue :: rest, none => df_func_compare_inner_mem fv_cmp store rest (some arg_fvalue)
  | arg_fvalue :: rest, some best =>
    match store[arg_fvalue]?, store[best]? with
    | some a, some b =>
      if fv_cmp a b then df_func_compare_inner_mem fv_cmp store rest (some arg_fvalue)
      else df_func_compare_inner_mem fv_cmp store rest (some best)
    | _, _ => none

/-- The outer loop of `df_func_compare` on the store. -/
def df_func_compare_outer_mem (fv_cmp : fvalue_t → fvalue_t → Bool) (store : fvalue_store) :
    Nat → List (Option GPtrArray_mem) → Option fvalue_ptr → Option (Option fvalue_ptr)
  | 0, _, fv_ret => some fv_ret
  | _ + 1, [], _ => none
  | _ + 1, none :: _, _ => none
  | n + 1, some arg1 :: args, fv_ret =>
    match df_func_compare_inner_mem fv_cmp store arg1 fv_ret with
    | none => none
    | some fv_ret1 => df_func_compare_outer_mem fv_cmp store n args fv_ret1

/-- Embedding of `df_func_compare` on the store. -/
def df_func_compare_mem (stack : List (Option GPtrArray_mem)) (arg_count : Nat)
    (retval : df_cell_mem) (fv_cmp : fvalue_t → fvalue_t → Bool) (store : fvalue_store) :
    Option (Bool × df_cell_mem × fvalue_store) :=
  match df_func_compare_outer_mem fv_cmp store arg_count stack none with
  | none => none
  | some none => some (false, retval, store)
  | some (some fv_ret) =>
    match fvalue_dup_mem fv_ret store with
    | none => none
    | some (new_fv, store1) => some (true, df_cell_append_mem retval (some new_fv), store1)

/-- The evaluator of `max()` on the store. -/
def df_func_max_mem (fvalue_gt : fvalue_t → fvalue_t → Bool)
    (stack : List (Option GPtrArray_mem)) (arg_count : Nat) (retval : df_cell_mem)
    (store : fvalue_store) : Option (Bool × df_cell_mem × fvalue_store) :=
  df_func_compare_mem stack arg_count retval fvalue_gt store

/-- The evaluator of `min()` on the store. -/
def df_func_min_mem (fvalue_lt : fvalue_t → fvalue_t → Bool)
    (stack : List (Option GPtrArray_mem)) (arg_count : Nat) (retval : df_cell_mem)
    (store : fvalue_store) : Option (Bool × df_cell_mem × fvalue_store) :=
  df_func_compare_mem stack arg_count retval fvalue_lt store

/-- The loop of `df_func_abs` on the store. -/
def df_func_abs_loop_mem (fvalue_is_negative : fvalue_t → Bool)
    (fvalue_unary_minus : fvalue_t → Option fvalue_t) :
    List fvalue_ptr → df_cell_mem → fvalue_store → Option (df_cell_mem × fvalue_store)
  | [], retval, store => some (retval, store)
  | fv_arg :: rest, retval, store =>
    match store[fv_arg]? with
    | none => none
    | some fv =>
      if fvalue_is_negative fv then
        match fvalue_unary_minus_mem fvalue_unary_minus fv_arg store with
        | none => none
        | some (new_fv, store1) =>
          df_func_abs_loop_mem fvalue_is_negative fvalue_unary_minus rest
            (df_cell_append_mem retval new_fv) store1
      else
        match fvalue_dup_mem fv_arg store with
        | none => none
        | some (new_fv, store1) =>
          df_func_abs_loop_mem fvalue_is_negative fvalue_unary_minus rest
            (df_cell_append_mem retval (some new_fv)) store1

/-- The evaluator of `abs()` on the store. -/
def df_func_abs_mem (ws_assert_active : Bool) (fvalue_is_negative : fvalue_t → Bool)
    (fvalue_unary_minus : fvalue_t → Option fvalue_t) (stack : List (Option GPtrArray_mem))
    (arg_count : Nat) (retval : df_cell_mem) (store : fvalue_store) :
    Option (Bool × df_cell_mem × fvalue_store) :=
  match ws_assert ws_assert_active (decide (arg_count = 1)) with
  | none => none
  | some _ =>
    match stack with
    | [] => none
    | none :: _ => some (false, retval, store)
    | some arg1 :: _ =>
      match df_func_abs_loop_mem fvalue_is_negative fvalue_unary_minus arg1 retval store with
      | none => none
      | some (cell, store1) => some (!df_cell_is_empty_mem cell, cell, store1)

/-- The entries of a cell of pointers read through the store: the value a pointer points to,
`none` for the null pointer. -/
def read_cell (store : fvalue_store) (cell : df_cell_mem) : df_cell_t :=
  cell.map (fun entry => entry.bind (fun p => store[p]?))

/-- The array of pointers `ptrs` holds the addresses of the values `vals`, in order. -/
@[reducible] def points_to (store : fvalue_store) (ptrs : GPtrArray_mem) (vals : GPtrArray) :
    Prop :=
  ptrs.map (fun p => store[p]?) = vals.map some

/-- The pointer `p` reads as the value `v` in the store, the null pointer as no value. -/
@[reducible] def reads_as (store : fvalue_store) (p : Option fvalue_ptr) (v : Option fvalue_t) :
    Prop :=
  match p, v with
  | none, none => True
  | some p, some v => store[p]? = some v
  | _, _ => False

/-- A call that started with the cell `retval` and the store `store` and returned with the
cell `cell` and the store `store1` has only appended: the cell on return is the cell on entry
followed by new entries; every value that the store held on entry is held unchanged at the
same address on return; hence every parameter list of the stack that pointed to the values
`vals` on entry points to the same values on return. -/
@[reducible] def only_appended (stack : List (Option GPtrArray_mem)) (retval : df_cell_mem)
    (store : fvalue_store) (cell : df_cell_mem) (store1 : fvalue_store) : Prop :=
  (∃ added, cell = retval ++ added) ∧
  (∀ (p : fvalue_ptr) (v : fvalue_t), store[p]? = some v → store1[p]? = some v) ∧
  (∀ (arg1 : GPtrArray_mem) (vals : GPtrArray), some arg1 ∈ stack →
    points_to store arg1 vals → points_to store1 arg1 vals)

/-! ## Theorems: `count` -/

/-- C1: for every stack whose first parameter list `xs` is non-null (of any length that the
32-bit `len` field of a `GPtrArray` can hold, 0 included), `df_func_count` with arity 1 returns
true and appends exactly one value, of kind `FT_UINT32`, whose unsigned value is the number of
elements of `xs`. -/
theorem df_func_count_appends_length (xs : GPtrArray) (rest : List (Option GPtrArray))
    (retval : df_cell_t) (hlen : xs.length < 2 ^ 32) :
    df_func_count (some xs :: rest) 1 retval
      = some (true, retval ++ [some ⟨.FT_UINT32, .uinteger xs.length⟩]) := by
  have h1 : xs.length % 2 ^ 32 = xs.length := Nat.mod_eq_of_lt hlen
  unfold df_func_count fvalue_set_uinteger fvalue_new df_cell_append
  simp only [h1, ne_eq, not_true_eq_false, if_false]

/-- Scenario S1 for C1: `count` on a field with three occurrences leaves the cell
`[UINT32 3]`. -/
theorem df_func_count_appends_length_witness :
    [fv_string (ascii "/a"), fv_string (ascii "/b"), fv_string (ascii "/c")].length < 2 ^ 32 ∧
    df_func_count [some [fv_string (ascii "/a"), fv_string (ascii "/b"), fv_string (ascii "/c")]]
      1 [] = some (true, [some (fv_uint .FT_UINT32 3)]) :=
  ⟨by decide, df_func_count_appends_length _ [] [] (by decide)⟩

/-! ## Theorems: `max` and `min` -/

theorem df_func_compare_inner_append (cmp : fvalue_t → fvalue_t → Bool) (l1 l2 : List fvalue_t)
    (acc : Option fvalue_t) :
    df_func_compare_inner cmp (l1 ++ l2) acc
      = df_func_compare_inner cmp l2 (df_func_compare_inner cmp l1 acc) := by
  induction l1 generalizing acc with
  | nil => cases acc <;> rfl
  | cons x l1 ih =>
    cases acc with
    | none => simp [df_func_compare_inner, ih]
    | some best =>
      by_cases h : cmp x best = true <;> simp [df_func_compare_inner, h, ih]

theorem df_func_compare_outer_flatten (cmp : fvalue_t → fvalue_t → Bool) (lists : List GPtrArray)
    (rest : List (Option GPtrArray)) (acc : Option fvalue_t) :
    df_func_compare_outer cmp lists.length (lists.map some ++ rest) acc
      = some (df_func_compare_inner cmp lists.flatten acc) := by
  induction lists generalizing acc with
  | nil => simp [df_func_compare_outer, df_func_compare_inner]
  | cons l lists ih =>
    simp [df_func_compare_outer, ih, df_func_compare_inner_append]

theorem df_func_compare_inner_none (cmp : fvalue_t → fvalue_t → Bool) (x : fvalue_t)
    (l : List fvalue_t) :
    df_func_compare_inner cmp (x :: l) none = df_func_compare_inner cmp l (some x) := rfl

theorem df_func_compare_inner_some (cmp : fvalue_t → fvalue_t → Bool) (l : List fvalue_t)
    (best : fvalue_t) : ∃ v, df_func_compare_inner cmp l (some best) = some v := by
  induction l generalizing best with
  | nil => exact ⟨best, rfl⟩
  | cons x l ih =>
    by_cases h : cmp x best = true
    · obtain ⟨v, hv⟩ := ih x
      exact ⟨v, by simp [df_func_compare_inner, h, hv]⟩
    · obtain ⟨v, hv⟩ := ih best
      exact ⟨v, by simp [df_func_compare_inner, h, hv]⟩

/-- In a strict weak order, a value that beats `b` beats every value that does not beat `b`. -/
theorem StrictWeakOrderOn.beats_of_beats (cmp : fvalue_t → fvalue_t → Bool) (l : List fvalue_t)
    (h : StrictWeakOrderOn cmp l) (x b u : fvalue_t) (hx : x ∈ l) (hb : b ∈ l) (hu : u ∈ l)
    (hxb : cmp x b = true) (hub : cmp u b = false) : cmp x u = true := by
  obtain ⟨hirr, htr, hinc⟩ := h
  by_contra hxu
  have hxu : cmp x u = false := by simpa using hxu
  have hbx : cmp b x = false := by
    by_contra hbx
    have hbx : cmp b x = true := by simpa using hbx
    have := htr x hx b hb x hx hxb hbx
    rw [hirr x hx] at this
    exact Bool.noConfusion this
  by_cases hux : cmp u x = true
  · have := htr u hu x hx b hb hux hxb
    rw [hub] at this
    exact Bool.noConfusion this
  · have hux : cmp u x = false := by simpa using hux
    by_cases hbu : cmp b u = true
    · have := htr x hx b hb u hu hxb hbu
      rw [hxu] at this
      exact Bool.noConfusion this
    · have hbu : cmp b u = false := by simpa using hbu
      have := (hinc x hx u hu b hb ⟨hxu, hux⟩ ⟨hub, hbu⟩).1
      rw [hxb] at this
      exact Bool.noConfusion this

/-- The invariant of the selection loop: the current best beats every value before it and is
beaten by no value after it. -/
theorem df_func_compare_inner_first (cmp : fvalue_t → fvalue_t → Bool) (l : List fvalue_t) :
    ∀ (p q : List fvalue_t) (best : fvalue_t),
      StrictWeakOrderOn cmp (p ++ best :: (q ++ l)) →
      (∀ u ∈ p, cmp best u = true) → (∀ u ∈ q, cmp u best = false) →
      ∃ p1 v q1, p ++ best :: (q ++ l) = p1 ++ v :: q1 ∧
        df_func_compare_inner cmp l (some best) = some v ∧
        (∀ u ∈ p1, cmp v u = true) ∧ (∀ u ∈ q1, cmp u v = false) := by
  induction l with
  | nil =>
    intro p q best _ hp hq
    exact ⟨p, best, q, by simp, rfl, hp, hq⟩
  | cons x l ih =>
    intro p q best hswo hp hq
    have hxmem : x ∈ p ++ best :: (q ++ x :: l) := by simp
    have hbmem : best ∈ p ++ best :: (q ++ x :: l) := by simp
    by_cases h : cmp x best = true
    · have hshape : p ++ best :: (q ++ x :: l) = (p ++ best :: q) ++ x :: ([] ++ l) := by simp
      rw [hshape] at hswo
      have hbefore : ∀ u ∈ p ++ best :: q, cmp x u = true := by
        intro u hu
        have humem : u ∈ p ++ best :: (q ++ x :: l) := by
          simp only [List.mem_append, List.mem_cons] at hu ⊢
          rcases hu with hu | hu | hu
          · exact Or.inl hu
          · exact Or.inr (Or.inl hu)
          · exact Or.inr (Or.inr (Or.inl hu))
        rw [← hshape] at hswo
        simp only [List.mem_append, List.mem_cons] at hu
        rcases hu with hu | hu | hu
        · exact hswo.2.1 x hxmem best hbmem u humem h (hp u hu)
        · rw [hu]; exact h
        · exact StrictWeakOrderOn.beats_of_beats cmp _ hswo x best u hxmem hbmem humem h (hq u hu)
      obtain ⟨p1, v, q1, heq, hres, h1, h2⟩ :=
        ih (p ++ best :: q) [] x hswo hbefore (by simp)
      refine ⟨p1, v, q1, ?_, ?_, h1, h2⟩
      · rw [hshape]; exact heq
      · simp [df_func_compare_inner, h, hres]
    · have hf : cmp x best = false := by simpa using h
      have hshape : p ++ best :: (q ++ x :: l) = p ++ best :: ((q ++ [x]) ++ l) := by simp
      rw [hshape] at hswo
      have hafter : ∀ u ∈ q ++ [x], cmp u best = false := by
        intro u hu
        simp only [List.mem_append, List.mem_singleton] at hu
        rcases hu with hu | hu
        · exact hq u hu
        · rw [hu]; exact hf
      obtain ⟨p1, v, q1, heq, hres, h1, h2⟩ := ih p (q ++ [x]) best hswo hp hafter
      refine ⟨p1, v, q1, ?_, ?_, h1, h2⟩
      · rw [hshape]; exact heq
      · simp [df_func_compare_inner, hf, hres]

/-- The selection over a non-empty sequence of values: the selected value splits the sequence
into values it beats and values that do not beat it. -/
theorem df_func_compare_inner_select (cmp : fvalue_t → fvalue_t → Bool) (l : List fvalue_t)
    (hne : l ≠ []) (hswo : StrictWeakOrderOn cmp l) :
    ∃ p v q, l = p ++ v :: q ∧ df_func_compare_inner cmp l none = some v ∧
      (∀ u ∈ p, cmp v u = true) ∧ (∀ u ∈ l, cmp u v = false) := by
  cases l with
  | nil => exact absurd rfl hne
  | cons x l =>
    have hswo2 : StrictWeakOrderOn cmp ([] ++ x :: ([] ++ l)) := by simpa using hswo
    obtain ⟨p, v, q, heq, hres, h1, h2⟩ :=
      df_func_compare_inner_first cmp l [] [] x hswo2 (by simp) (by simp)
    have heq2 : x :: l = p ++ v :: q := by simpa using heq
    refine ⟨p, v, q, heq2, ?_, h1, ?_⟩
    · rw [df_func_compare_inner_none]; exact hres
    · intro u hu
      rw [heq2] at hu hswo
      simp only [List.mem_append, List.mem_cons] at hu
      have hvmem : v ∈ p ++ v :: q := by simp
      rcases hu with hu | hu | hu
      · have huv := h1 u hu
        by_contra hc
        have hc : cmp u v = true := by simpa using hc
        have := hswo.2.1 v hvmem u (by simp [hu]) v hvmem huv hc
        rw [hswo.1 v hvmem] at this
        exact Bool.noConfusion this
      · rw [hu]; exact hswo.1 v hvmem
      · exact h2 u hu

/-- A position in the concatenation of the parameter lists is a position (outer, inner) in the
lists themselves. -/
theorem flatten_position (lists : List (List fvalue_t)) :
    ∀ (p q : List fvalue_t) (v : fvalue_t), lists.flatten = p ++ v :: q →
      ∃ L1 a b L2, lists = L1 ++ (a ++ v :: b) :: L2 ∧ p = L1.flatten ++ a := by
  induction lists with
  | nil => intro p q v h; simp at h
  | cons l lists ih =>
    intro p q v h
    rw [List.flatten_cons, List.append_eq_append_iff] at h
    rcases h with ⟨a1, hp, hrest⟩ | ⟨c1, hl, hrest⟩
    · obtain ⟨L1, a, b, L2, hlists, hpa⟩ := ih a1 q v hrest
      refine ⟨l :: L1, a, b, L2, by simp [hlists], ?_⟩
      rw [hp, hpa]; simp
    · cases c1 with
      | nil =>
        simp only [List.nil_append] at hrest
        simp only [List.append_nil] at hl
        obtain ⟨L1, a, b, L2, hlists, hpa⟩ := ih [] q v (by simpa using hrest.symm)
        refine ⟨l :: L1, a, b, L2, by simp [hlists], ?_⟩
        have : L1.flatten ++ a = [] := hpa.symm
        rw [hl]; simp [this]
      | cons c cs =>
        simp only [List.cons_append, List.cons.injEq] at hrest
        refine ⟨[], p, cs, lists, ?_, by simp⟩
        rw [hl, hrest.1]; simp

theorem df_func_compare_eq (cmp : fvalue_t → fvalue_t → Bool) (lists : List GPtrArray)
    (rest : List (Option GPtrArray)) (retval : df_cell_t) :
    df_func_compare (lists.map some ++ rest) lists.length retval cmp
      = match df_func_compare_inner cmp lists.flatten none with
        | none => some (false, retval)
        | some fv_ret => some (true, retval ++ [some (fvalue_dup fv_ret)]) := by
  unfold df_func_compare
  rw [df_func_compare_outer_flatten]
  cases df_func_compare_inner cmp lists.flatten none <;> rfl

/-- C2: for every stack of non-null parameter lists that together hold at least one value,
and comparators that are strict weak orders on those values, `max` (`df_func_compare` with the
"greater than" test) returns true and appends a duplicate of an input value `v` such that no
input value is greater than `v`, and `min` (`df_func_compare` with the "less than" test)
returns true and appends a duplicate of an input value `w` such that no input value is less
than `w`. -/
theorem df_func_compare_extremum (gt lt : fvalue_t → fvalue_t → Bool) (lists : List GPtrArray)
    (more : List (Option GPtrArray)) (retval : df_cell_t) (hne : lists.flatten ≠ [])
    (hgt : StrictWeakOrderOn gt lists.flatten) (hlt : StrictWeakOrderOn lt lists.flatten) :
    (∃ v ∈ lists.flatten,
      df_func_max gt (lists.map some ++ more) lists.length retval
        = some (true, retval ++ [some (fvalue_dup v)]) ∧
      ∀ u ∈ lists.flatten, gt u v = false) ∧
    (∃ w ∈ lists.flatten,
      df_func_min lt (lists.map some ++ more) lists.length retval
        = some (true, retval ++ [some (fvalue_dup w)]) ∧
      ∀ u ∈ lists.flatten, lt u w = false) := by
  constructor
  · obtain ⟨p, v, q, heq, hres, _, hmax⟩ := df_func_compare_inner_select gt _ hne hgt
    refine ⟨v, by rw [heq]; simp, ?_, hmax⟩
    unfold df_func_max
    rw [df_func_compare_eq, hres]
  · obtain ⟨p, w, q, heq, hres, _, hmin⟩ := df_func_compare_inner_select lt _ hne hlt
    refine ⟨w, by rw [heq]; simp, ?_, hmin⟩
    unfold df_func_min
    rw [df_func_compare_eq, hres]

/-- Scenarios S3 and S4 for C2: `max` over `[1024, 65535, 8192]` is 65535, and `min` over the
lists `[100, 200]` and `[90, 210]` is 90. -/
theorem df_func_compare_extremum_witness :
    df_func_max fvalue_gt
        [some [fv_uint .FT_UINT16 1024, fv_uint .FT_UINT16 65535, fv_uint .FT_UINT16 8192]] 1 []
      = some (true, [some (fv_uint .FT_UINT16 65535)]) ∧
    df_func_min fvalue_lt
        [some [fv_uint .FT_UINT32 100, fv_uint .FT_UINT32 200],
         some [fv_uint .FT_UINT32 90, fv_uint .FT_UINT32 210]] 2 []
      = some (true, [some (fv_uint .FT_UINT32 90)]) ∧
    (∃ w ∈ [[fv_uint .FT_UINT32 100, fv_uint .FT_UINT32 200],
            [fv_uint .FT_UINT32 90, fv_uint .FT_UINT32 210]].flatten,
      df_func_min fvalue_lt
          [some [fv_uint .FT_UINT32 100, fv_uint .FT_UINT32 200],
           some [fv_uint .FT_UINT32 90, fv_uint .FT_UINT32 210]] 2 []
        = some (true, [] ++ [some (fvalue_dup w)]) ∧
      ∀ u ∈ [[fv_uint .FT_UINT32 100, fv_uint .FT_UINT32 200],
             [fv_uint .FT_UINT32 90, fv_uint .FT_UINT32 210]].flatten, fvalue_lt u w = false) :=
  ⟨by decide, by decide,
   (df_func_compare_extremum fvalue_gt fvalue_lt
      [[fv_uint .FT_UINT32 100, fv_uint .FT_UINT32 200],
       [fv_uint .FT_UINT32 90, fv_uint .FT_UINT32 210]] [] []
      (by decide) (by decide) (by decide)).2⟩

/-- C3: when several input values are tied for the extremum, `df_func_compare` duplicates the
one with the smallest position in (outer parameter index, inner value index) order: the
selected value `v` sits at inner index `|a|` of the list at outer index `|L1|`, no input value
beats it, and it strictly beats every value at an earlier position, so no earlier value is tied
with it. In the loop a later value that does not strictly beat the current best leaves the
current best in place. -/
theorem df_func_compare_first_extremum (fv_cmp : fvalue_t → fvalue_t → Bool)
    (lists : List GPtrArray) (more : List (Option GPtrArray)) (retval : df_cell_t)
    (hne : lists.flatten ≠ [])
    (hswo : StrictWeakOrderOn fv_cmp lists.flatten) :
    (∃ L1 a v b L2, lists = L1 ++ (a ++ v :: b) :: L2 ∧
      df_func_compare (lists.map some ++ more) lists.length retval fv_cmp
        = some (true, retval ++ [some (fvalue_dup v)]) ∧
      (∀ u ∈ lists.flatten, fv_cmp u v = false) ∧
      (∀ u ∈ L1.flatten ++ a, fv_cmp v u = true)) ∧
    (∀ (x best : fvalue_t) (rest : List fvalue_t), fv_cmp x best = false →
      df_func_compare_inner fv_cmp (x :: rest) (some best)
        = df_func_compare_inner fv_cmp rest (some best)) := by
  constructor
  · obtain ⟨p, v, q, heq, hres, hbefore, hmax⟩ := df_func_compare_inner_select fv_cmp _ hne hswo
    obtain ⟨L1, a, b, L2, hlists, hp⟩ := flatten_position lists p q v heq
    refine ⟨L1, a, v, b, L2, hlists, ?_, hmax, ?_⟩
    · rw [df_func_compare_eq, hres]
    · rw [← hp]; exact hbefore
  · intro x best rest h
    simp [df_func_compare_inner, h]

/-- A tie for C3: the 16-bit and the 32-bit value 7 are tied for the maximum; the one at the
earlier position, (0, 1), is selected, not the one at (1, 0). -/
theorem df_func_compare_first_extremum_witness :
    df_func_compare
        [some [fv_uint .FT_UINT16 5, fv_uint .FT_UINT16 7],
         some [fv_uint .FT_UINT32 7, fv_uint .FT_UINT32 3]] 2 [] fvalue_gt
      = some (true, [some (fv_uint .FT_UINT16 7)]) ∧
    ((∃ L1 a v b L2,
      [[fv_uint .FT_UINT16 5, fv_uint .FT_UINT16 7],
       [fv_uint .FT_UINT32 7, fv_uint .FT_UINT32 3]] = L1 ++ (a ++ v :: b) :: L2 ∧
      df_func_compare
          ([[fv_uint .FT_UINT16 5, fv_uint .FT_UINT16 7],
            [fv_uint .FT_UINT32 7, fv_uint .FT_UINT32 3]].map some) 2 [] fvalue_gt
        = some (true, [] ++ [some (fvalue_dup v)]) ∧
      (∀ u ∈ [[fv_uint .FT_UINT16 5, fv_uint .FT_UINT16 7],
              [fv_uint .FT_UINT32 7, fv_uint .FT_UINT32 3]].flatten, fvalue_gt u v = false) ∧
      (∀ u ∈ L1.flatten ++ a, fvalue_gt v u = true)) ∧
    (∀ (x best : fvalue_t) (rest : List fvalue_t), fvalue_gt x best = false →
      df_func_compare_inner fvalue_gt (x :: rest) (some best)
        = df_func_compare_inner fvalue_gt rest (some best))) :=
  ⟨by decide,
   df_func_compare_first_extremum fvalue_gt
     [[fv_uint .FT_UINT16 5, fv_uint .FT_UINT16 7],
      [fv_uint .FT_UINT32 7, fv_uint .FT_UINT32 3]] [] [] (by decide) (by decide)⟩

theorem df_func_compare_false_iff_all_empty_aux (fv_cmp : fvalue_t → fvalue_t → Bool)
    (lists : List GPtrArray) (more : List (Option GPtrArray)) (retval : df_cell_t) :
    ∃ b cell, df_func_compare (lists.map some ++ more) lists.length retval fv_cmp = some (b, cell) ∧
      (b = false ↔ ∀ l ∈ lists, l = []) ∧
      (b = false → cell = retval) ∧
      (b = true → ∃ v, cell = retval ++ [some v]) := by
  rw [df_func_compare_eq]
  cases hfl : lists.flatten with
  | nil =>
    have hall : ∀ l ∈ lists, l = [] := List.flatten_eq_nil_iff.mp hfl
    exact ⟨false, retval, rfl, ⟨fun _ => hall, fun _ => rfl⟩, fun _ => rfl,
      fun h => Bool.noConfusion h⟩
  | cons x rest =>
    obtain ⟨v, hv⟩ := df_func_compare_inner_some fv_cmp rest x
    refine ⟨true, retval ++ [some (fvalue_dup v)], ?_, ?_, fun h => Bool.noConfusion h,
      fun _ => ⟨fvalue_dup v, rfl⟩⟩
    · rw [df_func_compare_inner_none, hv]
    · constructor
      · intro h; exact Bool.noConfusion h
      · intro h
        have : lists.flatten = [] := List.flatten_eq_nil_iff.mpr h
        rw [hfl] at this
        exact List.noConfusion this

/-- C4: for every stack of `arg_count` non-null parameter lists, `df_func_compare` (hence
`max` and `min`) returns false if and only if every parameter list is empty; when it returns
false the cell is unchanged, and when it returns true exactly one value has been appended. -/
theorem df_func_compare_false_iff_all_empty (fv_cmp : fvalue_t → fvalue_t → Bool)
    (lists : List GPtrArray) (more : List (Option GPtrArray)) (retval : df_cell_t) :
    ∃ b cell, df_func_compare (lists.map some ++ more) lists.length retval fv_cmp = some (b, cell) ∧
      (b = false ↔ ∀ l ∈ lists, l = []) ∧
      (b = false → cell = retval) ∧
      (b = true → ∃ v, cell = retval ++ [some v]) :=
  df_func_compare_false_iff_all_empty_aux fv_cmp lists more retval

/-! ## Theorems: the loops of `lower`, `upper`, `string` and `abs` -/

theorem string_walk_conv_eq (conv_func : gchar → gchar) (src : List gchar) (dst : wmem_strbuf_t) :
    string_walk_conv conv_func src dst = dst ++ src.map conv_func := by
  induction src generalizing dst with
  | nil => simp [string_walk_conv]
  | cons c src ih => simp [string_walk_conv, wmem_strbuf_append_c, ih]

theorem string_walk_loop_eq (ft_is_string : ftenum → Bool) (conv_func : gchar → gchar)
    (xs : List fvalue_t) (retval : df_cell_t) :
    string_walk_loop ft_is_string conv_func xs retval
      = retval ++ (xs.filter (fun v => ft_is_string v.ftype)).map
          (fun v => some ⟨.FT_STRING, .strbuf ((fvalue_get_strbuf v).map conv_func)⟩) := by
  induction xs generalizing retval with
  | nil => simp [string_walk_loop]
  | cons x xs ih =>
    by_cases h : ft_is_string x.ftype = true
    · simp [string_walk_loop, fvalue_type_ftenum, h, ih, df_cell_append, fvalue_set_strbuf,
        fvalue_new, string_walk_conv_eq]
    · simp [string_walk_loop, fvalue_type_ftenum, h, ih]

theorem string_walk_eq (ft_is_string : ftenum → Bool) (conv_func : gchar → gchar)
    (xs : List fvalue_t) (rest : List (Option GPtrArray)) (retval : df_cell_t) :
    string_walk ft_is_string (some xs :: rest) 1 retval conv_func
      = some (true, retval ++ (xs.filter (fun v => ft_is_string v.ftype)).map
          (fun v => some ⟨.FT_STRING, .strbuf ((fvalue_get_strbuf v).map conv_func)⟩)) := by
  simp [string_walk, string_walk_loop_eq]

theorem df_func_abs_loop_eq (isneg : fvalue_t → Bool) (um : fvalue_t → Option fvalue_t)
    (xs : List fvalue_t) (retval : df_cell_t) :
    df_func_abs_loop isneg um xs retval
      = retval ++ xs.map (fun v => if isneg v then um v else some (fvalue_dup v)) := by
  induction xs generalizing retval with
  | nil => simp [df_func_abs_loop]
  | cons x xs ih => simp [df_func_abs_loop, df_cell_append, ih]

theorem df_func_count_some (xs : GPtrArray) (rest : List (Option GPtrArray))
    (retval : df_cell_t) :
    df_func_count (some xs :: rest) 1 retval
      = some (true, df_cell_append retval
          (some (fvalue_set_uinteger (fvalue_new .FT_UINT32) (xs.length % 2 ^ 32)))) := rfl

theorem df_func_string_some (to_string_repr : fvalue_t → Option (List gchar)) (xs : GPtrArray)
    (rest : List (Option GPtrArray)) (retval : df_cell_t) :
    df_func_string to_string_repr (some xs :: rest) 1 retval
      = some (true, df_func_string_loop to_string_repr xs retval) := rfl

theorem df_func_abs_some (isneg : fvalue_t → Bool) (um : fvalue_t → Option fvalue_t)
    (xs : GPtrArray) (rest : List (Option GPtrArray)) (retval : df_cell_t) :
    df_func_abs isneg um (some xs :: rest) 1 retval
      = some (!df_cell_is_empty (df_func_abs_loop isneg um xs retval),
          df_func_abs_loop isneg um xs retval) := rfl

/-! ## Theorems: soft failure -/

/-- C5 as amended: `lower`, `upper`, `count`, `string` and `abs` return false, with the cell
as it was, when the parameter list at index 0 is null. When that list is non-null, `lower`,
`upper`, `count` and `string` return true; `abs` returns true exactly when the cell is
non-empty on return; `max` and `min`, on a stack of non-null lists, return true exactly when
some list holds a value. -/
theorem evaluators_soft_failure (ft_is_string : ftenum → Bool)
    (to_string_repr : fvalue_t → Option (List gchar)) (isneg : fvalue_t → Bool)
    (um : fvalue_t → Option fvalue_t) (gt lt : fvalue_t → fvalue_t → Bool)
    (xs : GPtrArray) (rest : List (Option GPtrArray)) (lists : List GPtrArray)
    (more : List (Option GPtrArray)) (retval : df_cell_t) :
    (df_func_lower ft_is_string (none :: rest) 1 retval = some (false, retval) ∧
     df_func_upper ft_is_string (none :: rest) 1 retval = some (false, retval) ∧
     df_func_count (none :: rest) 1 retval = some (false, retval) ∧
     df_func_string to_string_repr (none :: rest) 1 retval = some (false, retval) ∧
     df_func_abs isneg um (none :: rest) 1 retval = some (false, retval)) ∧
    ((∃ cell, df_func_lower ft_is_string (some xs :: rest) 1 retval = some (true, cell)) ∧
     (∃ cell, df_func_upper ft_is_string (some xs :: rest) 1 retval = some (true, cell)) ∧
     (∃ cell, df_func_count (some xs :: rest) 1 retval = some (true, cell)) ∧
     (∃ cell, df_func_string to_string_repr (some xs :: rest) 1 retval = some (true, cell))) ∧
    (∃ b cell, df_func_abs isneg um (some xs :: rest) 1 retval = some (b, cell) ∧
      (b = true ↔ cell ≠ [])) ∧
    (∃ b cell, df_func_max gt (lists.map some ++ more) lists.length retval = some (b, cell) ∧
      (b = true ↔ ∃ l ∈ lists, l ≠ [])) ∧
    (∃ b cell, df_func_min lt (lists.map some ++ more) lists.length retval = some (b, cell) ∧
      (b = true ↔ ∃ l ∈ lists, l ≠ [])) := by
  have hcmp : ∀ cmp : fvalue_t → fvalue_t → Bool,
      ∃ b cell, df_func_compare (lists.map some ++ more) lists.length retval cmp = some (b, cell) ∧
        (b = true ↔ ∃ l ∈ lists, l ≠ []) := by
    intro cmp
    obtain ⟨b, cell, heq, hiff, _, _⟩ := df_func_compare_false_iff_all_empty_aux cmp lists more retval
    refine ⟨b, cell, heq, ?_⟩
    cases b with
    | false =>
      have hall := hiff.mp rfl
      constructor
      · intro h; exact Bool.noConfusion h
      · rintro ⟨l, hl, hne⟩; exact absurd (hall l hl) hne
    | true =>
      constructor
      · intro _
        by_contra hno
        have hall : ∀ l ∈ lists, l = [] := by
          intro l hl
          by_contra hne
          exact hno ⟨l, hl, hne⟩
        exact Bool.noConfusion (hiff.mpr hall)
      · intro _; rfl
  refine ⟨⟨?_, ?_, ?_, ?_, ?_⟩, ⟨?_, ?_, ?_, ?_⟩, ?_, hcmp gt, hcmp lt⟩
  · simp [df_func_lower, string_walk]
  · simp [df_func_upper, string_walk]
  · simp [df_func_count]
  · simp [df_func_string]
  · simp [df_func_abs]
  · exact ⟨_, string_walk_eq ft_is_string g_ascii_tolower xs rest retval⟩
  · exact ⟨_, string_walk_eq ft_is_string g_ascii_toupper xs rest retval⟩
  · exact ⟨_, df_func_count_some xs rest retval⟩
  · exact ⟨_, df_func_string_some to_string_repr xs rest retval⟩
  · refine ⟨!df_cell_is_empty (df_func_abs_loop isneg um xs retval),
      df_func_abs_loop isneg um xs retval, df_func_abs_some isneg um xs rest retval, ?_⟩
    cases df_func_abs_loop isneg um xs retval <;> simp [df_cell_is_empty]

/-- C5 as stated fails: on a non-null empty parameter list at index 0, `abs` and `max` return
false, not true. -/
theorem evaluators_soft_failure_counterexample :
    df_func_abs fvalue_is_negative fvalue_unary_minus [some []] 1 [] = some (false, []) ∧
    df_func_max fvalue_gt [some []] 1 [] = some (false, []) ∧
    df_func_min fvalue_lt [some []] 1 [] = some (false, []) := by
  decide

/-- C9: each of `lower`, `upper`, `count` and `string` returns false if and only if the first
parameter list is null, and then leaves the cell unchanged; on an empty non-null list `lower`,
`upper` and `string` return true and append nothing. -/
theorem string_count_false_iff_null (ft_is_string : ftenum → Bool)
    (to_string_repr : fvalue_t → Option (List gchar)) (x : Option GPtrArray)
    (rest : List (Option GPtrArray)) (retval : df_cell_t) :
    (∃ b cell, df_func_lower ft_is_string (x :: rest) 1 retval = some (b, cell) ∧
      (b = false ↔ x = none) ∧ (x = none → cell = retval)) ∧
    (∃ b cell, df_func_upper ft_is_string (x :: rest) 1 retval = some (b, cell) ∧
      (b = false ↔ x = none) ∧ (x = none → cell = retval)) ∧
    (∃ b cell, df_func_count (x :: rest) 1 retval = some (b, cell) ∧
      (b = false ↔ x = none) ∧ (x = none → cell = retval)) ∧
    (∃ b cell, df_func_string to_string_repr (x :: rest) 1 retval = some (b, cell) ∧
      (b = false ↔ x = none) ∧ (x = none → cell = retval)) ∧
    df_func_lower ft_is_string (some [] :: rest) 1 retval = some (true, retval) ∧
    df_func_upper ft_is_string (some [] :: rest) 1 retval = some (true, retval) ∧
    df_func_string to_string_repr (some [] :: rest) 1 retval = some (true, retval) := by
  refine ⟨?_, ?_, ?_, ?_, ?_, ?_, ?_⟩
  · cases x with
    | none => exact ⟨false, retval, by simp [df_func_lower, string_walk], by simp, fun _ => rfl⟩
    | some xs => exact ⟨true, _, string_walk_eq ft_is_string g_ascii_tolower xs rest retval,
        by simp, fun h => Option.noConfusion h⟩
  · cases x with
    | none => exact ⟨false, retval, by simp [df_func_upper, string_walk], by simp, fun _ => rfl⟩
    | some xs => exact ⟨true, _, string_walk_eq ft_is_string g_ascii_toupper xs rest retval,
        by simp, fun h => Option.noConfusion h⟩
  · cases x with
    | none => exact ⟨false, retval, by simp [df_func_count], by simp, fun _ => rfl⟩
    | some xs => exact ⟨true, _, df_func_count_some xs rest retval, by simp,
        fun h => Option.noConfusion h⟩
  · cases x with
    | none => exact ⟨false, retval, by simp [df_func_string], by simp, fun _ => rfl⟩
    | some xs => exact ⟨true, _, df_func_string_some to_string_repr xs rest retval, by simp,
        fun h => Option.noConfusion h⟩
  · simp [df_func_lower, string_walk, string_walk_loop]
  · simp [df_func_upper, string_walk, string_walk_loop]
  · simp [df_func_string, df_func_string_loop]

/-! ## Theorems: `lower` and `upper` -/

/-- C6: for every non-null argument list `xs`, `lower` (resp. `upper`) returns true and
appends, in the order of `xs`, exactly one new `FT_STRING` value per element of `xs` whose kind
is a string kind and nothing for any other element; the produced string is the source string
mapped byte by byte through `g_ascii_tolower` (resp. `g_ascii_toupper`), so it has the length of
its source and its i-th byte is the image of the i-th byte of the source. -/
theorem string_walk_maps_strings (ft_is_string : ftenum → Bool) (xs : GPtrArray)
    (rest : List (Option GPtrArray)) (retval : df_cell_t) :
    df_func_lower ft_is_string (some xs :: rest) 1 retval
      = some (true, retval ++ (xs.filter (fun v => ft_is_string (fvalue_type_ftenum v))).map
          (fun v => some (fv_string ((fvalue_get_strbuf v).map g_ascii_tolower)))) ∧
    df_func_upper ft_is_string (some xs :: rest) 1 retval
      = some (true, retval ++ (xs.filter (fun v => ft_is_string (fvalue_type_ftenum v))).map
          (fun v => some (fv_string ((fvalue_get_strbuf v).map g_ascii_toupper)))) :=
  ⟨string_walk_eq ft_is_string g_ascii_tolower xs rest retval,
   string_walk_eq ft_is_string g_ascii_toupper xs rest retval⟩

/-- Scenario S2 for C6: `upper` on the values "example.com" and "a.b" leaves the cell
`[STRING "EXAMPLE.COM", STRING "A.B"]`. -/
theorem string_walk_maps_strings_witness :
    df_func_upper FT_IS_STRING [some [fv_string (ascii "example.com"), fv_string (ascii "a.b")]]
        1 []
      = some (true, [some (fv_string (ascii "EXAMPLE.COM")), some (fv_string (ascii "A.B"))]) :=
  (string_walk_maps_strings FT_IS_STRING
    [fv_string (ascii "example.com"), fv_string (ascii "a.b")] [] []).2.trans (by decide)

theorem g_ascii_tolower_toupper (c : Nat) :
    g_ascii_tolower (g_ascii_toupper c) = g_ascii_tolower c := by
  unfold g_ascii_tolower g_ascii_toupper gchar
  split_ifs <;> omega

theorem g_ascii_toupper_tolower (c : Nat) :
    g_ascii_toupper (g_ascii_tolower c) = g_ascii_toupper c := by
  unfold g_ascii_tolower g_ascii_toupper gchar
  split_ifs <;> omega

/-- Running `string_walk` with `conv2` on the values produced by `string_walk` with `conv1`
produces what one run with the composed mapping produces. -/
theorem string_walk_twice (ft_is_string : ftenum → Bool) (conv1 conv2 : gchar → gchar)
    (hS : ft_is_string .FT_STRING = true) (f : GPtrArray) (rest : List (Option GPtrArray))
    (retval : df_cell_t) :
    ∃ ys : GPtrArray,
      string_walk ft_is_string (some f :: rest) 1 [] conv1 = some (true, ys.map some) ∧
      string_walk ft_is_string (some ys :: rest) 1 retval conv2
        = some (true, retval ++ (f.filter (fun v => ft_is_string v.ftype)).map
            (fun v => some ⟨.FT_STRING,
              .strbuf ((fvalue_get_strbuf v).map (fun c => conv2 (conv1 c)))⟩)) := by
  refine ⟨(f.filter (fun v => ft_is_string v.ftype)).map
    (fun v => ⟨.FT_STRING, .strbuf ((fvalue_get_strbuf v).map conv1)⟩), ?_, ?_⟩
  · rw [string_walk_eq]; simp
  · rw [string_walk_eq]
    have hfilter : ∀ l : List fvalue_t,
        (l.map (fun v => (⟨.FT_STRING, .strbuf ((fvalue_get_strbuf v).map conv1)⟩ : fvalue_t))).filter
          (fun v => ft_is_string v.ftype)
        = l.map (fun v => ⟨.FT_STRING, .strbuf ((fvalue_get_strbuf v).map conv1)⟩) := by
      intro l
      apply List.filter_eq_self.mpr
      intro a ha
      obtain ⟨v, _, rfl⟩ := List.mem_map.mp ha
      exact hS
    rw [hfilter]
    simp [fvalue_get_strbuf, Function.comp_def]

/-- C7: for every list `f` of string values holding only ASCII letters, `lower` run on the
values of the cell produced by `upper` on `f` gives the same result as `lower` on `f`, and
`upper` run on the values of the cell produced by `lower` on `f` gives the same result as
`upper` on `f`. (`hS` says that the string macro accepts the kind of the produced values.) -/
theorem lower_upper_round_trip (ft_is_string : ftenum → Bool) (f : GPtrArray)
    (rest : List (Option GPtrArray)) (retval : df_cell_t)
    (hS : ft_is_string .FT_STRING = true)
    (_hf : ∀ v ∈ f, ft_is_string (fvalue_type_ftenum v) = true ∧
      ∃ s, v.value = .strbuf s ∧ ∀ c ∈ s, is_ascii_letter c) :
    (∃ ys : GPtrArray,
      df_func_upper ft_is_string (some f :: rest) 1 [] = some (true, ys.map some) ∧
      df_func_lower ft_is_string (some ys :: rest) 1 retval
        = df_func_lower ft_is_string (some f :: rest) 1 retval) ∧
    (∃ zs : GPtrArray,
      df_func_lower ft_is_string (some f :: rest) 1 [] = some (true, zs.map some) ∧
      df_func_upper ft_is_string (some zs :: rest) 1 retval
        = df_func_upper ft_is_string (some f :: rest) 1 retval) := by
  constructor
  · obtain ⟨ys, h1, h2⟩ :=
      string_walk_twice ft_is_string g_ascii_toupper g_ascii_tolower hS f rest retval
    refine ⟨ys, h1, ?_⟩
    unfold df_func_lower
    rw [h2, string_walk_eq]
    simp only [g_ascii_tolower_toupper]
  · obtain ⟨zs, h1, h2⟩ :=
      string_walk_twice ft_is_string g_ascii_tolower g_ascii_toupper hS f rest retval
    refine ⟨zs, h1, ?_⟩
    unfold df_func_upper
    rw [h2, string_walk_eq]
    simp only [g_ascii_toupper_tolower]

/-- The round trip of C7 on the values "Hello" and "WORLD". -/
theorem lower_upper_round_trip_witness :
    FT_IS_STRING .FT_STRING = true ∧
    (∀ v ∈ [fv_string (ascii "Hello"), fv_string (ascii "WORLD")],
      FT_IS_STRING (fvalue_type_ftenum v) = true ∧
      ∃ s, v.value = .strbuf s ∧ ∀ c ∈ s, is_ascii_letter c) ∧
    ((∃ ys : GPtrArray,
      df_func_upper FT_IS_STRING [some [fv_string (ascii "Hello"), fv_string (ascii "WORLD")]] 1 []
        = some (true, ys.map some) ∧
      df_func_lower FT_IS_STRING [some ys] 1 []
        = df_func_lower FT_IS_STRING
            [some [fv_string (ascii "Hello"), fv_string (ascii "WORLD")]] 1 []) ∧
    (∃ zs : GPtrArray,
      df_func_lower FT_IS_STRING [some [fv_string (ascii "Hello"), fv_string (ascii "WORLD")]] 1 []
        = some (true, zs.map some) ∧
      df_func_upper FT_IS_STRING [some zs] 1 []
        = df_func_upper FT_IS_STRING
            [some [fv_string (ascii "Hello"), fv_string (ascii "WORLD")]] 1 [])) := by
  have hf : ∀ v ∈ [fv_string (ascii "Hello"), fv_string (ascii "WORLD")],
      FT_IS_STRING (fvalue_type_ftenum v) = true ∧
      ∃ s, v.value = .strbuf s ∧ ∀ c ∈ s, is_ascii_letter c := by
    intro v hv
    simp only [List.mem_cons, List.mem_singleton, List.not_mem_nil, or_false] at hv
    rcases hv with rfl | rfl
    · exact ⟨by decide, ascii "Hello", rfl, by decide⟩
    · exact ⟨by decide, ascii "WORLD", rfl, by decide⟩
  exact ⟨by decide, hf, lower_upper_round_trip FT_IS_STRING _ [] [] (by decide) hf⟩

/-- C8: for every string value and every position `i`, a byte that is not an ASCII letter
(a digit, punctuation, a control byte, NUL, a byte 0x80..0xFF) is found unchanged at position
`i` of the strings produced by `lower` and by `upper`; `lower` leaves every byte outside
`'A'..'Z'` unchanged and `upper` leaves every byte outside `'a'..'z'` unchanged. -/
theorem string_walk_preserves_non_letters (ft_is_string : ftenum → Bool) (v : fvalue_t)
    (rest : List (Option GPtrArray)) (retval : df_cell_t)
    (hv : ft_is_string (fvalue_type_ftenum v) = true) :
    ∃ lo up : wmem_strbuf_t,
      df_func_lower ft_is_string (some [v] :: rest) 1 retval
        = some (true, retval ++ [some (fv_string lo)]) ∧
      df_func_upper ft_is_string (some [v] :: rest) 1 retval
        = some (true, retval ++ [some (fv_string up)]) ∧
      lo.length = (fvalue_get_strbuf v).length ∧
      up.length = (fvalue_get_strbuf v).length ∧
      ∀ (i : Nat) (c : gchar), (fvalue_get_strbuf v)[i]? = some c →
        (¬ (65 ≤ c ∧ c ≤ 90) → lo[i]? = some c) ∧
        (¬ (97 ≤ c ∧ c ≤ 122) → up[i]? = some c) ∧
        (¬ is_ascii_letter c → lo[i]? = some c ∧ up[i]? = some c) := by
  have hv2 : ft_is_string v.ftype = true := hv
  have hlo : ∀ c : gchar, ¬ (65 ≤ c ∧ c ≤ 90) → g_ascii_tolower c = c := by
    intro c hc
    unfold g_ascii_tolower
    rw [if_neg hc]
  have hup : ∀ c : gchar, ¬ (97 ≤ c ∧ c ≤ 122) → g_ascii_toupper c = c := by
    intro c hc
    unfold g_ascii_toupper
    rw [if_neg hc]
  refine ⟨(fvalue_get_strbuf v).map g_ascii_tolower, (fvalue_get_strbuf v).map g_ascii_toupper,
    ?_, ?_, by simp, by simp, ?_⟩
  · unfold df_func_lower
    rw [string_walk_eq]
    simp [hv2, fv_string]
  · unfold df_func_upper
    rw [string_walk_eq]
    simp [hv2, fv_string]
  · intro i c hc
    refine ⟨?_, ?_, ?_⟩
    · intro h
      rw [List.getElem?_map, hc, Option.map_some', hlo c h]
    · intro h
      rw [List.getElem?_map, hc, Option.map_some', hup c h]
    · intro h
      have h1 : ¬ (65 ≤ c ∧ c ≤ 90) := fun h1 => h (Or.inl h1)
      have h2 : ¬ (97 ≤ c ∧ c ≤ 122) := fun h2 => h (Or.inr h2)
      constructor
      · rw [List.getElem?_map, hc, Option.map_some', hlo c h1]
      · rw [List.getElem?_map, hc, Option.map_some', hup c h2]

/-- C8 on the bytes `'A'`, `'1'`, 0xE9, NUL, `'z'`, `'['`: only the letters change. -/
theorem string_walk_preserves_non_letters_witness :
    FT_IS_STRING (fvalue_type_ftenum (fv_string [65, 49, 233, 0, 122, 91])) = true ∧
    df_func_lower FT_IS_STRING [some [fv_string [65, 49, 233, 0, 122, 91]]] 1 []
      = some (true, [some (fv_string [97, 49, 233, 0, 122, 91])]) ∧
    df_func_upper FT_IS_STRING [some [fv_string [65, 49, 233, 0, 122, 91]]] 1 []
      = some (true, [some (fv_string [65, 49, 233, 0, 90, 91])]) ∧
    ∃ lo up : wmem_strbuf_t,
      df_func_lower FT_IS_STRING [some [fv_string [65, 49, 233, 0, 122, 91]]] 1 []
        = some (true, [] ++ [some (fv_string lo)]) ∧
      df_func_upper FT_IS_STRING [some [fv_string [65, 49, 233, 0, 122, 91]]] 1 []
        = some (true, [] ++ [some (fv_string up)]) ∧
      lo.length = (fvalue_get_strbuf (fv_string [65, 49, 233, 0, 122, 91])).length ∧
      up.length = (fvalue_get_strbuf (fv_string [65, 49, 233, 0, 122, 91])).length ∧
      ∀ (i : Nat) (c : gchar),
        (fvalue_get_strbuf (fv_string [65, 49, 233, 0, 122, 91]))[i]? = some c →
        (¬ (65 ≤ c ∧ c ≤ 90) → lo[i]? = some c) ∧
        (¬ (97 ≤ c ∧ c ≤ 122) → up[i]? = some c) ∧
        (¬ is_ascii_letter c → lo[i]? = some c ∧ up[i]? = some c) :=
  ⟨by decide, by decide, by decide,
   string_walk_preserves_non_letters FT_IS_STRING (fv_string [65, 49, 233, 0, 122, 91]) [] []
     (by decide)⟩

/-! ## Theorems: `abs` -/

theorem sint_width_pos (ft : ftenum) (w : Nat) (hw : sint_width ft = some w) : 1 ≤ w := by
  cases ft <;> simp [sint_width] at hw <;> omega

/-- C11, what the code does: in `abs`, for an element `v` that is negative and for which
`unary_minus` fails, the loop appends the null pointer returned by `unary_minus` at the
position of `v` instead of skipping the element; the other elements are processed as usual and
the cell grows by one entry per element of the list. -/
theorem df_func_abs_appends_null (isneg : fvalue_t → Bool) (um : fvalue_t → Option fvalue_t)
    (pre post : GPtrArray) (v : fvalue_t) (rest : List (Option GPtrArray)) (retval : df_cell_t)
    (hneg : isneg v = true) (hfail : um v = none) :
    df_func_abs isneg um (some (pre ++ v :: post) :: rest) 1 retval
      = some (true,
          retval ++ pre.map (fun x => if isneg x then um x else some (fvalue_dup x))
            ++ none :: post.map (fun x => if isneg x then um x else some (fvalue_dup x))) := by
  rw [df_func_abs_some, df_func_abs_loop_eq]
  simp [hneg, hfail, df_cell_is_empty]

/-- C11 on the list `[3, -7]` with a library whose `unary_minus` fails: the cell holds the
value 3 and a null pointer. -/
theorem df_func_abs_appends_null_witness :
    fvalue_is_negative (fv_sint .FT_INT32 (-7)) = true ∧
    (fun _ : fvalue_t => (none : Option fvalue_t)) (fv_sint .FT_INT32 (-7)) = none ∧
    df_func_abs fvalue_is_negative (fun _ => none)
        [some [fv_sint .FT_INT32 3, fv_sint .FT_INT32 (-7)]] 1 []
      = some (true, [some (fv_sint .FT_INT32 3), none]) :=
  ⟨by decide, rfl,
   df_func_abs_appends_null fvalue_is_negative (fun _ => none) [fv_sint .FT_INT32 3] []
     (fv_sint .FT_INT32 (-7)) [] [] (by decide) rfl⟩

/-- C12: for every non-null list `xs` and an output cell that is empty on entry, `abs` returns
true if and only if the cell is non-empty after the call, which is the case if and only if
`xs` is non-empty; in particular it returns false for an empty `xs`. -/
theorem df_func_abs_true_iff_nonempty (isneg : fvalue_t → Bool)
    (um : fvalue_t → Option fvalue_t) (xs : GPtrArray) (rest : List (Option GPtrArray)) :
    ∃ b cell, df_func_abs isneg um (some xs :: rest) 1 [] = some (b, cell) ∧
      (b = true ↔ cell ≠ []) ∧ (b = true ↔ xs ≠ []) ∧
      df_func_abs isneg um (some [] :: rest) 1 [] = some (false, []) := by
  refine ⟨_, _, df_func_abs_some isneg um xs rest [], ?_, ?_, ?_⟩
  · cases df_func_abs_loop isneg um xs [] <;> simp [df_cell_is_empty]
  · rw [df_func_abs_loop_eq]
    cases xs <;> simp [df_cell_is_empty]
  · rfl

/-! ## Theorems: `string` -/

theorem df_func_string_loop_eq (to_string_repr : fvalue_t → Option (List gchar))
    (xs : List fvalue_t) (retval : df_cell_t) :
    df_func_string_loop to_string_repr xs retval
      = retval ++ (xs.takeWhile (fun v => df_func_string_case v.ftype)).map
          (fun v => some (fv_string ((to_string_repr v).getD []))) := by
  induction xs generalizing retval with
  | nil => simp [df_func_string_loop]
  | cons x xs ih =>
    by_cases h : df_func_string_case x.ftype = true
    · cases hr : to_string_repr x <;>
        simp [df_func_string_loop, fvalue_type_ftenum, h, hr, ih, df_cell_append,
          fvalue_set_string, fvalue_new, fv_string]
    · simp [df_func_string_loop, fvalue_type_ftenum, h]

theorem df_func_string_stops (to_string_repr : fvalue_t → Option (List gchar))
    (pre post : GPtrArray) (v : fvalue_t) (rest : List (Option GPtrArray)) (retval : df_cell_t)
    (hpre : ∀ u ∈ pre, df_func_string_case (fvalue_type_ftenum u) = true)
    (hv : df_func_string_case (fvalue_type_ftenum v) = false) :
    df_func_string to_string_repr (some (pre ++ v :: post) :: rest) 1 retval
      = some (true, retval ++ pre.map (fun u => some (fv_string ((to_string_repr u).getD [])))) := by
  rw [df_func_string_some, df_func_string_loop_eq]
  have htake : (pre ++ v :: post).takeWhile (fun v => df_func_string_case v.ftype) = pre := by
    induction pre with
    | nil =>
      have hv2 : df_func_string_case v.ftype = false := hv
      simp [List.takeWhile, hv2]
    | cons a pre ih =>
      have ha : df_func_string_case a.ftype = true := hpre a (by simp)
      have hrec := ih (fun u hu => hpre u (by simp [hu]))
      rw [List.cons_append, List.takeWhile_cons, ha, if_pos rfl, hrec]
  rw [htake]

/-- C13, what the code does: for every non-null list `xs`, `string` returns true and appends
exactly one `FT_STRING` value per element of the longest prefix of `xs` whose elements all have
a kind listed by the `switch` of the evaluator, in order: the representation of the element, or
the empty string when the library returns none. The kinds listed are the stringifiable kinds
of the specification without the signed 24-bit kind `FT_INT24`. A value of a non-stringifiable
kind stops the call, as the claim says: nothing is appended for it or for any later element,
and what was appended before stays. Against the claim, a value of the stringifiable kind
`FT_INT24` stops the call in the same way. -/
theorem df_func_string_until_unlisted (to_string_repr : fvalue_t → Option (List gchar))
    (xs : GPtrArray) (rest : List (Option GPtrArray)) (retval : df_cell_t) :
    df_func_string to_string_repr (some xs :: rest) 1 retval
      = some (true,
          retval ++ (xs.takeWhile (fun v => df_func_string_case (fvalue_type_ftenum v))).map
            (fun v => some (fv_string ((to_string_repr v).getD [])))) ∧
    (∀ ft : ftenum,
      df_func_string_case ft = true ↔ (stringifiable_kind ft = true ∧ ft ≠ .FT_INT24)) ∧
    stringifiable_kind .FT_INT24 = true ∧
    (∀ (pre post : GPtrArray) (v : fvalue_t),
      (∀ u ∈ pre, df_func_string_case (fvalue_type_ftenum u) = true) →
      stringifiable_kind (fvalue_type_ftenum v) = false →
      df_func_string to_string_repr (some (pre ++ v :: post) :: rest) 1 retval
        = some (true,
            retval ++ pre.map (fun u => some (fv_string ((to_string_repr u).getD []))))) ∧
    (∀ (pre post : GPtrArray) (v : fvalue_t),
      (∀ u ∈ pre, df_func_string_case (fvalue_type_ftenum u) = true) →
      fvalue_type_ftenum v = .FT_INT24 →
      df_func_string to_string_repr (some (pre ++ v :: post) :: rest) 1 retval
        = some (true,
            retval ++ pre.map (fun u => some (fv_string ((to_string_repr u).getD []))))) := by
  have hset : ∀ ft : ftenum,
      df_func_string_case ft = true ↔ (stringifiable_kind ft = true ∧ ft ≠ .FT_INT24) := by
    intro ft
    cases ft <;> simp [df_func_string_case, stringifiable_kind]
  refine ⟨?_, hset, rfl, ?_, ?_⟩
  · rw [df_func_string_some, df_func_string_loop_eq]
    rfl
  · intro pre post v hpre hv
    refine df_func_string_stops to_string_repr pre post v rest retval hpre ?_
    cases hc : df_func_string_case (fvalue_type_ftenum v) with
    | false => rfl
    | true => rw [((hset _).mp hc).1] at hv; exact Bool.noConfusion hv
  · intro pre post v hpre hv
    refine df_func_string_stops to_string_repr pre post v rest retval hpre ?_
    rw [hv]
    rfl

/-- C13 at the failing input, the list `[INT24 value 7, UINT8 value 7]` with a library that
returns "7" for every value: the kind `FT_INT24` is stringifiable, yet `string` appends
nothing, neither for the first value nor for the second. -/
theorem df_func_string_until_unlisted_witness :
    stringifiable_kind (fvalue_type_ftenum (fv_sint .FT_INT24 7)) = true ∧
    stringifiable_kind (fvalue_type_ftenum (fv_uint .FT_UINT8 7)) = true ∧
    df_func_string (fun _ => some (ascii "7"))
        (some ([] ++ fv_sint .FT_INT24 7 :: [fv_uint .FT_UINT8 7]) :: []) 1 []
      = some (true, [] ++ ([] : GPtrArray).map
          (fun u => some (fv_string (((fun _ => some (ascii "7")) u : Option (List gchar)).getD [])))) ∧
    df_func_string (fun _ => some (ascii "7"))
        [some [fv_sint .FT_INT24 7, fv_uint .FT_UINT8 7]] 1 [] = some (true, []) ∧
    df_func_string (fun _ => some (ascii "7"))
        [some [fv_sint .FT_INT32 7, fv_uint .FT_UINT8 7]] 1 []
      = some (true, [some (fv_string (ascii "7")), some (fv_string (ascii "7"))]) :=
  ⟨rfl, rfl,
   (df_func_string_until_unlisted (fun _ => some (ascii "7")) [] [] []).2.2.2.2
     [] [fv_uint .FT_UINT8 7] (fv_sint .FT_INT24 7) (by simp) rfl,
   by decide, by decide⟩

/-! ## Theorems: semantic check of `string` -/

theorem ws_assert_singleton (active : Bool) (param : stnode_t) :
    ws_assert active (decide ([param].length = 1)) = some () := by
  cases active <;> rfl

theorem ul_semcheck_string_ok (env : semcheck_env) (dfw : dfwork_t)
    (func_name : String) (logical_ftype : ftenum)
    (param : stnode_t) (func_loc : df_loc_t) (hfield : stnode_type_id param = .STTYPE_FIELD)
    (hcase : ul_semcheck_string_case (sttype_field_hfinfo param).hf_type = true) :
    ul_semcheck_string env dfw func_name logical_ftype [param] func_loc
      = some (.ok .FT_STRING, ⟨(dfw.field_count + 1) % 2 ^ 32, dfw.other⟩) := by
  unfold ul_semcheck_string
  simp only [ws_assert_singleton]
  simp only [hfield, hcase, if_true]

theorem ul_semcheck_string_unsupported (env : semcheck_env) (dfw : dfwork_t) (func_name : String)
    (logical_ftype : ftenum) (param : stnode_t) (func_loc : df_loc_t)
    (hfield : stnode_type_id param = .STTYPE_FIELD)
    (hcase : ul_semcheck_string_case (sttype_field_hfinfo param).hf_type = false) :
    ul_semcheck_string env dfw func_name logical_ftype [param] func_loc
      = some (.error ⟨param, "String conversion for field \"" ++
          (sttype_field_hfinfo param).hf_abbrev ++ "\" is not supported"⟩,
          ⟨(dfw.field_count + 1) % 2 ^ 32, dfw.other⟩) := by
  unfold ul_semcheck_string
  simp only [ws_assert_singleton]
  simp only [hfield, hcase, if_true, Bool.false_eq_true, if_false]

theorem ul_semcheck_string_not_field (env : semcheck_env) (dfw : dfwork_t) (func_name : String)
    (logical_ftype : ftenum) (param : stnode_t) (func_loc : df_loc_t)
    (hfield : stnode_type_id param ≠ .STTYPE_FIELD) :
    ul_semcheck_string env dfw func_name logical_ftype [param] func_loc
      = some (.error ⟨param, "Only fields can be used as parameter for " ++ func_name ++ "()"⟩,
          dfw) := by
  unfold ul_semcheck_string
  simp only [ws_assert_singleton]
  simp only [hfield, if_false]

/-- C14, what the code does: on a single parameter, `ul_semcheck_string` returns `FT_STRING`
exactly when the parameter is a `FIELD` whose declared kind is one of the 32 kinds below: the
unsigned integers of the eight widths, the signed integers of the widths 8, 16, 32, 40, 48, 56
and 64, and the listed other kinds. A `FIELD` of any other kind gets the "String conversion"
diagnostic, a node of another variant the "Only fields" diagnostic. The signed 24-bit kind
`FT_INT24` is not among the accepted kinds: a field of that kind is rejected. -/
theorem ul_semcheck_string_accepts (env : semcheck_env) (dfw : dfwork_t)
    (func_name : String) (logical_ftype : ftenum)
    (param : stnode_t) (func_loc : df_loc_t) :
    (∃ r dfw1, ul_semcheck_string env dfw func_name logical_ftype [param] func_loc = some (r, dfw1) ∧
      (r = .ok .FT_STRING ↔
        (stnode_type_id param = .STTYPE_FIELD ∧
         (sttype_field_hfinfo param).hf_type ∈
          [ftenum.FT_UINT8, .FT_UINT16, .FT_UINT24, .FT_UINT32, .FT_UINT40, .FT_UINT48,
           .FT_UINT56, .FT_UINT64, .FT_INT8, .FT_INT16, .FT_INT32, .FT_INT40, .FT_INT48,
           .FT_INT56, .FT_INT64, .FT_FLOAT, .FT_DOUBLE, .FT_IEEE_11073_SFLOAT,
           .FT_IEEE_11073_FLOAT, .FT_IPv4, .FT_IPv6, .FT_ETHER, .FT_FRAMENUM, .FT_AX25,
           .FT_IPXNET, .FT_GUID, .FT_OID, .FT_REL_OID, .FT_EUI64, .FT_VINES, .FT_SYSTEM_ID,
           .FT_FCWWN])) ∧
      (r ≠ .ok .FT_STRING → stnode_type_id param = .STTYPE_FIELD →
        r = .error ⟨param, "String conversion for field \"" ++
          (sttype_field_hfinfo param).hf_abbrev ++ "\" is not supported"⟩) ∧
      (stnode_type_id param ≠ .STTYPE_FIELD →
        r = .error ⟨param, "Only fields can be used as parameter for " ++ func_name ++ "()"⟩)) ∧
    (∀ name : String,
      ul_semcheck_string env dfw func_name logical_ftype [field_node name .FT_INT24] func_loc
        = some (.error ⟨field_node name .FT_INT24,
            "String conversion for field \"" ++ name ++ "\" is not supported"⟩,
            ⟨(dfw.field_count + 1) % 2 ^ 32, dfw.other⟩)) := by
  constructor
  · by_cases hfield : stnode_type_id param = .STTYPE_FIELD
    · by_cases hcase : ul_semcheck_string_case (sttype_field_hfinfo param).hf_type = true
      · refine ⟨_, _, ul_semcheck_string_ok env dfw func_name logical_ftype param func_loc hfield hcase,
          ?_, ?_, ?_⟩
        · refine ⟨fun _ => ⟨hfield, ?_⟩, fun _ => rfl⟩
          revert hcase
          cases (sttype_field_hfinfo param).hf_type <;> simp [ul_semcheck_string_case]
        · intro h; exact absurd rfl h
        · intro h; exact absurd hfield h
      · have hcase2 : ul_semcheck_string_case (sttype_field_hfinfo param).hf_type = false := by
          simpa using hcase
        refine ⟨_, _, ul_semcheck_string_unsupported env dfw func_name logical_ftype param func_loc
          hfield hcase2, ?_, ?_, ?_⟩
        · constructor
          · intro h; exact Except.noConfusion h
          · rintro ⟨_, hmem⟩
            exfalso
            revert hcase hmem
            cases (sttype_field_hfinfo param).hf_type <;> simp [ul_semcheck_string_case]
        · intro _ _; rfl
        · intro h; exact absurd hfield h
    · refine ⟨_, _, ul_semcheck_string_not_field env dfw func_name logical_ftype param func_loc hfield,
        ?_, ?_, ?_⟩
      · constructor
        · intro h; exact Except.noConfusion h
        · rintro ⟨h, _⟩; exact absurd h hfield
      · intro _ h; exact absurd h hfield
      · intro _; rfl
  · intro name
    exact ul_semcheck_string_unsupported env dfw func_name logical_ftype
      (field_node name .FT_INT24) func_loc rfl rfl

/-! ## Theorems: the function registry -/

theorem df_func_register_bound (mem : plugin_memory) (table : GHashTable) (func p : df_func_ptr)
    (h : table (df_func_name mem func) = some p) :
    df_func_register mem (some table) func = some (false, some table) := by
  simp [df_func_register, g_hash_table_contains, h]

theorem df_func_register_unbound (mem : plugin_memory) (table : GHashTable) (func : df_func_ptr)
    (h : table (df_func_name mem func) = none) :
    df_func_register mem (some table) func
      = some (true, some (fun k => if k = df_func_name mem func then some func else table k)) := by
  simp [df_func_register, g_hash_table_contains, g_hash_table_insert, h]

theorem df_func_deregister_same (mem : plugin_memory) (table : GHashTable) (func : df_func_ptr)
    (h : table (df_func_name mem func) = some func) :
    df_func_deregister mem (some table) func
      = some (true, some (fun k => if k = df_func_name mem func then none else table k)) := by
  simp [df_func_deregister, g_hash_table_lookup, g_hash_table_remove, h]

theorem df_func_deregister_other (mem : plugin_memory) (table : GHashTable) (func : df_func_ptr)
    (h : table (df_func_name mem func) ≠ some func) :
    df_func_deregister mem (some table) func = some (false, some table) := by
  simp [df_func_deregister, g_hash_table_lookup, h]

/-- C15: for every state of the registry and every definition, `df_func_register` returns
false if and only if the name of the definition is already a key of the extension map, and then
the map is unchanged; otherwise it returns true and the new map is the old map plus the
binding of the name to that definition object, every other binding unchanged. The built-in
table is not consulted: a definition named like a built-in is registered in an empty map. -/
theorem df_func_register_spec (mem : plugin_memory) (table : GHashTable) (func : df_func_ptr) :
    (∃ b table1, df_func_register mem (some table) func = some (b, some table1) ∧
      (b = false ↔ ∃ p, table (df_func_name mem func) = some p) ∧
      (b = false → table1 = table) ∧
      (b = true →
        ∀ k, table1 k = if k = df_func_name mem func then some func else table k)) ∧
    (df_func_name sample_memory (.plugin 0) ∈ builtin_names ∧
     (df_func_register sample_memory (df_func_init none) (.plugin 0)).map Prod.fst
        = some true) := by
  constructor
  · cases h : table (df_func_name mem func) with
    | none =>
      refine ⟨true, _, df_func_register_unbound mem table func h, ?_, ?_, ?_⟩
      · simp
      · intro hb; exact Bool.noConfusion hb
      · intro _ k; rfl
    | some p =>
      refine ⟨false, table, df_func_register_bound mem table func p h, ?_, ?_, ?_⟩
      · simp
      · intro _; rfl
      · intro hb; exact Bool.noConfusion hb
  · decide

/-- C17: for every state of the registry and every definition, `df_func_deregister` returns
true if and only if the extension map binds the name of the definition to that very definition
object; it returns false and leaves the map unchanged when the name is bound to another
object, even one with identical members, and when the name is not bound; when it returns true
the binding of the name is removed and every other binding is unchanged. -/
theorem df_func_deregister_spec (mem : plugin_memory) (table : GHashTable) (func : df_func_ptr) :
    (∃ b table1, df_func_deregister mem (some table) func = some (b, some table1) ∧
      (b = true ↔ table (df_func_name mem func) = some func) ∧
      (∀ other, table (df_func_name mem func) = some other → other ≠ func → b = false) ∧
      (table (df_func_name mem func) = none → b = false) ∧
      (b = false → table1 = table) ∧
      (b = true → ∀ k, table1 k = if k = df_func_name mem func then none else table k)) ∧
    (sample_memory 0 = sample_memory 1 ∧
     ∃ st, df_func_register sample_memory (df_func_init none) (.plugin 0) = some (true, st) ∧
       (df_func_deregister sample_memory st (.plugin 1)).map Prod.fst = some false) := by
  constructor
  · by_cases h : table (df_func_name mem func) = some func
    · refine ⟨true, _, df_func_deregister_same mem table func h, ?_, ?_, ?_, ?_, ?_⟩
      · simp [h]
      · intro other ho hne
        rw [h] at ho
        exact absurd (Option.some.inj ho).symm hne
      · intro hn; rw [hn] at h; exact Option.noConfusion h
      · intro hb; exact Bool.noConfusion hb
      · intro _ k; rfl
    · refine ⟨false, table, df_func_deregister_other mem table func h, ?_, ?_, ?_, ?_, ?_⟩
      · simp [h]
      · intro _ _ _; rfl
      · intro _; rfl
      · intro _; rfl
      · intro hb; exact Bool.noConfusion hb
  · refine ⟨by decide, _, rfl, by decide⟩

theorem df_func_lookup_scan_none (name : String) (l : List df_func_def_t) (i : Nat)
    (h : ∀ d ∈ l, d.name ≠ name) : df_func_lookup_scan name l i = none := by
  induction l generalizing i with
  | nil => rfl
  | cons d l ih =>
    have hd : d.name ≠ name := h d (by simp)
    simp only [df_func_lookup_scan, hd, if_false]
    exact ih (i + 1) (fun d1 hd1 => h d1 (by simp [hd1]))

theorem df_func_lookup_scan_some (name : String) (l : List df_func_def_t) (i : Nat)
    (h : ∃ d ∈ l, d.name = name) :
    ∃ j d, df_func_lookup_scan name l i = some (i + j) ∧ l[j]? = some d ∧ d.name = name := by
  induction l generalizing i with
  | nil => obtain ⟨d, hd, _⟩ := h; simp at hd
  | cons d0 l ih =>
    by_cases h0 : d0.name = name
    · exact ⟨0, d0, by simp [df_func_lookup_scan, h0], by simp, h0⟩
    · have hrest : ∃ d ∈ l, d.name = name := by
        obtain ⟨d, hd, hn⟩ := h
        simp only [List.mem_cons] at hd
        rcases hd with rfl | hd
        · exact absurd hn h0
        · exact ⟨d, hd, hn⟩
      obtain ⟨j, d, hscan, hget, hn⟩ := ih (i + 1) hrest
      refine ⟨j + 1, d, ?_, by simpa using hget, hn⟩
      simp only [df_func_lookup_scan, h0, if_false]
      rw [hscan]
      congr 1
      omega

theorem df_func_lookup_builtin (name : String) (h : name ∈ builtin_names) :
    ∃ i d, df_functions[i]? = some d ∧ d.name = name ∧
      ∀ st, df_func_lookup st name = some (.builtin i) := by
  have hex : ∃ d ∈ df_functions, d.name = name := by
    have hmap : name ∈ df_functions.map (fun d => d.name) := h
    obtain ⟨d, hd, hn⟩ := List.mem_map.mp hmap
    exact ⟨d, hd, hn⟩
  obtain ⟨j, d, hscan, hget, hn⟩ := df_func_lookup_scan_some name df_functions 0 hex
  refine ⟨j, d, hget, hn, ?_⟩
  intro st
  unfold df_func_lookup
  rw [hscan]
  simp

theorem df_func_lookup_plugin (name : String) (h : name ∉ builtin_names)
    (table : GHashTable) : df_func_lookup (some table) name = table name := by
  have hnone : df_func_lookup_scan name df_functions 0 = none := by
    apply df_func_lookup_scan_none
    intro d hd hn
    apply h
    have hmap : name ∈ df_functions.map (fun d => d.name) :=
      List.mem_map.mpr ⟨d, hd, hn⟩
    exact hmap
  unfold df_func_lookup
  rw [hnone]
  rfl

/-- C19: for every state of the registry and every name, `df_func_lookup` returns the built-in
definition of that name when the name is one of the eight built-in names (compared byte by
byte, so "LOWER" is not one of them), otherwise the definition bound to the name in the
extension map, otherwise nothing. For a name that is not a built-in, `df_func_lookup` returns
the definition after a successful `df_func_register` and nothing after a successful
`df_func_deregister` that follows. -/
theorem df_func_lookup_spec (mem : plugin_memory) (table : GHashTable) (name : String) :
    (name ∈ ["lower", "upper", "len", "count", "string", "max", "min", "abs"] →
      ∃ i d, df_func_lookup (some table) name = some (.builtin i) ∧
        df_functions[i]? = some d ∧ d.name = name) ∧
    (name ∉ ["lower", "upper", "len", "count", "string", "max", "min", "abs"] →
      df_func_lookup (some table) name = table name) ∧
    df_func_lookup (some table) "LOWER" = table "LOWER" ∧
    (∀ func table1, df_func_name mem func = name →
      name ∉ ["lower", "upper", "len", "count", "string", "max", "min", "abs"] →
      df_func_register mem (some table) func = some (true, some table1) →
      df_func_lookup (some table1) name = some func ∧
      ∀ table2, df_func_deregister mem (some table1) func = some (true, some table2) →
        df_func_lookup (some table2) name = none) := by
  refine ⟨?_, ?_, ?_, ?_⟩
  · intro h
    obtain ⟨i, d, hget, hn, hl⟩ := df_func_lookup_builtin name h
    exact ⟨i, d, hl _, hget, hn⟩
  · intro h
    exact df_func_lookup_plugin name h table
  · exact df_func_lookup_plugin "LOWER" (by decide) table
  · intro func table1 hname hnb hreg
    have hunbound : table (df_func_name mem func) = none := by
      cases hq : table (df_func_name mem func) with
      | none => rfl
      | some p =>
        rw [df_func_register_bound mem table func p hq] at hreg
        simp at hreg
    rw [df_func_register_unbound mem table func hunbound] at hreg
    have ht1 : table1 = fun k => if k = df_func_name mem func then some func else table k := by
      simp only [Option.some.injEq, Prod.mk.injEq, true_and] at hreg
      exact hreg.symm
    have hb1 : table1 name = some func := by rw [ht1, hname]; simp
    refine ⟨by rw [df_func_lookup_plugin name hnb]; exact hb1, ?_⟩
    intro table2 hdereg
    have hsame : table1 (df_func_name mem func) = some func := by rw [hname]; exact hb1
    rw [df_func_deregister_same mem table1 func hsame] at hdereg
    have ht2 : table2 = fun k => if k = df_func_name mem func then none else table1 k := by
      simp only [Option.some.injEq, Prod.mk.injEq, true_and] at hdereg
      exact hdereg.symm
    rw [df_func_lookup_plugin name hnb, ht2, hname]
    simp

/-- C19 on the extension record "plugin_fn": found after `df_func_register`, gone after
`df_func_deregister`; the name "lower" gives the first entry of the built-in table. -/
theorem df_func_lookup_spec_witness :
    df_func_lookup (df_func_init none) "plugin_fn" = none ∧
    (∃ st1, df_func_register sample_memory (df_func_init none) (.plugin 7) = some (true, st1) ∧
      df_func_lookup st1 "plugin_fn" = some (.plugin 7) ∧
      ∃ st2, df_func_deregister sample_memory st1 (.plugin 7) = some (true, st2) ∧
        df_func_lookup st2 "plugin_fn" = none) ∧
    ((∃ i d, df_func_lookup (some g_hash_table_new) "lower" = some (.builtin i) ∧
        df_functions[i]? = some d ∧ d.name = "lower") ∧
     df_func_lookup (some g_hash_table_new) "lower" = some (.builtin 0)) :=
  ⟨by decide, ⟨_, rfl, by decide, _, rfl, by decide⟩,
   (df_func_lookup_spec sample_memory g_hash_table_new "lower").1 (by decide), by decide⟩

/-- C16 as amended: for every state of the registry and every definition `func` whose name
is one of the eight built-in names, `df_func_lookup` of that name returns the built-in
definition before and after `df_func_register func` (and not `func`, when `func` is a record
owned by an extension); a following `df_func_deregister func` returns true exactly when the
name was unbound in the extension map or bound to `func` itself before the registration, in
particular whenever the registration returned true; and after it `df_func_lookup` still
returns the same built-in definition. -/
theorem builtin_precedence (mem : plugin_memory) (table : GHashTable) (func : df_func_ptr)
    (hname : df_func_name mem func ∈ builtin_names) :
    ∃ i d b table1 b2 table2,
      df_functions[i]? = some d ∧ d.name = df_func_name mem func ∧
      df_func_lookup (some table) (df_func_name mem func) = some (.builtin i) ∧
      df_func_register mem (some table) func = some (b, some table1) ∧
      df_func_lookup (some table1) (df_func_name mem func) = some (.builtin i) ∧
      (∀ addr, func = .plugin addr →
        df_func_lookup (some table1) (df_func_name mem func) ≠ some func) ∧
      df_func_deregister mem (some table1) func = some (b2, some table2) ∧
      (b2 = true ↔ (table (df_func_name mem func) = none ∨
        table (df_func_name mem func) = some func)) ∧
      (b = true → b2 = true) ∧
      df_func_lookup (some table2) (df_func_name mem func) = some (.builtin i) := by
  obtain ⟨i, d, hget, hn, hl⟩ := df_func_lookup_builtin (df_func_name mem func) hname
  have hnot : ∀ (t : GHashTable) (addr : Nat), func = .plugin addr →
      df_func_lookup (some t) (df_func_name mem func) ≠ some func := by
    intro t addr hf
    rw [hl, hf]
    simp
  cases hq : table (df_func_name mem func) with
  | none =>
    have hb1 : (fun k => if k = df_func_name mem func then some func else table k)
        (df_func_name mem func) = some func := by simp
    exact ⟨i, d, true, _, true, _, hget, hn, hl _,
      df_func_register_unbound mem table func hq, hl _, hnot _,
      df_func_deregister_same mem _ func hb1, by simp, fun _ => rfl, hl _⟩
  | some p =>
    by_cases hp : p = func
    · rw [hp] at hq
      exact ⟨i, d, false, table, true, _, hget, hn, hl _,
        df_func_register_bound mem table func func hq, hl _, hnot _,
        df_func_deregister_same mem table func hq, by simp [hp], fun _ => rfl, hl _⟩
    · have hne : table (df_func_name mem func) ≠ some func := by
        rw [hq]
        intro h
        exact hp (Option.some.inj h)
      refine ⟨i, d, false, table, false, table, hget, hn, hl _,
        df_func_register_bound mem table func p hq, hl _, hnot _,
        df_func_deregister_other mem table func hne, ?_, fun h => Bool.noConfusion h, hl _⟩
      constructor
      · intro h; exact Bool.noConfusion h
      · rintro (h | h)
        · exact Option.noConfusion h
        · exact absurd (Option.some.inj h) hp

/-- C16 as amended, on the extension record at address 0, named "lower", in the empty map:
the registration and the deregistration succeed and "lower" stays the first built-in. -/
theorem builtin_precedence_witness :
    df_func_name sample_memory (.plugin 0) ∈ builtin_names ∧
    (∃ st1 st2,
      df_func_register sample_memory (some g_hash_table_new) (.plugin 0) = some (true, st1) ∧
      df_func_lookup st1 "lower" = some (.builtin 0) ∧
      df_func_deregister sample_memory st1 (.plugin 0) = some (true, st2) ∧
      df_func_lookup st2 "lower" = some (.builtin 0)) ∧
    ∃ i d b table1 b2 table2,
      df_functions[i]? = some d ∧ d.name = df_func_name sample_memory (.plugin 0) ∧
      df_func_lookup (some g_hash_table_new) (df_func_name sample_memory (.plugin 0))
        = some (.builtin i) ∧
      df_func_register sample_memory (some g_hash_table_new) (.plugin 0)
        = some (b, some table1) ∧
      df_func_lookup (some table1) (df_func_name sample_memory (.plugin 0))
        = some (.builtin i) ∧
      (∀ addr, df_func_ptr.plugin 0 = .plugin addr →
        df_func_lookup (some table1) (df_func_name sample_memory (.plugin 0))
          ≠ some (.plugin 0)) ∧
      df_func_deregister sample_memory (some table1) (.plugin 0) = some (b2, some table2) ∧
      (b2 = true ↔ (g_hash_table_new (df_func_name sample_memory (.plugin 0)) = none ∨
        g_hash_table_new (df_func_name sample_memory (.plugin 0)) = some (.plugin 0))) ∧
      (b = true → b2 = true) ∧
      df_func_lookup (some table2) (df_func_name sample_memory (.plugin 0))
        = some (.builtin i) :=
  ⟨by decide, ⟨_, _, rfl, by decide, rfl, by decide⟩,
   builtin_precedence sample_memory g_hash_table_new (.plugin 0) (by decide)⟩

/-- C16 as stated fails: with the extension record at address 0, named "lower", already
registered, the record at address 1, also named "lower", is refused by `df_func_register`, and
the following `df_func_deregister` of it returns false, not true. -/
theorem builtin_precedence_counterexample :
    df_func_name sample_memory (.plugin 1) ∈ builtin_names ∧
    ∃ st0, df_func_register sample_memory (df_func_init none) (.plugin 0) = some (true, st0) ∧
      ∃ st1, df_func_register sample_memory st0 (.plugin 1) = some (false, st1) ∧
        (df_func_deregister sample_memory st1 (.plugin 1)).map Prod.fst = some false :=
  ⟨by decide, _, rfl, _, rfl, by decide⟩

/-- C20: the built-in table holds exactly eight definitions with pairwise distinct names;
`df_func_lookup` finds `lower`, `upper` and `string` with `min_args = max_args = 1` and return
kind `FT_STRING`, `len` and `count` with `min_args = max_args = 1` and return kind `FT_UINT32`,
`abs` with `min_args = max_args = 1` and return kind `FT_NONE`, `max` and `min` with
`min_args = 1`, `max_args = 0` and return kind `FT_NONE`. Every entry has `min_args ≥ 1` and a
semantic-check callback, and `len` is the only entry whose evaluator is absent. -/
theorem df_functions_table (mem : plugin_memory) (st : Option GHashTable) :
    df_functions.length = 8 ∧
    (df_functions.map (fun d => d.name)).Nodup ∧
    (∀ name ∈ ["lower", "upper", "string"], ∃ p, df_func_lookup st name = some p ∧
      (df_func_deref mem p).name = name ∧ (df_func_deref mem p).min_args = 1 ∧
      (df_func_deref mem p).max_args = 1 ∧ (df_func_deref mem p).return_ftype = .FT_STRING) ∧
    (∀ name ∈ ["len", "count"], ∃ p, df_func_lookup st name = some p ∧
      (df_func_deref mem p).name = name ∧ (df_func_deref mem p).min_args = 1 ∧
      (df_func_deref mem p).max_args = 1 ∧ (df_func_deref mem p).return_ftype = .FT_UINT32) ∧
    (∀ name ∈ ["abs"], ∃ p, df_func_lookup st name = some p ∧
      (df_func_deref mem p).name = name ∧ (df_func_deref mem p).min_args = 1 ∧
      (df_func_deref mem p).max_args = 1 ∧ (df_func_deref mem p).return_ftype = .FT_NONE) ∧
    (∀ name ∈ ["max", "min"], ∃ p, df_func_lookup st name = some p ∧
      (df_func_deref mem p).name = name ∧ (df_func_deref mem p).min_args = 1 ∧
      (df_func_deref mem p).max_args = 0 ∧ (df_func_deref mem p).return_ftype = .FT_NONE) ∧
    (∀ d ∈ df_functions, 1 ≤ d.min_args ∧ d.semcheck.isSome = true ∧
      (d.function = none ↔ d.name = "len")) := by
  refine ⟨rfl, by decide, ?_, ?_, ?_, ?_, by decide⟩
  · intro name hmem
    simp only [List.mem_cons, List.mem_singleton, List.not_mem_nil, or_false] at hmem
    rcases hmem with rfl | rfl | rfl
    · exact ⟨.builtin 0, by cases st <;> rfl, rfl, rfl, rfl, rfl⟩
    · exact ⟨.builtin 1, by cases st <;> rfl, rfl, rfl, rfl, rfl⟩
    · exact ⟨.builtin 4, by cases st <;> rfl, rfl, rfl, rfl, rfl⟩
  · intro name hmem
    simp only [List.mem_cons, List.mem_singleton, List.not_mem_nil, or_false] at hmem
    rcases hmem with rfl | rfl
    · exact ⟨.builtin 2, by cases st <;> rfl, rfl, rfl, rfl, rfl⟩
    · exact ⟨.builtin 3, by cases st <;> rfl, rfl, rfl, rfl, rfl⟩
  · intro name hmem
    simp only [List.mem_singleton] at hmem
    subst hmem
    exact ⟨.builtin 7, by cases st <;> rfl, rfl, rfl, rfl, rfl⟩
  · intro name hmem
    simp only [List.mem_cons, List.mem_singleton, List.not_mem_nil, or_false] at hmem
    rcases hmem with rfl | rfl
    · exact ⟨.builtin 5, by cases st <;> rfl, rfl, rfl, rfl, rfl⟩
    · exact ⟨.builtin 6, by cases st <;> rfl, rfl, rfl, rfl, rfl⟩

theorem registry_step_binding (mem : plugin_memory) (table : GHashTable)
    (call : registry_call) :
    ∃ table1, registry_step mem (some table) call = some (some table1) ∧
      ((∀ k p, table k = some p → df_func_name mem p = k) →
        ∀ k p, table1 k = some p → df_func_name mem p = k) ∧
      (∀ d1, table (df_func_name mem d1) = some d1 → call ≠ .deregister d1 →
        table1 (df_func_name mem d1) = some d1) := by
  cases call with
  | register func =>
    cases hq : table (df_func_name mem func) with
    | some p =>
      refine ⟨table, ?_, fun h => h, fun _ h _ => h⟩
      simp [registry_step, df_func_register_bound mem table func p hq]
    | none =>
      refine ⟨fun k => if k = df_func_name mem func then some func else table k, ?_, ?_, ?_⟩
      · simp only [registry_step, df_func_register_unbound mem table func hq, Option.map_some']
      · intro hinv k p hk
        by_cases hkey : k = df_func_name mem func
        · simp only [hkey, if_true, Option.some.injEq] at hk
          rw [← hk, hkey]
        · simp only [hkey, if_false] at hk
          exact hinv k p hk
      · intro d1 hd1 _
        have hkey : df_func_name mem d1 ≠ df_func_name mem func := by
          intro heq
          rw [heq, hq] at hd1
          exact Option.noConfusion hd1
        simp only [hkey, if_false]
        exact hd1
  | deregister func =>
    by_cases hq : table (df_func_name mem func) = some func
    · refine ⟨fun k => if k = df_func_name mem func then none else table k, ?_, ?_, ?_⟩
      · simp only [registry_step, df_func_deregister_same mem table func hq, Option.map_some']
      · intro hinv k p hk
        by_cases hkey : k = df_func_name mem func
        · simp [hkey] at hk
        · simp only [hkey, if_false] at hk
          exact hinv k p hk
      · intro d1 hd1 hcall
        have hkey : df_func_name mem d1 ≠ df_func_name mem func := by
          intro heq
          rw [heq, hq] at hd1
          apply hcall
          rw [Option.some.inj hd1]
        simp only [hkey, if_false]
        exact hd1
    · refine ⟨table, ?_, fun h => h, fun _ h _ => h⟩
      simp [registry_step, df_func_deregister_other mem table func hq]

theorem registry_run_binding (mem : plugin_memory) (calls : List registry_call) :
    ∀ table : GHashTable,
      ∃ table1, registry_run mem calls (some table) = some (some table1) ∧
        ((∀ k p, table k = some p → df_func_name mem p = k) →
          ∀ k p, table1 k = some p → df_func_name mem p = k) ∧
        (∀ d1, table (df_func_name mem d1) = some d1 → registry_call.deregister d1 ∉ calls →
          table1 (df_func_name mem d1) = some d1) := by
  induction calls with
  | nil => intro table; exact ⟨table, rfl, fun h => h, fun _ h _ => h⟩
  | cons call calls ih =>
    intro table
    obtain ⟨t1, hstep, hinv1, hkeep1⟩ := registry_step_binding mem table call
    obtain ⟨t2, hrun, hinv2, hkeep2⟩ := ih t1
    refine ⟨t2, ?_, fun h => hinv2 (hinv1 h), ?_⟩
    · simp only [registry_run, hstep]
      exact hrun
    · intro d1 hd1 hnot
      have hne : call ≠ .deregister d1 := fun h => hnot (by simp [h])
      have hrest : registry_call.deregister d1 ∉ calls := fun h => hnot (by simp [h])
      exact hkeep2 d1 (hkeep1 d1 hd1 hne) hrest

/-- C18: in every state reached from `df_func_init` by a sequence of `df_func_register` and
`df_func_deregister` calls, a binding of the extension map binds a name to a definition of
that name, and two bound definitions of the same name are the same object; once
`df_func_register d1` has succeeded, as long as no `df_func_deregister d1` is called the name
stays bound to `d1` and every `df_func_register d2` with the name of `d1` fails; and
`df_func_lookup` of a name depends on the state only, through the binding of that name. -/
theorem registry_uniqueness (mem : plugin_memory) (calls : List registry_call) :
    ∃ table, registry_run mem calls (df_func_init none) = some (some table) ∧
      (∀ k p, table k = some p → df_func_name mem p = k) ∧
      (∀ p1 p2 k1 k2, table k1 = some p1 → table k2 = some p2 →
        df_func_name mem p1 = df_func_name mem p2 → p1 = p2) ∧
      (∀ d1 st1, df_func_register mem (some table) d1 = some (true, st1) →
        ∀ calls2, registry_call.deregister d1 ∉ calls2 →
          ∃ table2, registry_run mem calls2 st1 = some (some table2) ∧
            table2 (df_func_name mem d1) = some d1 ∧
            ∀ d2, df_func_name mem d2 = df_func_name mem d1 →
              df_func_register mem (some table2) d2 = some (false, some table2)) ∧
      (∀ name table1, table1 name = table name →
        df_func_lookup (some table1) name = df_func_lookup (some table) name) := by
  obtain ⟨table, hrun, hinv, _⟩ := registry_run_binding mem calls g_hash_table_new
  have hinv0 : ∀ k p, table k = some p → df_func_name mem p = k :=
    hinv (fun k p h => by simp [g_hash_table_new] at h)
  refine ⟨table, hrun, hinv0, ?_, ?_, ?_⟩
  · intro p1 p2 k1 k2 h1 h2 hname
    have hk : k1 = k2 := by rw [← hinv0 k1 p1 h1, ← hinv0 k2 p2 h2, hname]
    rw [hk, h2] at h1
    exact (Option.some.inj h1).symm
  · intro d1 st1 hreg calls2 hnot
    have hunbound : table (df_func_name mem d1) = none := by
      cases hq : table (df_func_name mem d1) with
      | none => rfl
      | some p =>
        rw [df_func_register_bound mem table d1 p hq] at hreg
        simp at hreg
    rw [df_func_register_unbound mem table d1 hunbound] at hreg
    have hst1 : st1 = some (fun k => if k = df_func_name mem d1 then some d1 else table k) := by
      simp only [Option.some.injEq, Prod.mk.injEq, true_and] at hreg
      exact hreg.symm
    obtain ⟨table2, hrun2, _, hkeep⟩ := registry_run_binding mem calls2
      (fun k => if k = df_func_name mem d1 then some d1 else table k)
    have hb : table2 (df_func_name mem d1) = some d1 := hkeep d1 (by simp) hnot
    refine ⟨table2, by rw [hst1]; exact hrun2, hb, ?_⟩
    intro d2 hname
    exact df_func_register_bound mem table2 d2 d1 (by rw [hname]; exact hb)
  · intro name table1 h
    unfold df_func_lookup g_hash_table_lookup
    cases df_func_lookup_scan name df_functions 0 with
    | some i => rfl
    | none => exact h

/-- C18 on a run from `df_func_init`: the record at address 0 is registered, the record at
address 2 (same name) is refused, the record at address 7 (another name) is registered and
removed again; afterwards the record at address 1 (same name as 0) is still refused. -/
theorem registry_uniqueness_witness :
    ∃ st1, df_func_register sample_memory (df_func_init none) (.plugin 0) = some (true, st1) ∧
      ∃ st2, registry_run sample_memory
          [.register (.plugin 2), .register (.plugin 7), .deregister (.plugin 7),
           .deregister (.plugin 2)] st1 = some st2 ∧
        (df_func_register sample_memory st2 (.plugin 1)).map Prod.fst = some false ∧
        ∃ table, registry_run sample_memory [] (df_func_init none) = some (some table) ∧
          (∀ k p, table k = some p → df_func_name sample_memory p = k) := by
  refine ⟨_, rfl, _, rfl, by decide, ?_⟩
  obtain ⟨table, hrun, hinv, _⟩ := registry_uniqueness sample_memory []
  exact ⟨table, hrun, hinv⟩

/-! ## Theorems: the parameter classifier and the semantic checks -/

theorem df_semcheck_param_field (env : semcheck_env) (dfw : dfwork_t) (func_name : String)
    (logical_ftype : ftenum) (param : stnode_t) (func_loc : df_loc_t)
    (h : stnode_type_id param = .STTYPE_FIELD) :
    df_semcheck_param env dfw func_name logical_ftype param func_loc
      = some (.ok ((sttype_field_hfinfo param).hf_type, param),
          ⟨(dfw.field_count + 1) % 2 ^ 32, dfw.other⟩) := by
  unfold df_semcheck_param
  rw [h]
  rfl

theorem df_semcheck_param_reference (env : semcheck_env) (dfw : dfwork_t) (func_name : String)
    (logical_ftype : ftenum) (param : stnode_t) (func_loc : df_loc_t)
    (h : stnode_type_id param = .STTYPE_REFERENCE) :
    df_semcheck_param env dfw func_name logical_ftype param func_loc
      = some (.ok ((sttype_field_hfinfo param).hf_type, param), dfw) := by
  unfold df_semcheck_param
  rw [h]
  rfl

/-- C27: applied to a `FIELD` node the classifier `df_semcheck_param` returns the declared
kind of the field and leaves a compilation state whose field counter is one more than before
(the counter is a 32-bit unsigned, so this is read below its maximum) and whose other parts
are unchanged; applied to a `REFERENCE` node it returns the declared kind of the referenced
field and leaves the compilation state as it was. -/
theorem df_semcheck_param_counts_fields (env : semcheck_env) (dfw : dfwork_t)
    (func_name : String) (logical_ftype : ftenum) (param : stnode_t) (func_loc : df_loc_t) :
    (stnode_type_id param = .STTYPE_FIELD →
      ∃ dfw1, df_semcheck_param env dfw func_name logical_ftype param func_loc
          = some (.ok ((sttype_field_hfinfo param).hf_type, param), dfw1) ∧
        dfw1.field_count = (dfw.field_count + 1) % 2 ^ 32 ∧
        (dfw.field_count + 1 < 2 ^ 32 → dfw1.field_count = dfw.field_count + 1) ∧
        dfw1.other = dfw.other) ∧
    (stnode_type_id param = .STTYPE_REFERENCE →
      df_semcheck_param env dfw func_name logical_ftype param func_loc
        = some (.ok ((sttype_field_hfinfo param).hf_type, param), dfw)) := by
  constructor
  · intro h
    refine ⟨_, df_semcheck_param_field env dfw func_name logical_ftype param func_loc h,
      rfl, ?_, rfl⟩
    intro hlt
    exact Nat.mod_eq_of_lt hlt
  · intro h
    exact df_semcheck_param_reference env dfw func_name logical_ftype param func_loc h

/-- C27 on a field and on a reference of kind `FT_UINT16`, with three fields counted so far:
the field makes the counter 4, the reference leaves it at 3. -/
theorem df_semcheck_param_counts_fields_witness :
    df_semcheck_param sample_env ⟨3, [9]⟩ "max" .FT_NONE (field_node "tcp.port" .FT_UINT16) ⟨0, 0⟩
      = some (.ok (.FT_UINT16, field_node "tcp.port" .FT_UINT16), ⟨4, [9]⟩) ∧
    df_semcheck_param sample_env ⟨3, [9]⟩ "max" .FT_NONE
        (plain_node .STTYPE_REFERENCE "tcp.port" .FT_UINT16) ⟨0, 0⟩
      = some (.ok (.FT_UINT16, plain_node .STTYPE_REFERENCE "tcp.port" .FT_UINT16), ⟨3, [9]⟩) ∧
    (∃ dfw1, df_semcheck_param sample_env ⟨3, [9]⟩ "max" .FT_NONE
          (field_node "tcp.port" .FT_UINT16) ⟨0, 0⟩
          = some (.ok ((sttype_field_hfinfo (field_node "tcp.port" .FT_UINT16)).hf_type,
              field_node "tcp.port" .FT_UINT16), dfw1) ∧
        dfw1.field_count = ((⟨3, [9]⟩ : dfwork_t).field_count + 1) % 2 ^ 32 ∧
        ((⟨3, [9]⟩ : dfwork_t).field_count + 1 < 2 ^ 32 →
          dfw1.field_count = (⟨3, [9]⟩ : dfwork_t).field_count + 1) ∧
        dfw1.other = (⟨3, [9]⟩ : dfwork_t).other) :=
  ⟨rfl, rfl,
   (df_semcheck_param_counts_fields sample_env ⟨3, [9]⟩ "max" .FT_NONE
      (field_node "tcp.port" .FT_UINT16) ⟨0, 0⟩).1 rfl⟩

theorem ul_semcheck_is_field_not_field (env : semcheck_env) (dfw : dfwork_t)
    (func_name : String) (logical_ftype : ftenum) (param : stnode_t) (func_loc : df_loc_t)
    (h : stnode_type_id param ≠ .STTYPE_FIELD) :
    ul_semcheck_is_field env dfw func_name logical_ftype [param] func_loc
      = some (.error ⟨param, "Only fields can be used as parameter for " ++ func_name ++ "()"⟩,
          dfw) := by
  unfold ul_semcheck_is_field
  simp only [ws_assert_singleton]
  simp only [ne_eq, h, not_false_eq_true, if_true]

theorem ul_semcheck_is_field_field (env : semcheck_env) (dfw : dfwork_t)
    (func_name : String) (logical_ftype : ftenum) (param : stnode_t) (func_loc : df_loc_t)
    (h : stnode_type_id param = .STTYPE_FIELD) :
    ul_semcheck_is_field env dfw func_name logical_ftype [param] func_loc
      = some (.ok .FT_UINT32, ⟨(dfw.field_count + 1) % 2 ^ 32, dfw.other⟩) := by
  unfold ul_semcheck_is_field
  simp only [ws_assert_singleton]
  simp only [ne_eq, h, not_true_eq_false, if_false,
    df_semcheck_param_field env dfw func_name logical_ftype param func_loc h]

/-- C25: the semantic check of `count` (`ul_semcheck_is_field`) succeeds, returning
`FT_UINT32`, if and only if its single parameter is a `FIELD` node, whatever the declared kind
of the field; a node of any other variant is rejected with the "Only fields can be used as
parameter" diagnostic, which carries the function name. -/
theorem ul_semcheck_is_field_spec (env : semcheck_env) (dfw : dfwork_t) (func_name : String)
    (logical_ftype : ftenum) (param : stnode_t) (func_loc : df_loc_t) :
    ∃ r dfw1, ul_semcheck_is_field env dfw func_name logical_ftype [param] func_loc
        = some (r, dfw1) ∧
      (r = .ok .FT_UINT32 ↔ stnode_type_id param = .STTYPE_FIELD) ∧
      ((∃ ft, r = .ok ft) ↔ stnode_type_id param = .STTYPE_FIELD) ∧
      (stnode_type_id param ≠ .STTYPE_FIELD →
        r = .error ⟨param, "Only fields can be used as parameter for " ++ func_name ++ "()"⟩) := by
  by_cases h : stnode_type_id param = .STTYPE_FIELD
  · refine ⟨_, _, ul_semcheck_is_field_field env dfw func_name logical_ftype param func_loc h,
      ?_, ?_, ?_⟩
    · exact ⟨fun _ => h, fun _ => rfl⟩
    · exact ⟨fun _ => h, fun _ => ⟨_, rfl⟩⟩
    · intro hn; exact absurd h hn
  · refine ⟨_, _, ul_semcheck_is_field_not_field env dfw func_name logical_ftype param func_loc h,
      ?_, ?_, ?_⟩
    · exact ⟨fun hr => Except.noConfusion hr, fun hf => absurd hf h⟩
    · constructor
      · rintro ⟨ft, hr⟩; exact Except.noConfusion hr
      · intro hf; exact absurd hf h
    · intro _; rfl

/-- C25 on a field of kind `FT_BOOLEAN` (accepted) and on a number and a nested function
(rejected). -/
theorem ul_semcheck_is_field_spec_witness :
    ul_semcheck_is_field sample_env ⟨0, []⟩ "count" .FT_NONE
        [field_node "tcp.flags.syn" .FT_BOOLEAN] ⟨0, 0⟩
      = some (.ok .FT_UINT32, ⟨1, []⟩) ∧
    ul_semcheck_is_field sample_env ⟨0, []⟩ "count" .FT_NONE
        [plain_node .STTYPE_NUMBER "7" .FT_NONE] ⟨0, 0⟩
      = some (.error ⟨plain_node .STTYPE_NUMBER "7" .FT_NONE,
          "Only fields can be used as parameter for count()"⟩, ⟨0, []⟩) ∧
    (∃ r dfw1, ul_semcheck_is_field sample_env ⟨0, []⟩ "count" .FT_NONE
          [plain_node .STTYPE_FUNCTION "len" .FT_UINT32] ⟨0, 0⟩ = some (r, dfw1) ∧
      (r = .ok .FT_UINT32 ↔
        stnode_type_id (plain_node .STTYPE_FUNCTION "len" .FT_UINT32) = .STTYPE_FIELD) ∧
      ((∃ ft, r = .ok ft) ↔
        stnode_type_id (plain_node .STTYPE_FUNCTION "len" .FT_UINT32) = .STTYPE_FIELD) ∧
      (stnode_type_id (plain_node .STTYPE_FUNCTION "len" .FT_UINT32) ≠ .STTYPE_FIELD →
        r = .error ⟨plain_node .STTYPE_FUNCTION "len" .FT_UINT32,
          "Only fields can be used as parameter for " ++ "count" ++ "()"⟩)) :=
  ⟨rfl, rfl,
   ul_semcheck_is_field_spec sample_env ⟨0, []⟩ "count" .FT_NONE
     (plain_node .STTYPE_FUNCTION "len" .FT_UINT32) ⟨0, 0⟩⟩

theorem ul_semcheck_is_field_string_not_field (env : semcheck_env) (dfw : dfwork_t)
    (func_name : String) (logical_ftype : ftenum) (param : stnode_t) (func_loc : df_loc_t)
    (h : stnode_type_id param ≠ .STTYPE_FIELD) :
    ul_semcheck_is_field_string env dfw func_name logical_ftype [param] func_loc
      = some (.error ⟨param, "Only fields can be used as parameter for " ++ func_name ++ "()"⟩,
          dfw) := by
  unfold ul_semcheck_is_field_string
  simp only [ws_assert_singleton]
  simp only [ne_eq, h, not_false_eq_true, if_true]

theorem ul_semcheck_is_field_string_field (env : semcheck_env) (dfw : dfwork_t)
    (func_name : String) (logical_ftype : ftenum) (param : stnode_t) (func_loc : df_loc_t)
    (h : stnode_type_id param = .STTYPE_FIELD) :
    ul_semcheck_is_field_string env dfw func_name logical_ftype [param] func_loc
      = some (if env.ft_is_string (sttype_field_hfinfo param).hf_type then .ok .FT_STRING
          else .error ⟨param,
            "Only string type fields can be used as parameter for " ++ func_name ++ "()"⟩,
          ⟨(dfw.field_count + 1) % 2 ^ 32, dfw.other⟩) := by
  unfold ul_semcheck_is_field_string
  simp only [ws_assert_singleton]
  simp only [ne_eq, h, not_true_eq_false, if_false,
    df_semcheck_param_field env dfw func_name logical_ftype param func_loc h]
  cases env.ft_is_string (sttype_field_hfinfo param).hf_type <;> rfl

/-- C22: the semantic check of `lower` and `upper` (`ul_semcheck_is_field_string`) succeeds,
returning `FT_STRING`, if and only if its single parameter is a `FIELD` node whose declared
kind is a string kind. A node of any other variant is rejected with the "Only fields can be
used as parameter" diagnostic, whatever its kind, and a `FIELD` of a kind that is not a string
kind with the "Only string type fields can be used as parameter" diagnostic; both carry the
function name. -/
theorem ul_semcheck_is_field_string_spec (env : semcheck_env) (dfw : dfwork_t)
    (func_name : String) (logical_ftype : ftenum) (param : stnode_t) (func_loc : df_loc_t) :
    ∃ r dfw1, ul_semcheck_is_field_string env dfw func_name logical_ftype [param] func_loc
        = some (r, dfw1) ∧
      (r = .ok .FT_STRING ↔ (stnode_type_id param = .STTYPE_FIELD ∧
        env.ft_is_string (sttype_field_hfinfo param).hf_type = true)) ∧
      ((∃ ft, r = .ok ft) → r = .ok .FT_STRING) ∧
      (stnode_type_id param ≠ .STTYPE_FIELD →
        r = .error ⟨param, "Only fields can be used as parameter for " ++ func_name ++ "()"⟩) ∧
      (stnode_type_id param = .STTYPE_FIELD →
        env.ft_is_string (sttype_field_hfinfo param).hf_type = false →
        r = .error ⟨param,
          "Only string type fields can be used as parameter for " ++ func_name ++ "()"⟩) := by
  by_cases h : stnode_type_id param = .STTYPE_FIELD
  · cases hs : env.ft_is_string (sttype_field_hfinfo param).hf_type with
    | true =>
      have heq := ul_semcheck_is_field_string_field env dfw func_name logical_ftype param
        func_loc h
      rw [hs] at heq
      refine ⟨_, _, heq, ?_, ?_, ?_, ?_⟩
      · exact ⟨fun _ => ⟨h, rfl⟩, fun _ => rfl⟩
      · intro _; rfl
      · intro hn; exact absurd h hn
      · intro _ hf; exact Bool.noConfusion hf
    | false =>
      have heq := ul_semcheck_is_field_string_field env dfw func_name logical_ftype param
        func_loc h
      rw [hs] at heq
      refine ⟨_, _, heq, ?_, ?_, ?_, ?_⟩
      · constructor
        · intro hr; simp at hr
        · rintro ⟨_, hf⟩; exact Bool.noConfusion hf
      · rintro ⟨ft, hr⟩; simp at hr
      · intro hn; exact absurd h hn
      · intro _ _; simp
  · refine ⟨_, _, ul_semcheck_is_field_string_not_field env dfw func_name logical_ftype param
      func_loc h, ?_, ?_, ?_, ?_⟩
    · constructor
      · intro hr; exact Except.noConfusion hr
      · rintro ⟨hf, _⟩; exact absurd hf h
    · rintro ⟨ft, hr⟩; exact Except.noConfusion hr
    · intro _; rfl
    · intro hf; exact absurd hf h

/-- C22 on a string field (accepted), on a string constant (rejected as not a field, although
its kind is a string kind) and on a field of kind `FT_UINT16` (rejected as not a string). -/
theorem ul_semcheck_is_field_string_spec_witness :
    ul_semcheck_is_field_string sample_env ⟨0, []⟩ "upper" .FT_NONE
        [field_node "dns.qry.name" .FT_STRING] ⟨0, 0⟩
      = some (.ok .FT_STRING, ⟨1, []⟩) ∧
    ul_semcheck_is_field_string sample_env ⟨0, []⟩ "upper" .FT_NONE
        [plain_node .STTYPE_STRING "abc" .FT_STRING] ⟨0, 0⟩
      = some (.error ⟨plain_node .STTYPE_STRING "abc" .FT_STRING,
          "Only fields can be used as parameter for upper()"⟩, ⟨0, []⟩) ∧
    ul_semcheck_is_field_string sample_env ⟨0, []⟩ "lower" .FT_NONE
        [field_node "tcp.port" .FT_UINT16] ⟨0, 0⟩
      = some (.error ⟨field_node "tcp.port" .FT_UINT16,
          "Only string type fields can be used as parameter for lower()"⟩, ⟨1, []⟩) ∧
    (∃ r dfw1, ul_semcheck_is_field_string sample_env ⟨0, []⟩ "lower" .FT_NONE
          [field_node "tcp.port" .FT_UINT16] ⟨0, 0⟩ = some (r, dfw1) ∧
      (r = .ok .FT_STRING ↔
        (stnode_type_id (field_node "tcp.port" .FT_UINT16) = .STTYPE_FIELD ∧
         sample_env.ft_is_string (sttype_field_hfinfo (field_node "tcp.port" .FT_UINT16)).hf_type
          = true)) ∧
      ((∃ ft, r = .ok ft) → r = .ok .FT_STRING) ∧
      (stnode_type_id (field_node "tcp.port" .FT_UINT16) ≠ .STTYPE_FIELD →
        r = .error ⟨field_node "tcp.port" .FT_UINT16,
          "Only fields can be used as parameter for " ++ "lower" ++ "()"⟩) ∧
      (stnode_type_id (field_node "tcp.port" .FT_UINT16) = .STTYPE_FIELD →
        sample_env.ft_is_string (sttype_field_hfinfo (field_node "tcp.port" .FT_UINT16)).hf_type
          = false →
        r = .error ⟨field_node "tcp.port" .FT_UINT16,
          "Only string type fields can be used as parameter for " ++ "lower" ++ "()"⟩)) :=
  ⟨rfl, rfl, rfl,
   ul_semcheck_is_field_string_spec sample_env ⟨0, []⟩ "lower" .FT_NONE
     (field_node "tcp.port" .FT_UINT16) ⟨0, 0⟩⟩

theorem ul_semcheck_can_length_eq (env : semcheck_env) (dfw : dfwork_t) (func_name : String)
    (logical_ftype : ftenum) (param : stnode_t) (func_loc : df_loc_t) (k : ftenum)
    (param1 : stnode_t) (dfw1 : dfwork_t)
    (hclass : df_semcheck_param env dfw func_name logical_ftype param func_loc
      = some (.ok (k, param1), dfw1)) :
    ul_semcheck_can_length env dfw func_name logical_ftype [param] func_loc
      = some (if env.ftype_can_length k then .ok .FT_UINT32
          else .error ⟨param1, "Argument does not support the " ++ func_name ++ "() function"⟩,
          dfw1) := by
  unfold ul_semcheck_can_length
  simp only [ws_assert_singleton]
  simp only [hclass]
  cases env.ftype_can_length k <;> rfl

/-- C21: for every single parameter node on which the classifier succeeds with kind `k`, the
semantic check of `len` (`ul_semcheck_can_length`) succeeds if and only if `ftype_can_length k`
holds, and then returns `FT_UINT32`; otherwise it fails with the diagnostic "Argument does not
support the len() function" (the function name is substituted) attached to that parameter. The
variant of the node is not tested: nodes that are not a `FIELD` are accepted. -/
theorem ul_semcheck_can_length_spec (env : semcheck_env) (dfw : dfwork_t) (func_name : String)
    (logical_ftype : ftenum) (param : stnode_t) (func_loc : df_loc_t) (k : ftenum)
    (param1 : stnode_t) (dfw1 : dfwork_t)
    (hclass : df_semcheck_param env dfw func_name logical_ftype param func_loc
      = some (.ok (k, param1), dfw1)) :
    ∃ r, ul_semcheck_can_length env dfw func_name logical_ftype [param] func_loc
        = some (r, dfw1) ∧
      (r = .ok .FT_UINT32 ↔ env.ftype_can_length k = true) ∧
      ((∃ ft, r = .ok ft) → r = .ok .FT_UINT32) ∧
      (env.ftype_can_length k = false →
        r = .error ⟨param1,
          "Argument does not support the " ++ func_name ++ "() function"⟩) := by
  have heq := ul_semcheck_can_length_eq env dfw func_name logical_ftype param func_loc k param1
    dfw1 hclass
  cases hk : env.ftype_can_length k with
  | true =>
    rw [hk] at heq
    exact ⟨_, heq, ⟨fun _ => rfl, fun _ => rfl⟩, fun _ => rfl, fun h => Bool.noConfusion h⟩
  | false =>
    rw [hk] at heq
    refine ⟨_, heq, ?_, ?_, fun _ => by simp⟩
    · constructor
      · intro hr; simp at hr
      · intro h; exact Bool.noConfusion h
    · rintro ⟨ft, hr⟩; simp at hr

/-- C21 on a slice (not a `FIELD`, kind `FT_BYTES`, accepted) and on a field of kind
`FT_UINT16` (rejected with the diagnostic of `len`). -/
theorem ul_semcheck_can_length_spec_witness :
    df_semcheck_param sample_env ⟨0, []⟩ "len" .FT_NONE
        (plain_node .STTYPE_SLICE "frame[0:4]" .FT_NONE) ⟨0, 0⟩
      = some (.ok (.FT_BYTES, plain_node .STTYPE_SLICE "frame[0:4]" .FT_NONE), ⟨0, []⟩) ∧
    ul_semcheck_can_length sample_env ⟨0, []⟩ "len" .FT_NONE
        [plain_node .STTYPE_SLICE "frame[0:4]" .FT_NONE] ⟨0, 0⟩
      = some (.ok .FT_UINT32, ⟨0, []⟩) ∧
    ul_semcheck_can_length sample_env ⟨0, []⟩ "len" .FT_NONE
        [field_node "tcp.port" .FT_UINT16] ⟨0, 0⟩
      = some (.error ⟨field_node "tcp.port" .FT_UINT16,
          "Argument does not support the len() function"⟩, ⟨1, []⟩) ∧
    (∃ r, ul_semcheck_can_length sample_env ⟨0, []⟩ "len" .FT_NONE
          [plain_node .STTYPE_SLICE "frame[0:4]" .FT_NONE] ⟨0, 0⟩ = some (r, ⟨0, []⟩) ∧
      (r = .ok .FT_UINT32 ↔ sample_env.ftype_can_length .FT_BYTES = true) ∧
      ((∃ ft, r = .ok ft) → r = .ok .FT_UINT32) ∧
      (sample_env.ftype_can_length .FT_BYTES = false →
        r = .error ⟨plain_node .STTYPE_SLICE "frame[0:4]" .FT_NONE,
          "Argument does not support the " ++ "len" ++ "() function"⟩)) :=
  ⟨rfl, rfl, rfl,
   ul_semcheck_can_length_spec sample_env ⟨0, []⟩ "len" .FT_NONE
     (plain_node .STTYPE_SLICE "frame[0:4]" .FT_NONE) ⟨0, 0⟩ .FT_BYTES
     (plain_node .STTYPE_SLICE "frame[0:4]" .FT_NONE) ⟨0, []⟩ rfl⟩

theorem ul_semcheck_absolute_value_eq (env : semcheck_env) (dfw : dfwork_t)
    (func_name : String) (logical_ftype : ftenum) (param : stnode_t) (func_loc : df_loc_t)
    (k : ftenum) (param1 : stnode_t) (dfw1 : dfwork_t)
    (hclass : df_semcheck_param env dfw func_name logical_ftype param func_loc
      = some (.ok (k, param1), dfw1)) :
    ul_semcheck_absolute_value env dfw func_name logical_ftype [param] func_loc
      = some (if env.ftype_can_is_negative k && env.ftype_can_unary_minus k then .ok k
          else .error ⟨param1, "Argument cannot be negated"⟩, dfw1) := by
  unfold ul_semcheck_absolute_value
  simp only [ws_assert_singleton]
  simp only [hclass]
  cases env.ftype_can_is_negative k <;> cases env.ftype_can_unary_minus k <;> rfl

/-- C24: for every single parameter node on which the classifier succeeds with kind `k`, the
semantic check of `abs` (`ul_semcheck_absolute_value`) succeeds if and only if both
`ftype_can_is_negative k` and `ftype_can_unary_minus k` hold, and then returns `k` itself, the
kind of the parameter and not `logical_ftype`; otherwise it fails with the diagnostic
"Argument cannot be negated". -/
theorem ul_semcheck_absolute_value_spec (env : semcheck_env) (dfw : dfwork_t)
    (func_name : String) (logical_ftype : ftenum) (param : stnode_t) (func_loc : df_loc_t)
    (k : ftenum) (param1 : stnode_t) (dfw1 : dfwork_t)
    (hclass : df_semcheck_param env dfw func_name logical_ftype param func_loc
      = some (.ok (k, param1), dfw1)) :
    ∃ r, ul_semcheck_absolute_value env dfw func_name logical_ftype [param] func_loc
        = some (r, dfw1) ∧
      ((∃ ft, r = .ok ft) ↔
        (env.ftype_can_is_negative k = true ∧ env.ftype_can_unary_minus k = true)) ∧
      (∀ ft, r = .ok ft → ft = k) ∧
      (¬ (env.ftype_can_is_negative k = true ∧ env.ftype_can_unary_minus k = true) →
        r = .error ⟨param1, "Argument cannot be negated"⟩) := by
  have heq := ul_semcheck_absolute_value_eq env dfw func_name logical_ftype param func_loc k
    param1 dfw1 hclass
  cases h1 : env.ftype_can_is_negative k <;> cases h2 : env.ftype_can_unary_minus k <;>
    rw [h1, h2] at heq <;> refine ⟨_, heq, ?_, ?_, ?_⟩ <;> simp

/-- C24 with logical kind `FT_UINT16`: a field of kind `FT_INT32` gives `FT_INT32`, a field
of kind `FT_STRING` is rejected. -/
theorem ul_semcheck_absolute_value_spec_witness :
    df_semcheck_param sample_env ⟨0, []⟩ "abs" .FT_UINT16 (field_node "f.delta" .FT_INT32) ⟨0, 0⟩
      = some (.ok (.FT_INT32, field_node "f.delta" .FT_INT32), ⟨1, []⟩) ∧
    ul_semcheck_absolute_value sample_env ⟨0, []⟩ "abs" .FT_UINT16
        [field_node "f.delta" .FT_INT32] ⟨0, 0⟩
      = some (.ok .FT_INT32, ⟨1, []⟩) ∧
    ul_semcheck_absolute_value sample_env ⟨0, []⟩ "abs" .FT_UINT16
        [field_node "f.name" .FT_STRING] ⟨0, 0⟩
      = some (.error ⟨field_node "f.name" .FT_STRING, "Argument cannot be negated"⟩, ⟨1, []⟩) ∧
    (∃ r, ul_semcheck_absolute_value sample_env ⟨0, []⟩ "abs" .FT_UINT16
          [field_node "f.delta" .FT_INT32] ⟨0, 0⟩ = some (r, ⟨1, []⟩) ∧
      ((∃ ft, r = .ok ft) ↔
        (sample_env.ftype_can_is_negative .FT_INT32 = true ∧
         sample_env.ftype_can_unary_minus .FT_INT32 = true)) ∧
      (∀ ft, r = .ok ft → ft = .FT_INT32) ∧
      (¬ (sample_env.ftype_can_is_negative .FT_INT32 = true ∧
          sample_env.ftype_can_unary_minus .FT_INT32 = true) →
        r = .error ⟨field_node "f.delta" .FT_INT32, "Argument cannot be negated"⟩)) :=
  ⟨rfl, rfl, rfl,
   ul_semcheck_absolute_value_spec sample_env ⟨0, []⟩ "abs" .FT_UINT16
     (field_node "f.delta" .FT_INT32) ⟨0, 0⟩ .FT_INT32 (field_node "f.delta" .FT_INT32) ⟨1, []⟩
     rfl⟩

theorem ul_semcheck_compare_abort (env : semcheck_env) (dfw : dfwork_t) (func_name : String)
    (logical_ftype : ftenum) (param : stnode_t) (l : List stnode_t) (func_loc : df_loc_t)
    (hclass : df_semcheck_param env dfw func_name logical_ftype param func_loc = none) :
    ul_semcheck_compare env dfw func_name logical_ftype (param :: l) func_loc = none := by
  rw [ul_semcheck_compare]
  simp only [hclass]

theorem ul_semcheck_compare_thrown (env : semcheck_env) (dfw : dfwork_t) (func_name : String)
    (logical_ftype : ftenum) (param : stnode_t) (l : List stnode_t) (func_loc : df_loc_t)
    (e : df_error_t) (dfw1 : dfwork_t)
    (hclass : df_semcheck_param env dfw func_name logical_ftype param func_loc
      = some (.error e, dfw1)) :
    ul_semcheck_compare env dfw func_name logical_ftype (param :: l) func_loc
      = some (.error e, dfw1) := by
  rw [ul_semcheck_compare]
  simp only [hclass]

theorem ul_semcheck_compare_incompatible (env : semcheck_env) (dfw : dfwork_t)
    (func_name : String) (logical_ftype : ftenum) (param : stnode_t) (l : List stnode_t)
    (func_loc : df_loc_t) (k : ftenum) (param1 : stnode_t) (dfw1 : dfwork_t)
    (hclass : df_semcheck_param env dfw func_name logical_ftype param func_loc
      = some (.ok (k, param1), dfw1))
    (hcompat : env.compatible_ftypes k logical_ftype = false) :
    ul_semcheck_compare env dfw func_name logical_ftype (param :: l) func_loc
      = some (.error ⟨param1,
          "Arguments to '" ++ func_name ++ "' must be of compatible type (expected " ++
            env.ftype_pretty_name logical_ftype ++ ", got " ++ env.ftype_pretty_name k ++
            ")"⟩, dfw1) := by
  rw [ul_semcheck_compare]
  simp only [hclass, hcompat, Bool.not_false, if_true]

theorem ul_semcheck_compare_unordered (env : semcheck_env) (dfw : dfwork_t)
    (func_name : String) (logical_ftype : ftenum) (param : stnode_t) (l : List stnode_t)
    (func_loc : df_loc_t) (k : ftenum) (param1 : stnode_t) (dfw1 : dfwork_t)
    (hclass : df_semcheck_param env dfw func_name logical_ftype param func_loc
      = some (.ok (k, param1), dfw1))
    (hcompat : env.compatible_ftypes k logical_ftype = true)
    (hcmp : env.ftype_can_cmp k = false) :
    ul_semcheck_compare env dfw func_name logical_ftype (param :: l) func_loc
      = some (.error ⟨param1,
          "Argument '" ++ env.stnode_todisplay param1 ++ "' to '" ++ func_name ++
            "' cannot be ordered"⟩, dfw1) := by
  rw [ul_semcheck_compare]
  simp only [hclass, hcompat, hcmp, Bool.not_true, Bool.not_false, if_true,
    Bool.false_eq_true, if_false]

theorem ul_semcheck_compare_next (env : semcheck_env) (dfw : dfwork_t)
    (func_name : String) (logical_ftype : ftenum) (param : stnode_t) (l : List stnode_t)
    (func_loc : df_loc_t) (k : ftenum) (param1 : stnode_t) (dfw1 : dfwork_t)
    (hclass : df_semcheck_param env dfw func_name logical_ftype param func_loc
      = some (.ok (k, param1), dfw1))
    (hcompat : env.compatible_ftypes k logical_ftype = true)
    (hcmp : env.ftype_can_cmp k = true) :
    ul_semcheck_compare env dfw func_name logical_ftype (param :: l) func_loc
      = ul_semcheck_compare env dfw1 func_name logical_ftype l func_loc := by
  rw [ul_semcheck_compare]
  simp only [hclass, hcompat, hcmp, Bool.not_true, Bool.false_eq_true, if_false]

/-- The result of one round of the loop of `ul_semcheck_compare`, by cases. -/
theorem ul_semcheck_compare_round (env : semcheck_env) (dfw : dfwork_t) (func_name : String)
    (logical_ftype : ftenum) (param : stnode_t) (l : List stnode_t) (func_loc : df_loc_t) :
    (ul_semcheck_compare env dfw func_name logical_ftype (param :: l) func_loc = none ∧
      df_semcheck_param env dfw func_name logical_ftype param func_loc = none) ∨
    (∃ e dfw1, ul_semcheck_compare env dfw func_name logical_ftype (param :: l) func_loc
        = some (.error e, dfw1) ∧
      ¬ ∃ k param1 dfw2, df_semcheck_param env dfw func_name logical_ftype param func_loc
          = some (.ok (k, param1), dfw2) ∧
        env.compatible_ftypes k logical_ftype = true ∧ env.ftype_can_cmp k = true) ∨
    (∃ k param1 dfw1, df_semcheck_param env dfw func_name logical_ftype param func_loc
        = some (.ok (k, param1), dfw1) ∧
      env.compatible_ftypes k logical_ftype = true ∧ env.ftype_can_cmp k = true ∧
      ul_semcheck_compare env dfw func_name logical_ftype (param :: l) func_loc
        = ul_semcheck_compare env dfw1 func_name logical_ftype l func_loc) := by
  cases hc : df_semcheck_param env dfw func_name logical_ftype param func_loc with
  | none =>
    exact Or.inl ⟨ul_semcheck_compare_abort env dfw func_name logical_ftype param l func_loc hc,
      rfl⟩
  | some res =>
    obtain ⟨r, dfw1⟩ := res
    cases r with
    | error e =>
      refine Or.inr (Or.inl ⟨e, dfw1,
        ul_semcheck_compare_thrown env dfw func_name logical_ftype param l func_loc e dfw1 hc, ?_⟩)
      rintro ⟨k, param1, dfw2, h, _⟩
      simp at h
    | ok kp =>
      obtain ⟨k, param1⟩ := kp
      cases hcompat : env.compatible_ftypes k logical_ftype with
      | false =>
        refine Or.inr (Or.inl ⟨_, dfw1, ul_semcheck_compare_incompatible env dfw func_name
          logical_ftype param l func_loc k param1 dfw1 hc hcompat, ?_⟩)
        rintro ⟨k2, param2, dfw2, h, h2, _⟩
        simp only [Option.some.injEq, Prod.mk.injEq, Except.ok.injEq] at h
        rw [← h.1.1, hcompat] at h2
        exact Bool.noConfusion h2
      | true =>
        cases hcmp : env.ftype_can_cmp k with
        | false =>
          refine Or.inr (Or.inl ⟨_, dfw1, ul_semcheck_compare_unordered env dfw func_name
            logical_ftype param l func_loc k param1 dfw1 hc hcompat hcmp, ?_⟩)
          rintro ⟨k2, param2, dfw2, h, _, h3⟩
          simp only [Option.some.injEq, Prod.mk.injEq, Except.ok.injEq] at h
          rw [← h.1.1, hcmp] at h3
          exact Bool.noConfusion h3
        | true =>
          exact Or.inr (Or.inr ⟨k, param1, dfw1, rfl, hcompat, hcmp,
            ul_semcheck_compare_next env dfw func_name logical_ftype param l func_loc k param1
              dfw1 hc hcompat hcmp⟩)

theorem ul_semcheck_compare_accepts_iff (env : semcheck_env) (func_name : String)
    (logical_ftype : ftenum) (func_loc : df_loc_t) (param_list : List stnode_t) :
    ∀ dfw : dfwork_t,
      ((∃ r dfw1, ul_semcheck_compare env dfw func_name logical_ftype param_list func_loc
          = some (.ok r, dfw1)) ↔
        compare_params_accepted env func_name logical_ftype func_loc dfw param_list) ∧
      (∀ r dfw1, ul_semcheck_compare env dfw func_name logical_ftype param_list func_loc
          = some (.ok r, dfw1) → r = logical_ftype) := by
  induction param_list with
  | nil =>
    intro dfw
    refine ⟨⟨fun _ => trivial, fun _ => ⟨logical_ftype, dfw, rfl⟩⟩, ?_⟩
    intro r dfw1 h
    simp only [ul_semcheck_compare, Option.some.injEq, Prod.mk.injEq, Except.ok.injEq] at h
    exact h.1.symm
  | cons param l ih =>
    intro dfw
    rcases ul_semcheck_compare_round env dfw func_name logical_ftype param l func_loc with
      ⟨habort, hnone⟩ | ⟨e, dfw1, herr, hnot⟩ | ⟨k, param1, dfw1, hc, hcompat, hcmp, hnext⟩
    · refine ⟨⟨?_, ?_⟩, ?_⟩
      · rintro ⟨r, dfw1, h⟩; rw [habort] at h; exact Option.noConfusion h
      · rintro ⟨k, param1, dfw1, hc, _⟩
        rw [hnone] at hc
        exact Option.noConfusion hc
      · intro r dfw1 h; rw [habort] at h; exact Option.noConfusion h
    · refine ⟨⟨?_, ?_⟩, ?_⟩
      · rintro ⟨r, dfw2, h⟩; rw [herr] at h; simp at h
      · rintro ⟨k, param1, dfw2, hc, hcompat, hcmp, _⟩
        exact absurd ⟨k, param1, dfw2, hc, hcompat, hcmp⟩ hnot
      · intro r dfw2 h; rw [herr] at h; simp at h
    · rw [hnext]
      refine ⟨⟨?_, ?_⟩, (ih dfw1).2⟩
      · intro h
        exact ⟨k, param1, dfw1, hc, hcompat, hcmp, (ih dfw1).1.mp h⟩
      · rintro ⟨k2, param2, dfw2, hc2, _, _, hrest⟩
        rw [hc] at hc2
        simp only [Option.some.injEq, Prod.mk.injEq, Except.ok.injEq] at hc2
        rw [← hc2.2] at hrest
        exact (ih dfw1).1.mpr hrest

theorem ul_semcheck_compare_append (env : semcheck_env) (func_name : String)
    (logical_ftype : ftenum) (func_loc : df_loc_t) (pre rest : List stnode_t) :
    ∀ dfw r dfw1, ul_semcheck_compare env dfw func_name logical_ftype pre func_loc
        = some (.ok r, dfw1) →
      ul_semcheck_compare env dfw func_name logical_ftype (pre ++ rest) func_loc
        = ul_semcheck_compare env dfw1 func_name logical_ftype rest func_loc := by
  induction pre with
  | nil =>
    intro dfw r dfw1 h
    simp only [ul_semcheck_compare, Option.some.injEq, Prod.mk.injEq, Except.ok.injEq] at h
    rw [List.nil_append, h.2]
  | cons param l ih =>
    intro dfw r dfw1 h
    rcases ul_semcheck_compare_round env dfw func_name logical_ftype param l func_loc with
      ⟨habort, _⟩ | ⟨e, dfw2, herr, _⟩ | ⟨k, param1, dfw2, hc, hcompat, hcmp, hnext⟩
    · rw [habort] at h; exact Option.noConfusion h
    · rw [herr] at h; simp at h
    · rw [hnext] at h
      rw [List.cons_append, ul_semcheck_compare_next env dfw func_name logical_ftype param
        (l ++ rest) func_loc k param1 dfw2 hc hcompat hcmp]
      exact ih dfw2 r dfw1 h

/-- C23: the semantic check of `max` and `min` (`ul_semcheck_compare`) succeeds if and only if
every parameter, in list order, classifies to a kind that is compatible with `logical_ftype`
and can be ordered, and the kind it returns is `logical_ftype`. When the parameters before `p`
are accepted and `p` classifies to the kind `k`, a `k` that is not compatible gives the "must be
of compatible type (expected X, got Y)" diagnostic on `p`, with X the name of `logical_ftype`
and Y the name of `k`, whether or not `k` can be ordered; a compatible `k` that cannot be
ordered gives the "cannot be ordered" diagnostic on `p`. The parameters after `p` are not
looked at. -/
theorem ul_semcheck_compare_spec (env : semcheck_env) (dfw : dfwork_t) (func_name : String)
    (logical_ftype : ftenum) (param_list : List stnode_t) (func_loc : df_loc_t) :
    ((∃ dfw1, ul_semcheck_compare env dfw func_name logical_ftype param_list func_loc
        = some (.ok logical_ftype, dfw1)) ↔
      compare_params_accepted env func_name logical_ftype func_loc dfw param_list) ∧
    (∀ r dfw1, ul_semcheck_compare env dfw func_name logical_ftype param_list func_loc
        = some (.ok r, dfw1) → r = logical_ftype) ∧
    (∀ pre p post dfw1 k p1 dfw2, param_list = pre ++ p :: post →
      ul_semcheck_compare env dfw func_name logical_ftype pre func_loc
        = some (.ok logical_ftype, dfw1) →
      df_semcheck_param env dfw1 func_name logical_ftype p func_loc
        = some (.ok (k, p1), dfw2) →
      (env.compatible_ftypes k logical_ftype = false →
        ul_semcheck_compare env dfw func_name logical_ftype param_list func_loc
          = some (.error ⟨p1,
              "Arguments to '" ++ func_name ++ "' must be of compatible type (expected " ++
                env.ftype_pretty_name logical_ftype ++ ", got " ++ env.ftype_pretty_name k ++
                ")"⟩, dfw2)) ∧
      (env.compatible_ftypes k logical_ftype = true → env.ftype_can_cmp k = false →
        ul_semcheck_compare env dfw func_name logical_ftype param_list func_loc
          = some (.error ⟨p1,
              "Argument '" ++ env.stnode_todisplay p1 ++ "' to '" ++ func_name ++
                "' cannot be ordered"⟩, dfw2))) := by
  have hiff := ul_semcheck_compare_accepts_iff env func_name logical_ftype func_loc param_list dfw
  refine ⟨⟨?_, ?_⟩, hiff.2, ?_⟩
  · rintro ⟨dfw1, h⟩
    exact hiff.1.mp ⟨logical_ftype, dfw1, h⟩
  · intro h
    obtain ⟨r, dfw1, hr⟩ := hiff.1.mpr h
    have hrl := hiff.2 r dfw1 hr
    rw [hrl] at hr
    exact ⟨dfw1, hr⟩
  · intro pre p post dfw1 k p1 dfw2 hlist hpre hclass
    rw [hlist, ul_semcheck_compare_append env func_name logical_ftype func_loc pre (p :: post)
      dfw logical_ftype dfw1 hpre]
    exact ⟨fun hcompat => ul_semcheck_compare_incompatible env dfw1 func_name logical_ftype p
        post func_loc k p1 dfw2 hclass hcompat,
      fun hcompat hcmp => ul_semcheck_compare_unordered env dfw1 func_name logical_ftype p post
        func_loc k p1 dfw2 hclass hcompat hcmp⟩

/-- C23 with logical kind `FT_UINT16`: two fields of that kind are accepted; a second
parameter of kind `FT_NONE`, neither compatible nor orderable, gets the "compatible type"
diagnostic and the third parameter is not looked at. -/
theorem ul_semcheck_compare_spec_witness :
    ul_semcheck_compare sample_env ⟨0, []⟩ "max" .FT_UINT16
        [field_node "tcp.srcport" .FT_UINT16, field_node "tcp.dstport" .FT_UINT16] ⟨0, 0⟩
      = some (.ok .FT_UINT16, ⟨2, []⟩) ∧
    ul_semcheck_compare sample_env ⟨0, []⟩ "max" .FT_UINT16
        [field_node "tcp.srcport" .FT_UINT16, field_node "frame.x" .FT_NONE,
         field_node "dns.qry.name" .FT_STRING] ⟨0, 0⟩
      = some (.error ⟨field_node "frame.x" .FT_NONE,
          "Arguments to 'max' must be of compatible type " ++
            "(expected Unsigned integer (16 bits), got Other)"⟩, ⟨2, []⟩) ∧
    (sample_env.compatible_ftypes .FT_NONE .FT_UINT16 = false ∧
     sample_env.ftype_can_cmp .FT_NONE = false) ∧
    ((∃ dfw1, ul_semcheck_compare sample_env ⟨0, []⟩ "max" .FT_UINT16
          [field_node "tcp.srcport" .FT_UINT16, field_node "tcp.dstport" .FT_UINT16] ⟨0, 0⟩
          = some (.ok .FT_UINT16, dfw1)) ↔
      compare_params_accepted sample_env "max" .FT_UINT16 ⟨0, 0⟩ ⟨0, []⟩
        [field_node "tcp.srcport" .FT_UINT16, field_node "tcp.dstport" .FT_UINT16]) :=
  ⟨rfl, rfl, ⟨by decide, by decide⟩,
   (ul_semcheck_compare_spec sample_env ⟨0, []⟩ "max" .FT_UINT16
      [field_node "tcp.srcport" .FT_UINT16, field_node "tcp.dstport" .FT_UINT16] ⟨0, 0⟩).1⟩

theorem ws_assert_active_abort (cond : Bool) (h : cond = false) :
    ws_assert true cond = none := by
  subst h; rfl

theorem ws_assert_inactive (cond : Bool) : ws_assert false cond = some () := rfl

/-- C26 as amended: no built-in checker rejects a parameter list for its length with a
diagnostic. The checkers of `lower`, `upper`, `len`, `count`, `string` and `abs` start with the
assertion `ws_assert(g_slist_length(param_list) == 1)`, before they read or classify a
parameter. In a build with assertions a list of any other length aborts the run and no result
type is returned. In a build without assertions the checker reads the first parameter only: a
longer list is accepted or rejected as the list of its first parameter alone is, and the read
of the first parameter of the empty list aborts the run. The checker of `max` and `min`
(`ul_semcheck_compare`) makes no test of the length of the list: on the empty list it
classifies nothing and returns `logical_ftype`, with the compilation state unchanged. -/
theorem semcheck_arity (env : semcheck_env) (dfw : dfwork_t) (func_name : String)
    (logical_ftype : ftenum) (func_loc : df_loc_t) :
    (env.ws_assert_active = true → ∀ param_list : List stnode_t, param_list.length ≠ 1 →
      ul_semcheck_is_field_string env dfw func_name logical_ftype param_list func_loc = none ∧
      ul_semcheck_is_field env dfw func_name logical_ftype param_list func_loc = none ∧
      ul_semcheck_can_length env dfw func_name logical_ftype param_list func_loc = none ∧
      ul_semcheck_string env dfw func_name logical_ftype param_list func_loc = none ∧
      ul_semcheck_absolute_value env dfw func_name logical_ftype param_list func_loc = none) ∧
    (env.ws_assert_active = false → ∀ (param : stnode_t) (more : List stnode_t),
      ul_semcheck_is_field_string env dfw func_name logical_ftype (param :: more) func_loc
        = ul_semcheck_is_field_string env dfw func_name logical_ftype [param] func_loc ∧
      ul_semcheck_is_field env dfw func_name logical_ftype (param :: more) func_loc
        = ul_semcheck_is_field env dfw func_name logical_ftype [param] func_loc ∧
      ul_semcheck_can_length env dfw func_name logical_ftype (param :: more) func_loc
        = ul_semcheck_can_length env dfw func_name logical_ftype [param] func_loc ∧
      ul_semcheck_string env dfw func_name logical_ftype (param :: more) func_loc
        = ul_semcheck_string env dfw func_name logical_ftype [param] func_loc ∧
      ul_semcheck_absolute_value env dfw func_name logical_ftype (param :: more) func_loc
        = ul_semcheck_absolute_value env dfw func_name logical_ftype [param] func_loc) ∧
    (env.ws_assert_active = false →
      ul_semcheck_is_field_string env dfw func_name logical_ftype [] func_loc = none ∧
      ul_semcheck_is_field env dfw func_name logical_ftype [] func_loc = none ∧
      ul_semcheck_can_length env dfw func_name logical_ftype [] func_loc = none ∧
      ul_semcheck_string env dfw func_name logical_ftype [] func_loc = none ∧
      ul_semcheck_absolute_value env dfw func_name logical_ftype [] func_loc = none) ∧
    ul_semcheck_compare env dfw func_name logical_ftype [] func_loc
      = some (.ok logical_ftype, dfw) := by
  refine ⟨?_, ?_, ?_, rfl⟩
  · intro hactive param_list hlen
    have hcond : decide (param_list.length = 1) = false := by simpa using hlen
    have habort : ws_assert env.ws_assert_active (decide (param_list.length = 1)) = none := by
      rw [hactive]
      exact ws_assert_active_abort _ hcond
    refine ⟨?_, ?_, ?_, ?_, ?_⟩
    · unfold ul_semcheck_is_field_string; simp only [habort]
    · unfold ul_semcheck_is_field; simp only [habort]
    · unfold ul_semcheck_can_length; simp only [habort]
    · unfold ul_semcheck_string; simp only [habort]
    · unfold ul_semcheck_absolute_value; simp only [habort]
  · intro hinactive param more
    refine ⟨?_, ?_, ?_, ?_, ?_⟩
    · unfold ul_semcheck_is_field_string; simp only [hinactive, ws_assert_inactive]
    · unfold ul_semcheck_is_field; simp only [hinactive, ws_assert_inactive]
    · unfold ul_semcheck_can_length; simp only [hinactive, ws_assert_inactive]
    · unfold ul_semcheck_string; simp only [hinactive, ws_assert_inactive]
    · unfold ul_semcheck_absolute_value; simp only [hinactive, ws_assert_inactive]
  · intro hinactive
    refine ⟨?_, ?_, ?_, ?_, ?_⟩
    · unfold ul_semcheck_is_field_string; simp only [hinactive, ws_assert_inactive]
    · unfold ul_semcheck_is_field; simp only [hinactive, ws_assert_inactive]
    · unfold ul_semcheck_can_length; simp only [hinactive, ws_assert_inactive]
    · unfold ul_semcheck_string; simp only [hinactive, ws_assert_inactive]
    · unfold ul_semcheck_absolute_value; simp only [hinactive, ws_assert_inactive]

/-- C26 as amended, on lists of two parameters and of none: with assertions the check of `abs`
aborts on two parameters; without assertions the check of `count` accepts the two fields `a`
and `b` as it accepts `a` alone, counting one field. -/
theorem semcheck_arity_witness :
    sample_env.ws_assert_active = true ∧
    [field_node "a" .FT_INT32, field_node "b" .FT_INT32].length ≠ 1 ∧
    ul_semcheck_absolute_value sample_env ⟨0, []⟩ "abs" .FT_NONE
        [field_node "a" .FT_INT32, field_node "b" .FT_INT32] ⟨0, 0⟩ = none ∧
    sample_env_unasserted.ws_assert_active = false ∧
    ul_semcheck_is_field sample_env_unasserted ⟨0, []⟩ "count" .FT_NONE
        [field_node "a" .FT_INT32, field_node "b" .FT_INT32] ⟨0, 0⟩
      = ul_semcheck_is_field sample_env_unasserted ⟨0, []⟩ "count" .FT_NONE
        [field_node "a" .FT_INT32] ⟨0, 0⟩ ∧
    ul_semcheck_is_field sample_env_unasserted ⟨0, []⟩ "count" .FT_NONE
        [field_node "a" .FT_INT32] ⟨0, 0⟩ = some (.ok .FT_UINT32, ⟨1, []⟩) :=
  ⟨rfl, by decide,
   ((semcheck_arity sample_env ⟨0, []⟩ "abs" .FT_NONE ⟨0, 0⟩).1 rfl
      [field_node "a" .FT_INT32, field_node "b" .FT_INT32] (by decide)).2.2.2.2,
   rfl,
   ((semcheck_arity sample_env_unasserted ⟨0, []⟩ "count" .FT_NONE ⟨0, 0⟩).2.1 rfl
      (field_node "a" .FT_INT32) [field_node "b" .FT_INT32]).2.1,
   rfl⟩

/-- C26 as stated fails: on a parameter list of length 0, which violates the arity of `max`
and `min`, `ul_semcheck_compare` returns a result type, `logical_ftype`; and in a build without
assertions the check of `count` returns a result type on a list of two fields, which violates
the arity of `count`. -/
theorem semcheck_arity_counterexample :
    ([] : List stnode_t).length = 0 ∧
    ul_semcheck_compare sample_env ⟨0, []⟩ "max" .FT_UINT16 [] ⟨0, 0⟩
      = some (.ok .FT_UINT16, ⟨0, []⟩) ∧
    ul_semcheck_compare sample_env_unasserted ⟨0, []⟩ "max" .FT_UINT16 [] ⟨0, 0⟩
      = some (.ok .FT_UINT16, ⟨0, []⟩) ∧
    [field_node "a" .FT_INT32, field_node "b" .FT_INT32].length = 2 ∧
    ul_semcheck_is_field sample_env_unasserted ⟨0, []⟩ "count" .FT_NONE
        [field_node "a" .FT_INT32, field_node "b" .FT_INT32] ⟨0, 0⟩
      = some (.ok .FT_UINT32, ⟨1, []⟩) :=
  ⟨rfl, rfl, rfl, rfl, rfl⟩

/-! ## Theorems: checker and evaluator of `string` together -/

theorem string_cases_agree (ft : ftenum) :
    ul_semcheck_string_case ft = df_func_string_case ft := by
  cases ft <;> rfl

theorem ul_semcheck_string_field_iff (env : semcheck_env) (dfw : dfwork_t) (func_name : String)
    (logical_ftype : ftenum) (name : String) (ft : ftenum) (func_loc : df_loc_t) :
    (∃ dfw1, ul_semcheck_string env dfw func_name logical_ftype [field_node name ft] func_loc
        = some (.ok .FT_STRING, dfw1)) ↔ df_func_string_case ft = true := by
  rw [← string_cases_agree]
  cases hcase : ul_semcheck_string_case ft with
  | true =>
    refine ⟨fun _ => rfl, fun _ => ⟨_, ul_semcheck_string_ok env dfw func_name logical_ftype
      (field_node name ft) func_loc rfl hcase⟩⟩
  | false =>
    constructor
    · rintro ⟨dfw1, h⟩
      rw [ul_semcheck_string_unsupported env dfw func_name logical_ftype (field_node name ft)
        func_loc rfl hcase] at h
      simp at h
    · intro h; exact Bool.noConfusion h

/-- C28: a kind is accepted by the semantic check of `string` for a `FIELD` exactly when the
evaluator of `string` converts a value of that kind (appends a string for it). Hence, for every
non-null list whose values all have a kind accepted by the check, the evaluator never takes
its early-termination branch: it returns true and appends exactly one string per value. -/
theorem string_check_matches_evaluator (env : semcheck_env) (dfw : dfwork_t) (func_name : String)
    (logical_ftype : ftenum) (name : String) (func_loc : df_loc_t)
    (to_string_repr : fvalue_t → Option (List gchar)) (rest : List (Option GPtrArray))
    (retval : df_cell_t) :
    (∀ (ft : ftenum) (payload : fvalue_value),
      (∃ dfw1, ul_semcheck_string env dfw func_name logical_ftype [field_node name ft] func_loc
          = some (.ok .FT_STRING, dfw1)) ↔
      (∃ s, df_func_string to_string_repr (some [⟨ft, payload⟩] :: rest) 1 retval
          = some (true, retval ++ [some s]))) ∧
    (∀ xs : GPtrArray,
      (∀ v ∈ xs, ∃ dfw1, ul_semcheck_string env dfw func_name logical_ftype
          [field_node name (fvalue_type_ftenum v)] func_loc = some (.ok .FT_STRING, dfw1)) →
      ∃ added, df_func_string to_string_repr (some xs :: rest) 1 retval
          = some (true, retval ++ added) ∧
        added = xs.map (fun v => some (fv_string ((to_string_repr v).getD []))) ∧
        added.length = xs.length) := by
  constructor
  · intro ft payload
    rw [ul_semcheck_string_field_iff, df_func_string_some, df_func_string_loop_eq]
    cases hcase : df_func_string_case ft with
    | true =>
      refine ⟨fun _ => ⟨fv_string ((to_string_repr ⟨ft, payload⟩).getD []), ?_⟩, fun _ => rfl⟩
      simp [List.takeWhile, hcase]
    | false =>
      constructor
      · intro h; exact Bool.noConfusion h
      · rintro ⟨s, h⟩
        exfalso
        simp only [List.takeWhile, hcase, List.map_nil, List.append_nil, Option.some.injEq,
          Prod.mk.injEq, true_and] at h
        have hlen := congrArg List.length h
        simp at hlen
  · intro xs hall
    have htake : xs.takeWhile (fun v => df_func_string_case v.ftype) = xs := by
      apply List.takeWhile_eq_self_iff.mpr
      intro v hv
      exact (ul_semcheck_string_field_iff env dfw func_name logical_ftype name
        (fvalue_type_ftenum v) func_loc).mp (hall v hv)
    refine ⟨_, ?_, rfl, by simp⟩
    rw [df_func_string_some, df_func_string_loop_eq, htake]

/-- C28 on a list of two values of accepted kinds: both are converted. -/
theorem string_check_matches_evaluator_witness :
    df_func_string (fun _ => some (ascii "7"))
        [some [fv_uint .FT_UINT8 7, fv_uint .FT_UINT64 7]] 1 []
      = some (true, [some (fv_string (ascii "7")), some (fv_string (ascii "7"))]) ∧
    ∃ added, df_func_string (fun _ => some (ascii "7"))
        (some [fv_uint .FT_UINT8 7, fv_uint .FT_UINT64 7] :: []) 1 [] = some (true, [] ++ added) ∧
      added = [fv_uint .FT_UINT8 7, fv_uint .FT_UINT64 7].map
        (fun v => some (fv_string (((fun _ => some (ascii "7")) v : Option (List gchar)).getD []))) ∧
      added.length = [fv_uint .FT_UINT8 7, fv_uint .FT_UINT64 7].length :=
  ⟨by decide,
   (string_check_matches_evaluator sample_env ⟨0, []⟩ "string" .FT_NONE "f" ⟨0, 0⟩ (fun _ => some (ascii "7"))
      [] []).2 [fv_uint .FT_UINT8 7, fv_uint .FT_UINT64 7] (by
        intro v hv
        simp only [List.mem_cons, List.mem_singleton, List.not_mem_nil, or_false] at hv
        rcases hv with rfl | rfl
        · exact ⟨_, rfl⟩
        · exact ⟨_, rfl⟩)⟩

/-! ## Theorems: the evaluators only append -/

theorem string_walk_appends (ft_is_string : ftenum → Bool) (conv_func : gchar → gchar)
    (stack : List (Option GPtrArray)) (arg_count : Nat) (retval : df_cell_t) (b : Bool)
    (cell : df_cell_t)
    (h : string_walk ft_is_string stack arg_count retval conv_func = some (b, cell)) :
    ∃ added, cell = retval ++ added := by
  unfold string_walk at h
  split_ifs at h
  match stack, h with
  | none :: _, h =>
    simp only [Option.some.injEq, Prod.mk.injEq] at h
    exact ⟨[], by rw [← h.2]; simp⟩
  | some arg1 :: _, h =>
    simp only [Option.some.injEq, Prod.mk.injEq] at h
    exact ⟨_, by rw [← h.2, string_walk_loop_eq]⟩

/-- On values: whenever a call of a built-in evaluator returns, the content of the cell on
return is the content on entry followed by zero or more new entries. -/
theorem evaluators_cell_grows (ft_is_string : ftenum → Bool)
    (to_string_repr : fvalue_t → Option (List gchar)) (isneg : fvalue_t → Bool)
    (um : fvalue_t → Option fvalue_t) (gt lt : fvalue_t → fvalue_t → Bool)
    (stack : List (Option GPtrArray)) (arg_count : Nat) (retval : df_cell_t) :
    (∀ b cell, df_func_lower ft_is_string stack arg_count retval = some (b, cell) →
      ∃ added, cell = retval ++ added) ∧
    (∀ b cell, df_func_upper ft_is_string stack arg_count retval = some (b, cell) →
      ∃ added, cell = retval ++ added) ∧
    (∀ b cell, df_func_count stack arg_count retval = some (b, cell) →
      ∃ added, cell = retval ++ added) ∧
    (∀ b cell, df_func_string to_string_repr stack arg_count retval = some (b, cell) →
      ∃ added, cell = retval ++ added) ∧
    (∀ b cell, df_func_max gt stack arg_count retval = some (b, cell) →
      ∃ added, cell = retval ++ added) ∧
    (∀ b cell, df_func_min lt stack arg_count retval = some (b, cell) →
      ∃ added, cell = retval ++ added) ∧
    (∀ b cell, df_func_abs isneg um stack arg_count retval = some (b, cell) →
      ∃ added, cell = retval ++ added) := by
  have hcmp : ∀ (cmp : fvalue_t → fvalue_t → Bool) (b : Bool) (cell : df_cell_t),
      df_func_compare stack arg_count retval cmp = some (b, cell) →
      ∃ added, cell = retval ++ added := by
    intro cmp b cell h
    unfold df_func_compare at h
    cases hout : df_func_compare_outer cmp arg_count stack none with
    | none => rw [hout] at h; exact Option.noConfusion h
    | some best =>
      rw [hout] at h
      cases best with
      | none =>
        simp only [Option.some.injEq, Prod.mk.injEq] at h
        exact ⟨[], by rw [← h.2]; simp⟩
      | some fv_ret =>
        simp only [Option.some.injEq, Prod.mk.injEq] at h
        exact ⟨_, by rw [← h.2]; rfl⟩
  refine ⟨?_, ?_, ?_, ?_, hcmp gt, hcmp lt, ?_⟩
  · intro b cell h
    exact string_walk_appends ft_is_string g_ascii_tolower stack arg_count retval b cell h
  · intro b cell h
    exact string_walk_appends ft_is_string g_ascii_toupper stack arg_count retval b cell h
  · intro b cell h
    unfold df_func_count at h
    split_ifs at h
    match stack, h with
    | none :: _, h =>
      simp only [Option.some.injEq, Prod.mk.injEq] at h
      exact ⟨[], by rw [← h.2]; simp⟩
    | some arg1 :: _, h =>
      simp only [Option.some.injEq, Prod.mk.injEq] at h
      exact ⟨_, by rw [← h.2]; rfl⟩
  · intro b cell h
    unfold df_func_string at h
    split_ifs at h
    match stack, h with
    | none :: _, h =>
      simp only [Option.some.injEq, Prod.mk.injEq] at h
      exact ⟨[], by rw [← h.2]; simp⟩
    | some arg1 :: _, h =>
      simp only [Option.some.injEq, Prod.mk.injEq] at h
      exact ⟨_, by rw [← h.2, df_func_string_loop_eq]⟩
  · intro b cell h
    unfold df_func_abs at h
    split_ifs at h
    match stack, h with
    | none :: _, h =>
      simp only [Option.some.injEq, Prod.mk.injEq] at h
      exact ⟨[], by rw [← h.2]; simp⟩
    | some arg1 :: _, h =>
      simp only [Option.some.injEq, Prod.mk.injEq] at h
      exact ⟨_, by rw [← h.2, df_func_abs_loop_eq]⟩

/-! ## Theorems: the evaluators on the store -/

theorem ws_assert_true (active : Bool) : ws_assert active true = some () := by
  cases active <;> rfl

theorem fvalue_new_write (ft : ftenum) (f : fvalue_t → fvalue_t) (store : fvalue_store) :
    fvalue_write_mem (fvalue_new_mem ft store).1 f (fvalue_new_mem ft store).2
      = some (store ++ [f (fvalue_new ft)]) := by
  simp [fvalue_write_mem, fvalue_new_mem]

theorem fvalue_dup_mem_some (p : fvalue_ptr) (store : fvalue_store) (fv : fvalue_t)
    (h : store[p]? = some fv) :
    fvalue_dup_mem p store = some (store.length, store ++ [fvalue_dup fv]) := by
  simp [fvalue_dup_mem, h]

theorem cell_grows_step (retval added cell : df_cell_mem) (x : Option fvalue_ptr)
    (hc : cell = df_cell_append_mem retval x ++ added) : ∃ added1, cell = retval ++ added1 :=
  ⟨x :: added, by simp [hc, df_cell_append_mem]⟩

theorem store_grows_step (store fresh store1 : fvalue_store) (x : fvalue_t)
    (hs : store1 = store ++ [x] ++ fresh) : ∃ fresh1, store1 = store ++ fresh1 :=
  ⟨x :: fresh, by simp [hs]⟩

theorem string_walk_loop_mem_frame (ft_is_string : ftenum → Bool) (conv_func : gchar → gchar)
    (ptrs : List fvalue_ptr) (retval : df_cell_mem) (store : fvalue_store)
    (cell : df_cell_mem) (store1 : fvalue_store)
    (h : string_walk_loop_mem ft_is_string conv_func ptrs retval store = some (cell, store1)) :
    (∃ added, cell = retval ++ added) ∧ ∃ fresh, store1 = store ++ fresh := by
  induction ptrs generalizing retval store with
  | nil =>
    simp only [string_walk_loop_mem, Option.some.injEq, Prod.mk.injEq] at h
    exact ⟨⟨[], by simp [h.1]⟩, ⟨[], by simp [h.2]⟩⟩
  | cons p ptrs ih =>
    unfold string_walk_loop_mem at h
    cases hfv : store[p]? with
    | none => simp [hfv] at h
    | some fv =>
      simp only [hfv] at h
      split_ifs at h
      · simp only [fvalue_set_strbuf_mem, fvalue_new_write] at h
        obtain ⟨⟨added, hc⟩, ⟨fresh, hs⟩⟩ := ih _ _ h
        exact ⟨cell_grows_step _ _ _ _ hc, store_grows_step _ _ _ _ hs⟩
      · exact ih _ _ h

theorem df_func_string_loop_mem_frame (to_string_repr : fvalue_t → Option (List gchar))
    (ptrs : List fvalue_ptr) (retval : df_cell_mem) (store : fvalue_store)
    (cell : df_cell_mem) (store1 : fvalue_store)
    (h : df_func_string_loop_mem to_string_repr ptrs retval store = some (cell, store1)) :
    (∃ added, cell = retval ++ added) ∧ ∃ fresh, store1 = store ++ fresh := by
  induction ptrs generalizing retval store with
  | nil =>
    simp only [df_func_string_loop_mem, Option.some.injEq, Prod.mk.injEq] at h
    exact ⟨⟨[], by simp [h.1]⟩, ⟨[], by simp [h.2]⟩⟩
  | cons p ptrs ih =>
    unfold df_func_string_loop_mem at h
    cases hfv : store[p]? with
    | none => simp [hfv] at h
    | some fv =>
      simp only [hfv] at h
      split_ifs at h
      · simp only [fvalue_set_string_mem, fvalue_new_write] at h
        obtain ⟨⟨added, hc⟩, ⟨fresh, hs⟩⟩ := ih _ _ h
        exact ⟨cell_grows_step _ _ _ _ hc, store_grows_step _ _ _ _ hs⟩
      · simp only [Option.some.injEq, Prod.mk.injEq] at h
        exact ⟨⟨[], by simp [h.1]⟩, ⟨[], by simp [h.2]⟩⟩

theorem df_func_abs_loop_mem_frame (isneg : fvalue_t → Bool) (um : fvalue_t → Option fvalue_t)
    (ptrs : List fvalue_ptr) (retval : df_cell_mem) (store : fvalue_store)
    (cell : df_cell_mem) (store1 : fvalue_store)
    (h : df_func_abs_loop_mem isneg um ptrs retval store = some (cell, store1)) :
    (∃ added, cell = retval ++ added) ∧ ∃ fresh, store1 = store ++ fresh := by
  induction ptrs generalizing retval store with
  | nil =>
    simp only [df_func_abs_loop_mem, Option.some.injEq, Prod.mk.injEq] at h
    exact ⟨⟨[], by simp [h.1]⟩, ⟨[], by simp [h.2]⟩⟩
  | cons p ptrs ih =>
    unfold df_func_abs_loop_mem at h
    cases hfv : store[p]? with
    | none => simp [hfv] at h
    | some fv =>
      simp only [hfv] at h
      split_ifs at h
      · simp only [fvalue_unary_minus_mem, hfv] at h
        cases hr : um fv with
        | none =>
          simp only [hr] at h
          obtain ⟨⟨added, hc⟩, hs⟩ := ih _ _ h
          exact ⟨cell_grows_step _ _ _ _ hc, hs⟩
        | some r =>
          simp only [hr] at h
          obtain ⟨⟨added, hc⟩, ⟨fresh, hs⟩⟩ := ih _ _ h
          exact ⟨cell_grows_step _ _ _ _ hc, store_grows_step _ _ _ _ hs⟩
      · simp only [fvalue_dup_mem_some p store fv hfv] at h
        obtain ⟨⟨added, hc⟩, ⟨fresh, hs⟩⟩ := ih _ _ h
        exact ⟨cell_grows_step _ _ _ _ hc, store_grows_step _ _ _ _ hs⟩

theorem only_appended_of_frame (stack : List (Option GPtrArray_mem)) (retval : df_cell_mem)
    (store : fvalue_store) (cell : df_cell_mem) (store1 : fvalue_store)
    (hc : ∃ added, cell = retval ++ added) (hs : ∃ fresh, store1 = store ++ fresh) :
    only_appended stack retval store cell store1 := by
  obtain ⟨fresh, hs⟩ := hs
  have hkeep : ∀ (p : fvalue_ptr) (v : fvalue_t), store[p]? = some v → store1[p]? = some v := by
    intro p v hv
    have hlt : p < store.length := by
      by_contra hge
      rw [List.getElem?_eq_none (Nat.le_of_not_lt hge)] at hv
      exact Option.noConfusion hv
    rw [hs, List.getElem?_append_left hlt]
    exact hv
  refine ⟨hc, hkeep, ?_⟩
  intro arg1 vals hmem hpt
  clear hmem
  unfold points_to at hpt ⊢
  induction arg1 generalizing vals with
  | nil => simpa using hpt
  | cons p ptrs ih =>
    cases vals with
    | nil => simp at hpt
    | cons v vals =>
      simp only [List.map_cons, List.cons.injEq] at hpt ⊢
      exact ⟨hkeep p v hpt.1, ih vals hpt.2⟩

theorem only_appended_refl (stack : List (Option GPtrArray_mem)) (retval : df_cell_mem)
    (store : fvalue_store) : only_appended stack retval store retval store :=
  only_appended_of_frame stack retval store retval store ⟨[], by simp⟩ ⟨[], by simp⟩

theorem string_walk_mem_appends (ws_assert_active : Bool) (ft_is_string : ftenum → Bool) (conv_func : gchar → gchar)
    (stack : List (Option GPtrArray_mem)) (arg_count : Nat) (retval : df_cell_mem)
    (store : fvalue_store) (b : Bool) (cell : df_cell_mem) (store1 : fvalue_store)
    (h : string_walk_mem ws_assert_active ft_is_string stack arg_count retval conv_func store
      = some (b, cell, store1)) :
    only_appended stack retval store cell store1 := by
  unfold string_walk_mem at h
  cases hws : ws_assert ws_assert_active (decide (arg_count = 1)) with
  | none => simp [hws] at h
  | some u =>
  simp only [hws] at h
  match stack, h with
  | none :: _, h =>
    simp only [Option.some.injEq, Prod.mk.injEq] at h
    rw [← h.2.1, ← h.2.2]
    exact only_appended_refl _ _ _
  | some arg1 :: _, h =>
    cases hl : string_walk_loop_mem ft_is_string conv_func arg1 retval store with
    | none => simp [hl] at h
    | some r =>
      obtain ⟨cell2, store2⟩ := r
      simp only [hl, Option.some.injEq, Prod.mk.injEq] at h
      rw [← h.2.1, ← h.2.2]
      obtain ⟨hc, hs⟩ := string_walk_loop_mem_frame ft_is_string conv_func arg1 retval store _ _ hl
      exact only_appended_of_frame _ _ _ _ _ hc hs

theorem df_func_compare_mem_appends (fv_cmp : fvalue_t → fvalue_t → Bool)
    (stack : List (Option GPtrArray_mem)) (arg_count : Nat) (retval : df_cell_mem)
    (store : fvalue_store) (b : Bool) (cell : df_cell_mem) (store1 : fvalue_store)
    (h : df_func_compare_mem stack arg_count retval fv_cmp store = some (b, cell, store1)) :
    only_appended stack retval store cell store1 := by
  unfold df_func_compare_mem at h
  cases hout : df_func_compare_outer_mem fv_cmp store arg_count stack none with
  | none => simp [hout] at h
  | some best =>
    cases best with
    | none =>
      simp only [hout, Option.some.injEq, Prod.mk.injEq] at h
      rw [← h.2.1, ← h.2.2]
      exact only_appended_refl _ _ _
    | some fv_ret =>
      simp only [hout] at h
      cases hfv : store[fv_ret]? with
      | none => simp [fvalue_dup_mem, hfv] at h
      | some fv =>
        simp only [fvalue_dup_mem_some fv_ret store fv hfv, Option.some.injEq,
          Prod.mk.injEq] at h
        rw [← h.2.1, ← h.2.2]
        exact only_appended_of_frame _ _ _ _ _ ⟨_, rfl⟩ ⟨_, rfl⟩

theorem points_to_nil (store : fvalue_store) (vals : GPtrArray) (h : points_to store [] vals) :
    vals = [] := by
  unfold points_to at h
  cases vals with
  | nil => rfl
  | cons v vals => simp at h

theorem points_to_cons (store : fvalue_store) (p : fvalue_ptr) (ptrs : GPtrArray_mem)
    (vals : GPtrArray) (h : points_to store (p :: ptrs) vals) :
    ∃ v rest, vals = v :: rest ∧ store[p]? = some v ∧ points_to store ptrs rest := by
  unfold points_to at h
  cases vals with
  | nil => simp at h
  | cons v rest =>
    simp only [List.map_cons, List.cons.injEq] at h
    exact ⟨v, rest, rfl, h.1, h.2⟩

theorem points_to_grows (store fresh : fvalue_store) (ptrs : GPtrArray_mem) (vals : GPtrArray)
    (h : points_to store ptrs vals) : points_to (store ++ fresh) ptrs vals :=
  (only_appended_of_frame [some ptrs] [] store [] (store ++ fresh) ⟨[], rfl⟩ ⟨fresh, rfl⟩).2.2
    ptrs vals (by simp) h

theorem read_cell_cons_fresh (store fresh : fvalue_store) (x : fvalue_t) (added : df_cell_mem) :
    read_cell (store ++ x :: fresh) (some store.length :: added)
      = some x :: read_cell (store ++ x :: fresh) added := by
  have hx : (store ++ x :: fresh)[store.length]? = some x := by
    rw [List.getElem?_append_right (Nat.le_refl _)]
    simp
  simp only [read_cell, List.map_cons]
  rw [show ((some store.length).bind fun p => (store ++ x :: fresh)[p]?) = some x from hx]

theorem string_walk_loop_mem_values (ft_is_string : ftenum → Bool) (conv_func : gchar → gchar)
    (ptrs : GPtrArray_mem) (vals : GPtrArray) (retval : df_cell_mem) (store : fvalue_store)
    (h : points_to store ptrs vals) :
    ∃ added fresh,
      string_walk_loop_mem ft_is_string conv_func ptrs retval store
        = some (retval ++ added, store ++ fresh) ∧
      read_cell (store ++ fresh) added = string_walk_loop ft_is_string conv_func vals [] := by
  induction ptrs generalizing vals retval store with
  | nil =>
    rw [points_to_nil store vals h]
    exact ⟨[], [], by simp [string_walk_loop_mem], by simp [read_cell, string_walk_loop]⟩
  | cons p ptrs ih =>
    obtain ⟨v, rest, rfl, hv, hrest⟩ := points_to_cons store p ptrs vals h
    unfold string_walk_loop_mem
    simp only [hv, fvalue_set_strbuf_mem, fvalue_new_write]
    by_cases hs : ft_is_string (fvalue_type_ftenum v) = true
    · obtain ⟨added, fresh, hrun, hread⟩ :=
        ih rest (df_cell_append_mem retval (some (fvalue_new_mem .FT_STRING store).1))
          (store ++ [fvalue_set_strbuf (fvalue_new .FT_STRING)
            (string_walk_conv conv_func (fvalue_get_strbuf v) [])])
          (points_to_grows store _ ptrs rest hrest)
      refine ⟨some store.length :: added,
        fvalue_set_strbuf (fvalue_new .FT_STRING)
          (string_walk_conv conv_func (fvalue_get_strbuf v) []) :: fresh, ?_, ?_⟩
      · rw [if_pos hs, hrun]
        simp [df_cell_append_mem, fvalue_new_mem]
      · rw [read_cell_cons_fresh]
        have hread2 : read_cell (store ++ fvalue_set_strbuf (fvalue_new .FT_STRING)
            (string_walk_conv conv_func (fvalue_get_strbuf v) []) :: fresh) added
            = string_walk_loop ft_is_string conv_func rest [] := by
          rw [← hread]; simp
        rw [hread2, string_walk_loop_eq, string_walk_loop_eq]
        have hs2 : ft_is_string v.ftype = true := hs
        simp [List.filter_cons, hs2, fvalue_set_strbuf, fvalue_new, string_walk_conv_eq]
    · obtain ⟨added, fresh, hrun, hread⟩ := ih rest retval store hrest
      refine ⟨added, fresh, ?_, ?_⟩
      · rw [if_neg hs, hrun]
      · rw [hread, string_walk_loop_eq, string_walk_loop_eq]
        have hs2 : ¬ ft_is_string v.ftype = true := hs
        simp [List.filter_cons, hs2]

theorem read_cell_append_fresh (store fresh : fvalue_store) (x : fvalue_t)
    (added : df_cell_mem) :
    read_cell (store ++ [x] ++ fresh) added = read_cell (store ++ x :: fresh) added := by
  simp

theorem df_func_string_loop_mem_values (to_string_repr : fvalue_t → Option (List gchar))
    (ptrs : GPtrArray_mem) (vals : GPtrArray) (retval : df_cell_mem) (store : fvalue_store)
    (h : points_to store ptrs vals) :
    ∃ added fresh,
      df_func_string_loop_mem to_string_repr ptrs retval store
        = some (retval ++ added, store ++ fresh) ∧
      read_cell (store ++ fresh) added = df_func_string_loop to_string_repr vals [] := by
  induction ptrs generalizing vals retval store with
  | nil =>
    rw [points_to_nil store vals h]
    exact ⟨[], [], by simp [df_func_string_loop_mem], by simp [read_cell, df_func_string_loop]⟩
  | cons p ptrs ih =>
    obtain ⟨v, rest, rfl, hv, hrest⟩ := points_to_cons store p ptrs vals h
    unfold df_func_string_loop_mem
    simp only [hv, fvalue_set_string_mem, fvalue_new_write]
    by_cases hs : df_func_string_case (fvalue_type_ftenum v) = true
    · obtain ⟨added, fresh, hrun, hread⟩ :=
        ih rest (df_cell_append_mem retval (some (fvalue_new_mem .FT_STRING store).1))
          (store ++ [fvalue_set_string (fvalue_new .FT_STRING)
            (match to_string_repr v with
              | some s => s
              | none => [])])
          (points_to_grows store _ ptrs rest hrest)
      refine ⟨some store.length :: added,
        fvalue_set_string (fvalue_new .FT_STRING)
          (match to_string_repr v with
            | some s => s
            | none => []) :: fresh, ?_, ?_⟩
      · rw [if_pos hs, hrun]
        simp [df_cell_append_mem, fvalue_new_mem]
      · rw [read_cell_cons_fresh, ← read_cell_append_fresh, hread, df_func_string_loop_eq,
          df_func_string_loop_eq]
        have hs2 : df_func_string_case v.ftype = true := hs
        cases hr : to_string_repr v <;>
          simp [List.takeWhile_cons, hs2, fvalue_set_string, fvalue_new, fv_string, hr]
    · refine ⟨[], [], ?_, ?_⟩
      · rw [if_neg hs]
        simp
      · rw [df_func_string_loop_eq]
        have hs2 : ¬ df_func_string_case v.ftype = true := hs
        simp [read_cell, List.takeWhile_cons, hs2]

theorem df_func_abs_loop_mem_values (isneg : fvalue_t → Bool) (um : fvalue_t → Option fvalue_t)
    (ptrs : GPtrArray_mem) (vals : GPtrArray) (retval : df_cell_mem) (store : fvalue_store)
    (h : points_to store ptrs vals) :
    ∃ added fresh,
      df_func_abs_loop_mem isneg um ptrs retval store
        = some (retval ++ added, store ++ fresh) ∧
      read_cell (store ++ fresh) added = df_func_abs_loop isneg um vals [] := by
  induction ptrs generalizing vals retval store with
  | nil =>
    rw [points_to_nil store vals h]
    exact ⟨[], [], by simp [df_func_abs_loop_mem], by simp [read_cell, df_func_abs_loop]⟩
  | cons p ptrs ih =>
    obtain ⟨v, rest, rfl, hv, hrest⟩ := points_to_cons store p ptrs vals h
    unfold df_func_abs_loop_mem
    simp only [hv, fvalue_unary_minus_mem, fvalue_dup_mem]
    by_cases hneg : isneg v = true
    · rw [if_pos hneg]
      cases hr : um v with
      | none =>
        obtain ⟨added, fresh, hrun, hread⟩ :=
          ih rest (df_cell_append_mem retval none) store hrest
        refine ⟨none :: added, fresh, ?_, ?_⟩
        · simp only [hrun]
          simp [df_cell_append_mem]
        · rw [df_func_abs_loop_eq] at hread ⊢
          simp only [List.nil_append] at hread
          simp [read_cell, hneg, hr, ← hread]
      | some r =>
        obtain ⟨added, fresh, hrun, hread⟩ :=
          ih rest (df_cell_append_mem retval (some store.length)) (store ++ [r])
            (points_to_grows store _ ptrs rest hrest)
        refine ⟨some store.length :: added, r :: fresh, ?_, ?_⟩
        · simp only [hrun]
          simp [df_cell_append_mem]
        · rw [read_cell_cons_fresh, ← read_cell_append_fresh, hread, df_func_abs_loop_eq,
            df_func_abs_loop_eq]
          simp [hneg, hr]
    · rw [if_neg hneg]
      obtain ⟨added, fresh, hrun, hread⟩ :=
        ih rest (df_cell_append_mem retval (some store.length)) (store ++ [fvalue_dup v])
          (points_to_grows store _ ptrs rest hrest)
      refine ⟨some store.length :: added, fvalue_dup v :: fresh, ?_, ?_⟩
      · simp only [hrun]
        simp [df_cell_append_mem]
      · rw [read_cell_cons_fresh, ← read_cell_append_fresh, hread, df_func_abs_loop_eq,
          df_func_abs_loop_eq]
        simp [hneg]

theorem df_func_compare_inner_mem_values (fv_cmp : fvalue_t → fvalue_t → Bool)
    (store : fvalue_store) (ptrs : GPtrArray_mem) (vals : GPtrArray)
    (best : Option fvalue_ptr) (bestv : Option fvalue_t)
    (hbest : reads_as store best bestv) (h : points_to store ptrs vals) :
    ∃ r, df_func_compare_inner_mem fv_cmp store ptrs best = some r ∧
      reads_as store r (df_func_compare_inner fv_cmp vals bestv) := by
  induction ptrs generalizing vals best bestv with
  | nil =>
    rw [points_to_nil store vals h]
    exact ⟨best, by simp [df_func_compare_inner_mem], by simpa [df_func_compare_inner] using hbest⟩
  | cons p ptrs ih =>
    obtain ⟨v, rest, rfl, hv, hrest⟩ := points_to_cons store p ptrs vals h
    match best, bestv, hbest with
    | none, none, _ =>
      obtain ⟨r, hrun, hread⟩ := ih rest (some p) (some v) hv hrest
      exact ⟨r, by simpa [df_func_compare_inner_mem] using hrun,
        by simpa [df_func_compare_inner] using hread⟩
    | some b, some bv, hb =>
      have hb2 : store[b]? = some bv := hb
      by_cases hc : fv_cmp v bv = true
      · obtain ⟨r, hrun, hread⟩ := ih rest (some p) (some v) hv hrest
        exact ⟨r, by simpa [df_func_compare_inner_mem, hv, hb2, hc] using hrun,
          by simpa [df_func_compare_inner, hc] using hread⟩
      · obtain ⟨r, hrun, hread⟩ := ih rest (some b) (some bv) hb hrest
        exact ⟨r, by simpa [df_func_compare_inner_mem, hv, hb2, hc] using hrun,
          by simpa [df_func_compare_inner, hc] using hread⟩

theorem df_func_compare_outer_mem_values (fv_cmp : fvalue_t → fvalue_t → Bool)
    (store : fvalue_store) (lists : List GPtrArray_mem) (vlists : List GPtrArray)
    (more : List (Option GPtrArray_mem)) (vmore : List (Option GPtrArray))
    (best : Option fvalue_ptr) (bestv : Option fvalue_t)
    (hbest : reads_as store best bestv) (h : List.Forall₂ (points_to store) lists vlists) :
    ∃ r rv, df_func_compare_outer_mem fv_cmp store lists.length (lists.map some ++ more) best
        = some r ∧
      df_func_compare_outer fv_cmp vlists.length (vlists.map some ++ vmore) bestv = some rv ∧
      reads_as store r rv := by
  induction h generalizing best bestv with
  | nil => exact ⟨best, bestv, by simp [df_func_compare_outer_mem],
      by simp [df_func_compare_outer], hbest⟩
  | @cons ptrs vals lists vlists hpt _ ih =>
    obtain ⟨r1, hrun1, hread1⟩ :=
      df_func_compare_inner_mem_values fv_cmp store ptrs vals best bestv hbest hpt
    obtain ⟨r, rv, hrun, hpure, hread⟩ := ih r1 _ hread1
    exact ⟨r, rv, by simpa [df_func_compare_outer_mem, hrun1] using hrun,
      by simpa [df_func_compare_outer] using hpure, hread⟩

theorem string_walk_mem_values (ws_assert_active : Bool) (ft_is_string : ftenum → Bool) (conv_func : gchar → gchar)
    (ptrs : GPtrArray_mem) (vals : GPtrArray) (rest : List (Option GPtrArray_mem))
    (vrest : List (Option GPtrArray)) (retval : df_cell_mem) (vretval : df_cell_t)
    (store : fvalue_store) (h : points_to store ptrs vals) :
    ∃ added fresh,
      string_walk_mem ws_assert_active ft_is_string (some ptrs :: rest) 1 retval conv_func store
        = some (true, retval ++ added, store ++ fresh) ∧
      string_walk ft_is_string (some vals :: vrest) 1 vretval conv_func
        = some (true, vretval ++ read_cell (store ++ fresh) added) := by
  obtain ⟨added, fresh, hrun, hread⟩ :=
    string_walk_loop_mem_values ft_is_string conv_func ptrs vals retval store h
  refine ⟨added, fresh, by simp [string_walk_mem, ws_assert_true, hrun], ?_⟩
  rw [hread, string_walk_eq, string_walk_loop_eq]
  simp

/-- The evaluators on the store agree with the evaluators on values: on a stack whose
parameter lists point to values, a call on the store returns, it returns the boolean that the
call on the values returns, and the entries it appends read, through the store on return, as
the entries that the call on the values appends. -/
theorem evaluators_mem_values (ws_assert_active : Bool) (ft_is_string : ftenum → Bool)
    (to_string_repr : fvalue_t → Option (List gchar)) (isneg : fvalue_t → Bool)
    (um : fvalue_t → Option fvalue_t) (gt lt : fvalue_t → fvalue_t → Bool)
    (ptrs : GPtrArray_mem) (vals : GPtrArray) (rest : List (Option GPtrArray_mem))
    (vrest : List (Option GPtrArray)) (lists : List GPtrArray_mem) (vlists : List GPtrArray)
    (more : List (Option GPtrArray_mem)) (vmore : List (Option GPtrArray))
    (retval : df_cell_mem) (vretval : df_cell_t) (store : fvalue_store)
    (h : points_to store ptrs vals) (hlists : List.Forall₂ (points_to store) lists vlists)
    (hcell : retval.length = vretval.length) :
    (∃ added fresh,
      df_func_lower_mem ws_assert_active ft_is_string (some ptrs :: rest) 1 retval store
        = some (true, retval ++ added, store ++ fresh) ∧
      df_func_lower ft_is_string (some vals :: vrest) 1 vretval
        = some (true, vretval ++ read_cell (store ++ fresh) added)) ∧
    (∃ added fresh,
      df_func_upper_mem ws_assert_active ft_is_string (some ptrs :: rest) 1 retval store
        = some (true, retval ++ added, store ++ fresh) ∧
      df_func_upper ft_is_string (some vals :: vrest) 1 vretval
        = some (true, vretval ++ read_cell (store ++ fresh) added)) ∧
    (∃ added fresh,
      df_func_count_mem ws_assert_active (some ptrs :: rest) 1 retval store
        = some (true, retval ++ added, store ++ fresh) ∧
      df_func_count (some vals :: vrest) 1 vretval
        = some (true, vretval ++ read_cell (store ++ fresh) added)) ∧
    (∃ added fresh,
      df_func_string_mem ws_assert_active to_string_repr (some ptrs :: rest) 1 retval store
        = some (true, retval ++ added, store ++ fresh) ∧
      df_func_string to_string_repr (some vals :: vrest) 1 vretval
        = some (true, vretval ++ read_cell (store ++ fresh) added)) ∧
    (∃ b added fresh,
      df_func_max_mem gt (lists.map some ++ more) lists.length retval store
        = some (b, retval ++ added, store ++ fresh) ∧
      df_func_max gt (vlists.map some ++ vmore) vlists.length vretval
        = some (b, vretval ++ read_cell (store ++ fresh) added)) ∧
    (∃ b added fresh,
      df_func_min_mem lt (lists.map some ++ more) lists.length retval store
        = some (b, retval ++ added, store ++ fresh) ∧
      df_func_min lt (vlists.map some ++ vmore) vlists.length vretval
        = some (b, vretval ++ read_cell (store ++ fresh) added)) ∧
    (∃ b added fresh,
      df_func_abs_mem ws_assert_active isneg um (some ptrs :: rest) 1 retval store
        = some (b, retval ++ added, store ++ fresh) ∧
      df_func_abs isneg um (some vals :: vrest) 1 vretval
        = some (b, vretval ++ read_cell (store ++ fresh) added)) := by
  have hcmp : ∀ cmp : fvalue_t → fvalue_t → Bool, ∃ b added fresh,
      df_func_compare_mem (lists.map some ++ more) lists.length retval cmp store
        = some (b, retval ++ added, store ++ fresh) ∧
      df_func_compare (vlists.map some ++ vmore) vlists.length vretval cmp
        = some (b, vretval ++ read_cell (store ++ fresh) added) := by
    intro cmp
    obtain ⟨r, rv, hrun, hpure, hread⟩ :=
      df_func_compare_outer_mem_values cmp store lists vlists more vmore none none trivial hlists
    match r, rv, hread with
    | none, none, _ =>
      exact ⟨false, [], [], by simp [df_func_compare_mem, hrun],
        by simp [df_func_compare, hpure, read_cell]⟩
    | some p, some v, hp =>
      have hp2 : store[p]? = some v := hp
      refine ⟨true, [some store.length], [fvalue_dup v], ?_, ?_⟩
      · simp [df_func_compare_mem, hrun, fvalue_dup_mem, hp2, df_cell_append_mem]
      · rw [read_cell_cons_fresh]
        simp [df_func_compare, hpure, df_cell_append, read_cell]
  refine ⟨?_, ?_, ?_, ?_, hcmp gt, hcmp lt, ?_⟩
  · exact string_walk_mem_values ws_assert_active ft_is_string g_ascii_tolower ptrs vals rest vrest retval vretval
      store h
  · exact string_walk_mem_values ws_assert_active ft_is_string g_ascii_toupper ptrs vals rest vrest retval vretval
      store h
  · have hlen : ptrs.length = vals.length := by
      have := congrArg List.length h
      simpa using this
    refine ⟨[some store.length],
      [fvalue_set_uinteger (fvalue_new .FT_UINT32) (ptrs.length % 2 ^ 32)], ?_, ?_⟩
    · unfold df_func_count_mem
      simp only [fvalue_set_uinteger_mem, fvalue_new_write]
      simp [df_cell_append_mem, fvalue_new_mem, ws_assert_true]
    · rw [read_cell_cons_fresh, df_func_count_some, hlen]
      simp [df_cell_append, read_cell]
  · obtain ⟨added, fresh, hrun, hread⟩ :=
      df_func_string_loop_mem_values to_string_repr ptrs vals retval store h
    refine ⟨added, fresh, by simp [df_func_string_mem, ws_assert_true, hrun], ?_⟩
    rw [hread, df_func_string_some, df_func_string_loop_eq, df_func_string_loop_eq]
    simp
  · obtain ⟨added, fresh, hrun, hread⟩ :=
      df_func_abs_loop_mem_values isneg um ptrs vals retval store h
    refine ⟨!df_cell_is_empty_mem (retval ++ added), added, fresh,
      by simp [df_func_abs_mem, ws_assert_true, hrun], ?_⟩
    rw [hread, df_func_abs_some, df_func_abs_loop_eq, df_func_abs_loop_eq]
    have hlen2 : added.length = vals.length := by
      have := congrArg List.length hread
      rw [df_func_abs_loop_eq] at this
      simpa [read_cell] using this
    have hempty : df_cell_is_empty_mem (retval ++ added)
        = df_cell_is_empty (vretval ++
          List.map (fun v => if isneg v = true then um v else some (fvalue_dup v)) vals) := by
      cases retval with
      | nil =>
        cases vretval with
        | nil =>
          cases added with
          | nil =>
            cases vals with
            | nil => rfl
            | cons _ _ => simp at hlen2
          | cons _ _ =>
            cases vals with
            | nil => simp at hlen2
            | cons _ _ => rfl
        | cons _ _ => simp at hcell
      | cons _ _ =>
        cases vretval with
        | nil => simp at hcell
        | cons _ _ => rfl
    simp [hempty]

/-- C29: every built-in evaluator only appends to its output cell and does not modify the
values of the parameter lists. With the field values held in a store, in a build with
assertions or without: whenever a call of `lower`, `upper`, `count`, `string`, `max`, `min` or
`abs` returns, the cell on return is the cell on entry followed by zero or more new entries;
every value that the store held on entry, the values of the parameter lists and of the cell
among them, is held unchanged at the same address on return; and every parameter list of the
stack points on return to the values it pointed to on entry. Such calls do return: a call of a
one-parameter evaluator with `arg_count` 1 on a stack whose first list points to values, and a
call of `max` or `min` on a stack whose first `arg_count` lists point to values. -/
theorem evaluators_only_append (ws_assert_active : Bool) (ft_is_string : ftenum → Bool)
    (to_string_repr : fvalue_t → Option (List gchar)) (isneg : fvalue_t → Bool)
    (um : fvalue_t → Option fvalue_t) (gt lt : fvalue_t → fvalue_t → Bool)
    (stack : List (Option GPtrArray_mem)) (arg_count : Nat) (retval : df_cell_mem)
    (store : fvalue_store) :
    (∀ b cell store1,
      df_func_lower_mem ws_assert_active ft_is_string stack arg_count retval store
        = some (b, cell, store1) →
      only_appended stack retval store cell store1) ∧
    (∀ b cell store1,
      df_func_upper_mem ws_assert_active ft_is_string stack arg_count retval store
        = some (b, cell, store1) →
      only_appended stack retval store cell store1) ∧
    (∀ b cell store1,
      df_func_count_mem ws_assert_active stack arg_count retval store
        = some (b, cell, store1) →
      only_appended stack retval store cell store1) ∧
    (∀ b cell store1,
      df_func_string_mem ws_assert_active to_string_repr stack arg_count retval store
        = some (b, cell, store1) →
      only_appended stack retval store cell store1) ∧
    (∀ b cell store1,
      df_func_max_mem gt stack arg_count retval store = some (b, cell, store1) →
      only_appended stack retval store cell store1) ∧
    (∀ b cell store1,
      df_func_min_mem lt stack arg_count retval store = some (b, cell, store1) →
      only_appended stack retval store cell store1) ∧
    (∀ b cell store1,
      df_func_abs_mem ws_assert_active isneg um stack arg_count retval store
        = some (b, cell, store1) →
      only_appended stack retval store cell store1) ∧
    (∀ (ptrs : GPtrArray_mem) (vals : GPtrArray) (rest : List (Option GPtrArray_mem)),
      stack = some ptrs :: rest → arg_count = 1 → points_to store ptrs vals →
      (∃ r, df_func_lower_mem ws_assert_active ft_is_string stack arg_count retval store
        = some r) ∧
      (∃ r, df_func_upper_mem ws_assert_active ft_is_string stack arg_count retval store
        = some r) ∧
      (∃ r, df_func_count_mem ws_assert_active stack arg_count retval store = some r) ∧
      (∃ r, df_func_string_mem ws_assert_active to_string_repr stack arg_count retval store
        = some r) ∧
      (∃ r, df_func_abs_mem ws_assert_active isneg um stack arg_count retval store = some r)) ∧
    (∀ (lists : List GPtrArray_mem) (vlists : List GPtrArray)
      (more : List (Option GPtrArray_mem)),
      stack = lists.map some ++ more → arg_count = lists.length →
      List.Forall₂ (points_to store) lists vlists →
      (∃ r, df_func_max_mem gt stack arg_count retval store = some r) ∧
      (∃ r, df_func_min_mem lt stack arg_count retval store = some r)) := by
  refine ⟨?_, ?_, ?_, ?_, ?_, ?_, ?_, ?_, ?_⟩
  · intro b cell store1 h
    exact string_walk_mem_appends ws_assert_active ft_is_string g_ascii_tolower stack arg_count retval store
      b cell store1 h
  · intro b cell store1 h
    exact string_walk_mem_appends ws_assert_active ft_is_string g_ascii_toupper stack arg_count retval store
      b cell store1 h
  · intro b cell store1 h
    unfold df_func_count_mem at h
    cases hws : ws_assert ws_assert_active (decide (arg_count = 1)) with
    | none => simp [hws] at h
    | some u =>
    simp only [hws] at h
    match stack, h with
    | none :: _, h =>
      simp only [Option.some.injEq, Prod.mk.injEq] at h
      rw [← h.2.1, ← h.2.2]
      exact only_appended_refl _ _ _
    | some arg1 :: _, h =>
      simp only [fvalue_set_uinteger_mem, fvalue_new_write, Option.some.injEq,
        Prod.mk.injEq] at h
      rw [← h.2.1, ← h.2.2]
      exact only_appended_of_frame _ _ _ _ _ ⟨_, rfl⟩ ⟨_, rfl⟩
  · intro b cell store1 h
    unfold df_func_string_mem at h
    cases hws : ws_assert ws_assert_active (decide (arg_count = 1)) with
    | none => simp [hws] at h
    | some u =>
    simp only [hws] at h
    match stack, h with
    | none :: _, h =>
      simp only [Option.some.injEq, Prod.mk.injEq] at h
      rw [← h.2.1, ← h.2.2]
      exact only_appended_refl _ _ _
    | some arg1 :: _, h =>
      cases hl : df_func_string_loop_mem to_string_repr arg1 retval store with
      | none => simp [hl] at h
      | some r =>
        obtain ⟨cell2, store2⟩ := r
        simp only [hl, Option.some.injEq, Prod.mk.injEq] at h
        rw [← h.2.1, ← h.2.2]
        obtain ⟨hc, hs⟩ := df_func_string_loop_mem_frame to_string_repr arg1 retval store _ _ hl
        exact only_appended_of_frame _ _ _ _ _ hc hs
  · intro b cell store1 h
    exact df_func_compare_mem_appends gt stack arg_count retval store b cell store1 h
  · intro b cell store1 h
    exact df_func_compare_mem_appends lt stack arg_count retval store b cell store1 h
  · intro b cell store1 h
    unfold df_func_abs_mem at h
    cases hws : ws_assert ws_assert_active (decide (arg_count = 1)) with
    | none => simp [hws] at h
    | some u =>
    simp only [hws] at h
    match stack, h with
    | none :: _, h =>
      simp only [Option.some.injEq, Prod.mk.injEq] at h
      rw [← h.2.1, ← h.2.2]
      exact only_appended_refl _ _ _
    | some arg1 :: _, h =>
      cases hl : df_func_abs_loop_mem isneg um arg1 retval store with
      | none => simp [hl] at h
      | some r =>
        obtain ⟨cell2, store2⟩ := r
        simp only [hl, Option.some.injEq, Prod.mk.injEq] at h
        rw [← h.2.1, ← h.2.2]
        obtain ⟨hc, hs⟩ := df_func_abs_loop_mem_frame isneg um arg1 retval store _ _ hl
        exact only_appended_of_frame _ _ _ _ _ hc hs
  · intro ptrs vals rest hstack hcount hpt
    subst hstack hcount
    obtain ⟨h1, h2, h3, h4, _, _, h7⟩ :=
      evaluators_mem_values ws_assert_active ft_is_string to_string_repr isneg um gt lt ptrs vals
        rest [] [] [] [] [] retval (retval.map (fun _ => none)) store hpt List.Forall₂.nil
        (by simp)
    obtain ⟨_, _, h1, _⟩ := h1
    obtain ⟨_, _, h2, _⟩ := h2
    obtain ⟨_, _, h3, _⟩ := h3
    obtain ⟨_, _, h4, _⟩ := h4
    obtain ⟨_, _, _, h7, _⟩ := h7
    exact ⟨⟨_, h1⟩, ⟨_, h2⟩, ⟨_, h3⟩, ⟨_, h4⟩, ⟨_, h7⟩⟩
  · intro lists vlists more hstack hcount hpt
    subst hstack hcount
    obtain ⟨_, _, _, _, h5, h6, _⟩ :=
      evaluators_mem_values ws_assert_active ft_is_string to_string_repr isneg um gt lt [] []
        [] [] lists vlists more [] retval (retval.map (fun _ => none)) store
        (by simp [points_to]) hpt (by simp)
    obtain ⟨_, _, _, h5, _⟩ := h5
    obtain ⟨_, _, _, h6, _⟩ := h6
    exact ⟨⟨_, h5⟩, ⟨_, h6⟩⟩

/-- C29 on a store that holds the value 1 and the string "ab", with a cell that holds the
address of the value 1: `upper` on the list of the address of "ab" appends the address of the
new string "AB" and leaves the two values in place; `max` on the list of both addresses
appends the address of a copy. -/
theorem evaluators_only_append_witness :
    df_func_upper_mem true FT_IS_STRING [some [1]] 1 [some 0]
        [fv_uint .FT_UINT8 1, fv_string (ascii "ab")]
      = some (true, [some 0, some 2],
          [fv_uint .FT_UINT8 1, fv_string (ascii "ab"), fv_string (ascii "AB")]) ∧
    only_appended [some [1]] [some 0] [fv_uint .FT_UINT8 1, fv_string (ascii "ab")]
      [some 0, some 2] [fv_uint .FT_UINT8 1, fv_string (ascii "ab"), fv_string (ascii "AB")] ∧
    df_func_max_mem fvalue_gt [some [0, 1]] 1 [some 0]
        [fv_uint .FT_UINT8 1, fv_uint .FT_UINT8 5]
      = some (true, [some 0, some 2],
          [fv_uint .FT_UINT8 1, fv_uint .FT_UINT8 5, fv_uint .FT_UINT8 5]) ∧
    only_appended [some [0, 1]] [some 0] [fv_uint .FT_UINT8 1, fv_uint .FT_UINT8 5]
      [some 0, some 2] [fv_uint .FT_UINT8 1, fv_uint .FT_UINT8 5, fv_uint .FT_UINT8 5] :=
  ⟨by decide,
   (evaluators_only_append true FT_IS_STRING (fun _ => none) fvalue_is_negative fvalue_unary_minus
      fvalue_gt fvalue_lt [some [1]] 1 [some 0] [fv_uint .FT_UINT8 1, fv_string (ascii "ab")]).2.1
      true _ _ (by decide),
   by decide,
   (evaluators_only_append true FT_IS_STRING (fun _ => none) fvalue_is_negative fvalue_unary_minus
      fvalue_gt fvalue_lt [some [0, 1]] 1 [some 0]
      [fv_uint .FT_UINT8 1, fv_uint .FT_UINT8 5]).2.2.2.2.1 true _ _ (by decide)⟩

/-! ## Theorems: registration undone -/

/-- C30: for every state of the registry and every definition whose name is not bound in the
extension map, `df_func_register` followed by `df_func_deregister` of that definition both
return true and leave the extension map, and so the result of `df_func_lookup` for every name,
exactly as before the two calls. -/
theorem register_deregister_restores (mem : plugin_memory) (table : GHashTable)
    (func : df_func_ptr) (h : table (df_func_name mem func) = none) :
    ∃ table1 table2,
      df_func_register mem (some table) func = some (true, some table1) ∧
      df_func_deregister mem (some table1) func = some (true, some table2) ∧
      table2 = table ∧
      ∀ name, df_func_lookup (some table2) name = df_func_lookup (some table) name := by
  have hb : (fun k => if k = df_func_name mem func then some func else table k)
      (df_func_name mem func) = some func := by simp
  have hrestore : (fun k => if k = df_func_name mem func then none
      else (fun k => if k = df_func_name mem func then some func else table k) k) = table := by
    funext k
    by_cases hk : k = df_func_name mem func
    · simp only [hk, if_true]
      exact h.symm
    · simp only [hk, if_false]
  refine ⟨_, _, df_func_register_unbound mem table func h,
    df_func_deregister_same mem _ func hb, hrestore, ?_⟩
  intro name
  rw [hrestore]

/-- C30 on the extension record "plugin_fn" and a map that binds "lower": both calls return
true and the binding of "lower" is as before. -/
theorem register_deregister_restores_witness :
    (fun k => if k = "lower" then some (df_func_ptr.plugin 0) else none)
      (df_func_name sample_memory (.plugin 7)) = none ∧
    ∃ table1 table2,
      df_func_register sample_memory
          (some (fun k => if k = "lower" then some (df_func_ptr.plugin 0) else none)) (.plugin 7)
        = some (true, some table1) ∧
      df_func_deregister sample_memory (some table1) (.plugin 7) = some (true, some table2) ∧
      table2 = (fun k => if k = "lower" then some (df_func_ptr.plugin 0) else none) ∧
      ∀ name, df_func_lookup (some table2) name
        = df_func_lookup
            (some (fun k => if k = "lower" then some (df_func_ptr.plugin 0) else none)) name :=
  ⟨by decide,
   register_deregister_restores sample_memory
     (fun k => if k = "lower" then some (df_func_ptr.plugin 0) else none) (.plugin 7)
     (by decide)⟩

/-! ## Theorems: the I-TDM dissector -/

theorem tvb_read_run_ok (tvb : tvbuff_t) (offset length : Nat) (log : read_log)
    (h : offset + length ≤ tvb.length) :
    (tvb_read tvb offset length).run log
      = .ok (tvb_ntoh tvb offset length, log ++ [(offset, length)]) := by
  simp [tvb_read, StateT.run, h]

theorem tvb_read_run_error (tvb : tvbuff_t) (offset length : Nat) (log : read_log)
    (h : tvb.length < offset + length) :
    (tvb_read tvb offset length).run log = .error ⟨offset, length⟩ := by
  have h2 : ¬ offset + length ≤ tvb.length := by omega
  simp [tvb_read, StateT.run, h2]

theorem tvb_new_subset_remaining_run_ok (tvb : tvbuff_t) (offset : Nat) (log : read_log)
    (h : offset ≤ tvb.length) :
    (tvb_new_subset_remaining tvb offset).run log = .ok (tvb.drop offset, log) := by
  simp [tvb_new_subset_remaining, StateT.run, h]

theorem except_ok_bind {ε α β : Type} (a : α) (f : α → Except ε β) :
    (Except.ok a >>= f) = f a := rfl

theorem except_error_bind {ε α β : Type} (e : ε) (f : α → Except ε β) :
    (Except.error e >>= f) = Except.error e := rfl

theorem except_pure_eq {ε α : Type} (a : α) : (pure a : Except ε α) = Except.ok a := rfl

theorem dissect_pure_run {α : Type} (a : α) (log : read_log) :
    (pure a : dissect_m α).run log = .ok (a, log) := rfl

theorem dissect_itdm_125usec_tree_reads (tvb : tvbuff_t) (chcmd : Nat) (log : read_log)
    (h : 18 ≤ tvb.length) :
    ∃ added, (dissect_itdm_125usec_tree tvb chcmd).run log = .ok (18, log ++ added) ∧
      ∀ p ∈ added, p.1 + p.2 ≤ tvb.length := by
  have h2 : 2 ≤ tvb.length := by omega
  have h3 : 3 ≤ tvb.length := by omega
  have h4 : 4 ≤ tvb.length := by omega
  have h5 : 5 ≤ tvb.length := by omega
  have h7 : 7 ≤ tvb.length := by omega
  have h10 : 10 ≤ tvb.length := by omega
  have h11 : 11 ≤ tvb.length := by omega
  have h14 : 14 ≤ tvb.length := by omega
  have h16 : 16 ≤ tvb.length := by omega
  unfold dissect_itdm_125usec_tree
  simp only [proto_tree_add_item, proto_tree_add_item_to_end, proto_tree_add_checksum]
  split_ifs <;>
    simp [StateT.run_bind, tvb_read_run_ok, except_ok_bind, dissect_pure_run, h, h2, h3, h4, h5,
      h7, h10, h11, h14, h16]
  all_goals (intro a b hab; omega)

theorem dissect_itdm_125usec_columns_reads (tvb : tvbuff_t) (log : read_log)
    (h : 18 ≤ tvb.length) :
    ∃ added, (dissect_itdm_125usec_columns tvb).run log
        = .ok (tvb_ntoh tvb 10 1 % 16, log ++ added) ∧
      ∀ p ∈ added, p.1 + p.2 ≤ tvb.length := by
  have h10 : 10 ≤ tvb.length := by omega
  have h11 : 11 ≤ tvb.length := by omega
  have h14 : 14 ≤ tvb.length := by omega
  have h16 : 16 ≤ tvb.length := by omega
  unfold dissect_itdm_125usec_columns
  simp only [tvb_get_ntoh24, tvb_get_uint8, tvb_get_ntohs, ITDM_FLOWID_OFFSET,
    ITDM_CHANID_OFFSET, ITDM_CHCMD_OFFSET, ITDM_CHLOC1_OFFSET, ITDM_CHLOC2_OFFSET]
  simp only [StateT.run_bind, tvb_read_run_ok, except_ok_bind, Nat.reduceAdd, h, h10, h11, h14,
    h16]
  split_ifs <;>
    simp [StateT.run_bind, tvb_read_run_ok, except_ok_bind, except_pure_eq, dissect_pure_run, h,
      h10, h11, h14, h16]
  all_goals (intro a b hab; omega)

theorem dissect_itdm_125usec_reads (tvb : tvbuff_t) (tree : Bool) (log : read_log)
    (h : 18 ≤ tvb.length) :
    ∃ added, (dissect_itdm_125usec tvb tree).run log = .ok ((), log ++ added) ∧
      ∀ p ∈ added, p.1 + p.2 ≤ tvb.length := by
  obtain ⟨a1, hrun1, hin1⟩ := dissect_itdm_125usec_columns_reads tvb log h
  unfold dissect_itdm_125usec
  cases tree with
  | false =>
    refine ⟨a1, ?_, hin1⟩
    simp [StateT.run_bind, hrun1, except_ok_bind, dissect_pure_run,
      tvb_new_subset_remaining_run_ok]
  | true =>
    obtain ⟨a2, hrun2, hin2⟩ :=
      dissect_itdm_125usec_tree_reads tvb (tvb_ntoh tvb 10 1 % 16) (log ++ a1) h
    refine ⟨a1 ++ a2, ?_, ?_⟩
    · simp [StateT.run_bind, hrun1, hrun2, except_ok_bind, tvb_new_subset_remaining_run_ok, h]
    · intro p hp
      rcases List.mem_append.mp hp with hp | hp
      · exact hin1 p hp
      · exact hin2 p hp

theorem dissect_itdm_control_columns_reads (tvb : tvbuff_t) (log : read_log)
    (h : 30 ≤ tvb.length) :
    ∃ added, (dissect_itdm_control_columns tvb).run log
        = .ok (tvb_ntoh tvb 14 1, log ++ added) ∧
      ∀ p ∈ added, p.1 + p.2 ≤ tvb.length := by
  have h10 : 10 ≤ tvb.length := by omega
  have h14 : 14 ≤ tvb.length := by omega
  have h15 : 15 ≤ tvb.length := by omega
  have h18 : 18 ≤ tvb.length := by omega
  unfold dissect_itdm_control_columns
  simp only [tvb_get_ntoh24, tvb_get_uint8, tvb_get_ntohl, ITDM_FLOWID_OFFSET,
    ITDM_CTL_CMD_OFFSET, ITDM_CTL_FLOWID_OFFSET, ITDM_CTL_TRANSID_OFFSET,
    ITDM_CTL_PAIRED_TRANSID_OFFSET]
  simp [StateT.run_bind, tvb_read_run_ok, except_ok_bind, except_pure_eq, dissect_pure_run, h,
    h10, h14, h15, h18]
  intro a b hab
  omega

theorem dissect_itdm_control_columns_short (tvb : tvbuff_t) (log : read_log)
    (h : 18 ≤ tvb.length) (hshort : tvb.length < 30) :
    (dissect_itdm_control_columns tvb).run log = .error ⟨26, 4⟩ := by
  have h10 : 10 ≤ tvb.length := by omega
  have h14 : 14 ≤ tvb.length := by omega
  have h15 : 15 ≤ tvb.length := by omega
  unfold dissect_itdm_control_columns
  simp only [tvb_get_ntoh24, tvb_get_uint8, tvb_get_ntohl, ITDM_FLOWID_OFFSET,
    ITDM_CTL_CMD_OFFSET, ITDM_CTL_FLOWID_OFFSET, ITDM_CTL_TRANSID_OFFSET,
    ITDM_CTL_PAIRED_TRANSID_OFFSET]
  simp [StateT.run_bind, tvb_read_run_ok, tvb_read_run_error, except_ok_bind, except_error_bind,
    h, h10, h14, h15, hshort]

theorem dissect_itdm_control_tree_reads (tvb : tvbuff_t) (command : Nat) (log : read_log)
    (h : 34 ≤ tvb.length) :
    ∃ added, (dissect_itdm_control_tree tvb command).run log = .ok (34, log ++ added) ∧
      ∀ p ∈ added, p.1 + p.2 ≤ tvb.length := by
  have h2 : 2 ≤ tvb.length := by omega
  have h3 : 3 ≤ tvb.length := by omega
  have h4 : 4 ≤ tvb.length := by omega
  have h5 : 5 ≤ tvb.length := by omega
  have h7 : 7 ≤ tvb.length := by omega
  have h10 : 10 ≤ tvb.length := by omega
  have h14 : 14 ≤ tvb.length := by omega
  have h15 : 15 ≤ tvb.length := by omega
  have h18 : 18 ≤ tvb.length := by omega
  have h19 : 19 ≤ tvb.length := by omega
  have h22 : 22 ≤ tvb.length := by omega
  have h26 : 26 ≤ tvb.length := by omega
  have h30 : 30 ≤ tvb.length := by omega
  unfold dissect_itdm_control_tree
  simp only [proto_tree_add_item, proto_tree_add_item_to_end, proto_tree_add_checksum]
  split_ifs <;>
    simp [StateT.run_bind, tvb_read_run_ok, except_ok_bind, except_pure_eq, dissect_pure_run, h,
      h2, h3, h4, h5, h7, h10, h14, h15, h18, h19, h22, h26, h30]
  all_goals (intro a b hab; omega)

theorem dissect_itdm_control_tree_short (tvb : tvbuff_t) (command : Nat) (log : read_log)
    (h : 30 ≤ tvb.length) (hshort : tvb.length < 34) :
    (dissect_itdm_control_tree tvb command).run log = .error ⟨32, 2⟩ := by
  have h2 : 2 ≤ tvb.length := by omega
  have h3 : 3 ≤ tvb.length := by omega
  have h4 : 4 ≤ tvb.length := by omega
  have h5 : 5 ≤ tvb.length := by omega
  have h7 : 7 ≤ tvb.length := by omega
  have h10 : 10 ≤ tvb.length := by omega
  have h14 : 14 ≤ tvb.length := by omega
  have h15 : 15 ≤ tvb.length := by omega
  have h18 : 18 ≤ tvb.length := by omega
  have h19 : 19 ≤ tvb.length := by omega
  have h22 : 22 ≤ tvb.length := by omega
  have h26 : 26 ≤ tvb.length := by omega
  unfold dissect_itdm_control_tree
  simp only [proto_tree_add_item, proto_tree_add_item_to_end, proto_tree_add_checksum]
  split_ifs <;>
    simp [StateT.run_bind, tvb_read_run_ok, tvb_read_run_error, except_ok_bind,
      except_error_bind, except_pure_eq, dissect_pure_run, h, h2, h3, h4, h5, h7, h10, h14, h15,
      h18, h19, h22, h26, hshort]

theorem dissect_itdm_control_reads (tvb : tvbuff_t) (tree : Bool) (log : read_log)
    (h : (if tree then 34 else 30) ≤ tvb.length) :
    ∃ added, (dissect_itdm_control tvb tree).run log = .ok ((), log ++ added) ∧
      ∀ p ∈ added, p.1 + p.2 ≤ tvb.length := by
  have h30 : 30 ≤ tvb.length := by
    cases tree <;> simp at h <;> omega
  obtain ⟨a1, hrun1, hin1⟩ := dissect_itdm_control_columns_reads tvb log h30
  unfold dissect_itdm_control
  cases tree with
  | false =>
    refine ⟨a1, ?_, hin1⟩
    simp [StateT.run_bind, hrun1, except_ok_bind, dissect_pure_run,
      tvb_new_subset_remaining_run_ok]
  | true =>
    have h34 : 34 ≤ tvb.length := by simpa using h
    obtain ⟨a2, hrun2, hin2⟩ :=
      dissect_itdm_control_tree_reads tvb (tvb_ntoh tvb 14 1) (log ++ a1) h34
    refine ⟨a1 ++ a2, ?_, ?_⟩
    · simp [StateT.run_bind, hrun1, hrun2, except_ok_bind, tvb_new_subset_remaining_run_ok, h34]
    · intro p hp
      rcases List.mem_append.mp hp with hp | hp
      · exact hin1 p hp
      · exact hin2 p hp

theorem dissect_itdm_control_short (tvb : tvbuff_t) (tree : Bool) (log : read_log)
    (h : 18 ≤ tvb.length) (hshort : tvb.length < 30) :
    (dissect_itdm_control tvb tree).run log = .error ⟨26, 4⟩ := by
  unfold dissect_itdm_control
  simp [StateT.run_bind, dissect_itdm_control_columns_short tvb log h hshort, except_error_bind]

theorem dissect_itdm_control_tree_cut (tvb : tvbuff_t) (log : read_log)
    (h : 30 ≤ tvb.length) (hshort : tvb.length < 34) :
    (dissect_itdm_control tvb true).run log = .error ⟨32, 2⟩ := by
  obtain ⟨a1, hrun1, _⟩ := dissect_itdm_control_columns_reads tvb log h
  unfold dissect_itdm_control
  simp [StateT.run_bind, hrun1, except_ok_bind, except_error_bind,
    dissect_itdm_control_tree_short tvb (tvb_ntoh tvb 14 1) (log ++ a1) h hshort]

theorem dissect_itdm_run_short (ctl : Nat) (tvb : tvbuff_t) (tree : Bool) (log : read_log)
    (h : tvb.length < 18) :
    (dissect_itdm ctl tvb tree).run log = .ok (0, log) := by
  unfold dissect_itdm
  simp [tvb_captured_length, h, dissect_pure_run, except_pure_eq]

theorem dissect_itdm_run_long (ctl : Nat) (tvb : tvbuff_t) (tree : Bool) (log : read_log)
    (h : 18 ≤ tvb.length) :
    (dissect_itdm ctl tvb tree).run log =
      ((if tvb_ntoh tvb 7 3 = ctl then dissect_itdm_control tvb tree
          else dissect_itdm_125usec tvb tree).run (log ++ [(7, 3)])) >>=
        fun r => .ok (tvb.length, r.2) := by
  have h10 : 10 ≤ tvb.length := by omega
  have hnot : ¬ tvb.length < 18 := by omega
  unfold dissect_itdm
  simp only [tvb_captured_length, tvb_get_ntoh24, ITDM_FLOWID_OFFSET]
  simp [hnot, StateT.run_bind, tvb_read_run_ok, except_ok_bind, h10]
  split_ifs <;> rfl

/-- C31, the claim as stated fails: with the control flow number 0 (its default) the buffer of
18 zero bytes passes the length guard of `dissect_itdm` and carries the flow id 0, so that
`dissect_itdm_control` is run; its read of four bytes at offset 26 does not lie inside the
buffer and raises the out-of-bounds exception, and `dissect_itdm` does not return the captured
length. -/
theorem dissect_itdm_length_guard_counterexample :
    18 ≤ tvb_captured_length (List.replicate 18 0) ∧
    tvb_ntoh (List.replicate 18 0) 7 3 = 0 ∧
    (dissect_itdm 0 (List.replicate 18 0) false).run [] = .error ⟨26, 4⟩ ∧
    ¬ (26 + 4 ≤ tvb_captured_length (List.replicate 18 0)) ∧
    ¬ ∃ log, (dissect_itdm 0 (List.replicate 18 0) false).run []
        = .ok (tvb_captured_length (List.replicate 18 0), log) := by
  have hrun : (dissect_itdm 0 (List.replicate 18 0) false).run [] = .error ⟨26, 4⟩ := rfl
  refine ⟨by decide, by decide, hrun, by decide, ?_⟩
  rintro ⟨log, hlog⟩
  rw [hrun] at hlog
  cases hlog

/-- C31 as amended: `dissect_itdm` returns 0 without reading any header field when the captured
length is below 18. For a captured length of at least 18 and a flow id (24 bits, big-endian, at
offset 7) other than the configured control flow number, `dissect_itdm` returns the captured
length and every read made by it and by `dissect_itdm_125usec` lies inside the buffer. When the
flow id equals the control flow number the same holds only from a captured length of 30 on
without a tree and of 34 on with a tree: below 30 the read of four bytes at offset 26 by
`dissect_itdm_control` raises the out-of-bounds exception, and from 30 to 33 with a tree the
item of two bytes at offset 32 raises it; the length guard does not make the error branch of
the accessors unreachable there. -/
theorem dissect_itdm_length_guard (gbl_ItdmCTLFlowNo : Nat) (tvb : tvbuff_t) (tree : Bool) :
    (tvb_captured_length tvb < 18 →
      (dissect_itdm gbl_ItdmCTLFlowNo tvb tree).run [] = .ok (0, [])) ∧
    (18 ≤ tvb_captured_length tvb → tvb_ntoh tvb 7 3 ≠ gbl_ItdmCTLFlowNo →
      ∃ log, (dissect_itdm gbl_ItdmCTLFlowNo tvb tree).run []
          = .ok (tvb_captured_length tvb, log) ∧
        (7, 3) ∈ log ∧ ∀ p ∈ log, p.1 + p.2 ≤ tvb_captured_length tvb) ∧
    (tvb_ntoh tvb 7 3 = gbl_ItdmCTLFlowNo →
      (if tree then 34 else 30) ≤ tvb_captured_length tvb →
      ∃ log, (dissect_itdm gbl_ItdmCTLFlowNo tvb tree).run []
          = .ok (tvb_captured_length tvb, log) ∧
        (7, 3) ∈ log ∧ ∀ p ∈ log, p.1 + p.2 ≤ tvb_captured_length tvb) ∧
    (18 ≤ tvb_captured_length tvb → tvb_ntoh tvb 7 3 = gbl_ItdmCTLFlowNo →
      tvb_captured_length tvb < 30 →
      (dissect_itdm gbl_ItdmCTLFlowNo tvb tree).run [] = .error ⟨26, 4⟩) ∧
    (30 ≤ tvb_captured_length tvb → tvb_ntoh tvb 7 3 = gbl_ItdmCTLFlowNo →
      tvb_captured_length tvb < 34 → tree = true →
      (dissect_itdm gbl_ItdmCTLFlowNo tvb tree).run [] = .error ⟨32, 2⟩) := by
  unfold tvb_captured_length
  refine ⟨fun h => dissect_itdm_run_short _ tvb tree [] h, ?_, ?_, ?_, ?_⟩
  · intro h hflow
    obtain ⟨added, hrun, hin⟩ := dissect_itdm_125usec_reads tvb tree ([] ++ [(7, 3)]) h
    refine ⟨[] ++ [(7, 3)] ++ added, ?_, by simp, ?_⟩
    · rw [dissect_itdm_run_long _ tvb tree [] h, if_neg hflow, hrun]
      rfl
    · intro p hp
      simp only [List.nil_append, List.cons_append, List.mem_cons] at hp
      rcases hp with hp | hp
      · subst hp
        show 7 + 3 ≤ tvb.length
        omega
      · exact hin p hp
  · intro hflow hlen
    have h : 18 ≤ tvb.length := by
      cases tree <;> simp at hlen <;> omega
    obtain ⟨added, hrun, hin⟩ := dissect_itdm_control_reads tvb tree ([] ++ [(7, 3)]) hlen
    refine ⟨[] ++ [(7, 3)] ++ added, ?_, by simp, ?_⟩
    · rw [dissect_itdm_run_long _ tvb tree [] h, if_pos hflow, hrun]
      rfl
    · intro p hp
      simp only [List.nil_append, List.cons_append, List.mem_cons] at hp
      rcases hp with hp | hp
      · subst hp
        show 7 + 3 ≤ tvb.length
        omega
      · exact hin p hp
  · intro h hflow hshort
    rw [dissect_itdm_run_long _ tvb tree [] h, if_pos hflow,
      dissect_itdm_control_short tvb tree _ h hshort]
    rfl
  · intro h hflow hshort htree
    subst htree
    rw [dissect_itdm_run_long _ tvb true [] (by omega), if_pos hflow,
      dissect_itdm_control_tree_cut tvb _ h hshort]
    rfl

/-- C31, instances of the amended claim with the control flow number 0: a buffer of 17 bytes; a
buffer of 18 bytes with the flow id 1, with a tree; a buffer of 34 zero bytes, with a tree; a
buffer of 18 zero bytes, without a tree; a buffer of 30 zero bytes, with a tree. -/
theorem dissect_itdm_length_guard_witness :
    (dissect_itdm 0 (List.replicate 17 0) true).run [] = .ok (0, []) ∧
    (∃ log, (dissect_itdm 0 (List.replicate 9 0 ++ 1 :: List.replicate 8 0) true).run []
        = .ok (tvb_captured_length (List.replicate 9 0 ++ 1 :: List.replicate 8 0), log) ∧
      (7, 3) ∈ log ∧
      ∀ p ∈ log, p.1 + p.2 ≤ tvb_captured_length (List.replicate 9 0 ++ 1 :: List.replicate 8 0)) ∧
    (∃ log, (dissect_itdm 0 (List.replicate 34 0) true).run []
        = .ok (tvb_captured_length (List.replicate 34 0), log) ∧
      (7, 3) ∈ log ∧ ∀ p ∈ log, p.1 + p.2 ≤ tvb_captured_length (List.replicate 34 0)) ∧
    (dissect_itdm 0 (List.replicate 18 0) false).run [] = .error ⟨26, 4⟩ ∧
    (dissect_itdm 0 (List.replicate 30 0) true).run [] = .error ⟨32, 2⟩ :=
  ⟨(dissect_itdm_length_guard 0 (List.replicate 17 0) true).1 (by decide),
    (dissect_itdm_length_guard 0 (List.replicate 9 0 ++ 1 :: List.replicate 8 0) true).2.1
      (by decide) (by decide),
    (dissect_itdm_length_guard 0 (List.replicate 34 0) true).2.2.1 (by decide) (by decide),
    (dissect_itdm_length_guard 0 (List.replicate 18 0) false).2.2.2.1
      (by decide) (by decide) (by decide),
    (dissect_itdm_length_guard 0 (List.replicate 30 0) true).2.2.2.2
      (by decide) (by decide) (by decide) rfl⟩

end Dfunctions
